import Mathlib

/-!
# UCFK Space Racer: a shallow embedding of `game.c`

The control loop of `main` is modelled as a step function `tick` on an explicit
`State` (the local variables of `main` plus the global `dead` flag), driven by
one `Input` per loop iteration (the navswitch edge events of that iteration and
the byte, if any, that the infrared receiver would deliver to `ir_read`).
The bytes passed to `ir_write` during the iteration are returned as a list.

Conventions.
* `uint8_t` and `uint16_t` variables are natural numbers; every update that can
  wrap is written with an explicit `% 256` or `% 65536`.
* `int` variables (`mines[]`, `cycle_size`) are integers. Signed overflow is
  undefined in C and is not modelled; the invariant proved below keeps these
  variables in `[-1, 7]` and `[100, 1000]`.
* The arrays `map` and `mines` are total functions on indices. An index outside
  the declared bounds is undefined behaviour in C; the model gives such an
  access the value of the function there, and reads a negative row index
  (`mines[t]` below 0 used as a row) as row 0. The invariant proved below shows
  that no reachable state has a tracker outside `[-1, 7]` or a lane index
  outside `[0, 3]`.
* Calls to the display driver (`tinygl_*`, `draw_*`) do not touch the state of
  the game and are omitted.
-/

namespace SpaceRacer

/-! ## Constants -/

/-- Macro `#define MAP_WIDTH 5`. -/
def MAP_WIDTH : Nat := 5

/-- Macro `#define MAP_HEIGHT 8`. -/
def MAP_HEIGHT : Nat := 8

/-- Macro `#define REFRESH_RATE 1000`. -/
def REFRESH_RATE : Int := 1000

/-- Local `uint8_t speed = 2;` of `main`; it is never assigned again. -/
def speed : Int := 2

/-- Character constant `'N'`. -/
def ch_N : Nat := 78

/-- Character constant `'C'`. -/
def ch_C : Nat := 67

/-- Character constant `'D'`. -/
def ch_D : Nat := 68

/-- Character constant `'0'`. -/
def ch_0 : Nat := 48

/-! ## State and input -/

/-- The variables of `main` that carry game state, and the global `dead`. -/
structure State where
  game_state : Nat
  map : Nat → Nat → Nat
  mines : Nat → Int
  connection : Nat
  multiplayer : Nat
  playerx : Nat
  playery : Nat
  count : Nat
  cycle_size : Int
  dead : Nat

/-- What one loop iteration observes: `navswitch_push_event_p` for WEST, EAST
and PUSH after `navswitch_update`, and the byte waiting in the receiver
(`none` when `ir_uart_read_ready_p` is false). -/
structure Input where
  west : Bool
  east : Bool
  push : Bool
  rx : Option Nat

/-- An iteration with no event and no byte on the link. -/
def idle : Input := ⟨false, false, false, none⟩

/-- The state built by the declarations of `main` followed by `clear_map(map)`. -/
def init : State where
  game_state := 9
  map := fun _ _ => 0
  mines := fun _ => -1
  connection := ch_N
  multiplayer := 0
  playerx := 2
  playery := 1
  count := 0
  cycle_size := REFRESH_RATE
  dead := 0

/-! ## Array writes -/

/-- The assignment `map[c][r] = v`. -/
def setCell (m : Nat → Nat → Nat) (c r v : Nat) : Nat → Nat → Nat :=
  fun c2 r2 => if c2 = c ∧ r2 = r then v else m c2 r2

/-- The assignment `mines[t] = v`. -/
def setMine (ms : Nat → Int) (t : Nat) (v : Int) : Nat → Int :=
  fun t2 => if t2 = t then v else ms t2

/-! ## Helper routines of `game.c` -/

/-- Function `ir_read`: the received character, or `'N'` if nothing was received. -/
def ir_read (i : Input) : Nat :=
  match i.rx with
  | some c => c % 256
  | none => ch_N

/-- Function `ir_connect`: sends `'C'` and returns what `ir_read` gives. -/
def ir_connect (i : Input) : Nat × List Nat :=
  (ir_read i, [ch_C])

/-- Function `clear_map`: both loops, writing 0 to every cell in bounds. -/
def clear_map (m : Nat → Nat → Nat) : Nat → Nat → Nat :=
  (List.range MAP_WIDTH).foldl
    (fun m1 c => (List.range MAP_HEIGHT).foldl (fun m2 r => setCell m2 c r 0) m1) m

/-- Function `clear_mines`: writes -1 to every tracker in bounds. -/
def clear_mines (ms : Nat → Int) : Nat → Int :=
  (List.range (MAP_WIDTH - 1)).foldl (fun ms1 t => setMine ms1 t (-1)) ms

/-- Function `player_died`: sets the global flag. -/
def player_died (s : State) : State :=
  { s with dead := 1 }

/-- Modelled from the spec: the header `tinygl.h` with the coordinate type
`tinygl_coord_t` of `tinygl_point` is missing from the source. The collision
predicate of the spec takes a signed candidate lane (it may be below 0), so a
coordinate is taken to be a signed 8-bit integer and `tinygl_point(x, y)`
converts the `int` argument `x` to that range. -/
def tinygl_coord (v : Int) : Int :=
  (v + 128) % 256 - 128

/-- Function `collision` at `newpos.x = x`: the returned value and the state
after the call (only `dead` can change). -/
def collision (s : State) (x : Int) : Nat × State :=
  if x > 3 ∨ x < 0 then (1, s)
  else if s.map x.toNat 0 ≠ 0 ∨ s.map x.toNat 1 ≠ 0 then (1, player_died s)
  else if s.map (x + 1).toNat 0 ≠ 0 ∨ s.map (x + 1).toNat 1 ≠ 0 then (1, player_died s)
  else (0, s)

/-! ## The cases of the main loop -/

/-- Case 9 of the switch (menu). -/
def menu (s : State) (i : Input) : State :=
  let s1 :=
    if s.multiplayer = 0 then
      (if i.west then { s with multiplayer := 1 } else s)
    else
      (if i.east then { s with multiplayer := 0 } else s)
  if i.push then
    (if s1.multiplayer ≠ 0 then { s1 with game_state := 0 } else { s1 with game_state := 1 })
  else s1

/-- Case 0 of the switch (connection setup). -/
def connecting (s : State) (i : Input) : State × List Nat :=
  let r := ir_connect i
  let s1 := { s with connection := r.1 }
  (if s1.connection = ch_C then { s1 with game_state := 1 } else s1, r.2)

/-- Case 1 of the switch (countdown before the game). -/
def countdown (s : State) : State :=
  let s1 := if s.count < 3000 then s else { s with count := 0, game_state := 2 }
  { s1 with count := (s1.count + 1) % 65536 }

/-- First block of the descent loop body, for `temp_var = t`: an active mine
leaves its top row, moves down by one and marks the row below its new position. -/
def drop_move (t : Nat) (s : State) : State :=
  if s.mines t + 1 ≠ 0 then
    let m0 := s.mines t
    let map1 := setCell (setCell s.map t m0.toNat 0) (t + 1) m0.toNat 0
    let m1 := m0 - 1
    let map2 :=
      if m1 > 0 then setCell (setCell map1 t (m1 - 1).toNat 1) (t + 1) (m1 - 1).toNat 1
      else map1
    { s with map := map2, mines := setMine s.mines t m1 }
  else s

/-- Second block of the descent loop body: the death check on the mine at `t`. -/
def drop_check (t : Nat) (s : State) : State :=
  if s.mines t + 1 ≠ 0 ∧ s.mines t < 3 then
    (if t = s.playerx ∨ t = s.playerx + 1 ∨ t + 1 = s.playerx then player_died s else s)
  else s

/-- Last block of the descent loop body: `count = 0` and the speed-up. -/
def drop_ramp (s : State) : State :=
  let s3 := { s with count := 0 }
  if s3.cycle_size > REFRESH_RATE / 10 then { s3 with cycle_size := s3.cycle_size - 1 } else s3

/-- Body of the loop over `temp_var` under "Drop mines", for `temp_var = t`. -/
def drop_mine (t : Nat) (s : State) : State :=
  drop_ramp (drop_check t (drop_move t s))

/-- The loop `for (temp_var = 0; temp_var < MAP_WIDTH - 1; temp_var++)` of the
descent: one pass over all lane-gaps. -/
def drop_pass (s : State) : State :=
  (List.range (MAP_WIDTH - 1)).foldl (fun s1 t => drop_mine t s1) s

/-- The statement `if (count > (cycle_size / speed)) { ... }`. The quotient is C
integer division (truncating), and the comparison is made on the mathematical
values: the invariant keeps `cycle_size / speed` in `[50, 500]`, where the signed
and the unsigned 16-bit reading of the comparison agree. -/
def drop_mines (s : State) : State :=
  if (s.count : Int) > Int.tdiv s.cycle_size speed then drop_pass s else s

/-- Value of `temp_var` after a scanning loop
`for (temp_var = 0; temp_var < MAP_WIDTH - 1; temp_var++) if (brk) break;`. -/
def loop_exit (brk : Nat → Bool) : Nat :=
  ((List.range (MAP_WIDTH - 1)).find? brk).getD (MAP_WIDTH - 1)

/-- The five assignments that place a new mine at lane-gap `n`. -/
def spawn (s : State) (n : Nat) : State :=
  { s with
    mines := setMine s.mines n 7
    map := setCell (setCell (setCell (setCell s.map n 7 1) n 6 1) (n + 1) 7 1) (n + 1) 6 1 }

/-- The multiplayer branch after the descent: send the own lane on a push and
handle a received mine drop. -/
def multi_spawn (s : State) (i : Input) : State × List Nat :=
  let out := if i.push then [(ch_0 + s.playerx) % 256] else []
  let s2 :=
    if s.connection > ch_0 - 1 ∧ s.connection < ch_0 + MAP_WIDTH - 1 then
      let s1 := { s with connection := (s.connection - ch_0) % 256 }
      if loop_exit (fun t => decide (s1.mines t > (MAP_HEIGHT : Int) - 5)) = MAP_WIDTH - 1 then
        spawn s1 s1.connection
      else s1
    else s
  (s2, out)

/-- The solo branch after the descent. -/
def solo_spawn (s : State) : State :=
  if loop_exit (fun t => decide (s.mines t > (MAP_HEIGHT : Int) - 5) ||
      decide (t = s.playerx ∧ s.mines t ≠ -1)) = MAP_WIDTH - 1 then
    spawn s s.playerx
  else s

/-- The block under "Move right": `playerx += 1` unless `collision` objects. -/
def move_right (s : State) : State :=
  let r := collision s (tinygl_coord ((s.playerx : Int) + 1))
  if r.1 = 0 then { r.2 with playerx := (r.2.playerx + 1) % 256 } else r.2

/-- The block under "Move left": `playerx -= 1` unless `collision` objects. -/
def move_left (s : State) : State :=
  let r := collision s (tinygl_coord ((s.playerx : Int) - 1))
  if r.1 = 0 then { r.2 with playerx := (r.2.playerx + 255) % 256 } else r.2

/-- Case 3 of the switch (game over). -/
def game_over (s : State) (i : Input) : State :=
  if i.push then
    { s with
      game_state := 9
      dead := 0
      map := clear_map s.map
      mines := clear_mines s.mines
      cycle_size := REFRESH_RATE
      playery := 1 }
  else s

/-- The statement `if (multiplayer) { connection = ir_read(); }`. -/
def link_read (s : State) (i : Input) : State :=
  if s.multiplayer ≠ 0 then { s with connection := ir_read i } else s

/-- The statement `count++;` on the `uint16_t` counter. -/
def count_up (s : State) : State :=
  { s with count := (s.count + 1) % 65536 }

/-- The statement `if (multiplayer) { ... } else { ... }` holding the two spawn
branches. -/
def spawn_phase (s : State) (i : Input) : State × List Nat :=
  if s.multiplayer ≠ 0 then multi_spawn s i else (solo_spawn s, [])

/-- Case 2 from `tinygl_clear` up to the spawn: read the link, descend, count,
spawn. Returns the state before the movement and the bytes written so far. -/
def play_field (s : State) (i : Input) : State × List Nat :=
  spawn_phase (count_up (drop_mines (link_read s i))) i

/-- The two movement blocks of case 2, "Move right" first. -/
def play_move (s : State) (i : Input) : State :=
  let s4 := if i.east then move_right s else s
  if i.west then move_left s4 else s4

/-- Case 2 up to the drawing calls. Returns the state before the end-of-round
test and the bytes written so far. -/
def play_update (s : State) (i : Input) : State × List Nat :=
  let r := play_field s i
  (play_move r.1 i, r.2)

/-- The end-of-round test of case 2, which falls through into case 3. -/
def round_end (s : State) (i : Input) (out : List Nat) : State × List Nat :=
  if s.dead ≠ 0 ∨ s.connection = ch_D then
    (game_over { s with game_state := 3 } i, out ++ (if s.dead ≠ 0 then [ch_D] else []))
  else (s, out)

/-- Case 2 of the switch (game loop). -/
def playing (s : State) (i : Input) : State × List Nat :=
  let r := play_update s i
  round_end r.1 i r.2

/-- One iteration of `while (1)`: the new state and the bytes sent. -/
def tick (s : State) (i : Input) : State × List Nat :=
  if s.game_state = 9 then (menu s i, [])
  else if s.game_state = 0 then connecting s i
  else if s.game_state = 1 then (countdown s, [])
  else if s.game_state = 2 then playing s i
  else if s.game_state = 3 then (game_over s i, [])
  else (s, [])

/-- The state after a sequence of iterations. -/
def run (s : State) : List Input → State
  | [] => s
  | i :: is => run (tick s i).1 is

/-- States the loop can be in at the top of an iteration. -/
inductive Reachable : State → Prop
  | start : Reachable init
  | step (s : State) (i : Input) : Reachable s → Reachable (tick s i).1

/-- The collision condition in plain terms: the candidate lane `L` is outside
`[0, 3]`, or one of the cells `(L,0)`, `(L,1)`, `(L+1,0)`, `(L+1,1)` is occupied. -/
def lane_blocked (m : Nat → Nat → Nat) (L : Int) : Prop :=
  L < 0 ∨ L > 3 ∨ m L.toNat 0 ≠ 0 ∨ m L.toNat 1 ≠ 0 ∨
    m (L.toNat + 1) 0 ≠ 0 ∨ m (L.toNat + 1) 1 ≠ 0

instance (m : Nat → Nat → Nat) (L : Int) : Decidable (lane_blocked m L) :=
  inferInstanceAs (Decidable (L < 0 ∨ L > 3 ∨ m L.toNat 0 ≠ 0 ∨ m L.toNat 1 ≠ 0 ∨
    m (L.toNat + 1) 0 ≠ 0 ∨ m (L.toNat + 1) 1 ≠ 0))

/-- An iteration with a WEST push event only. -/
def ev_west : Input := ⟨true, false, false, none⟩

/-- An iteration with an EAST push event only. -/
def ev_east : Input := ⟨false, true, false, none⟩

/-- An iteration with a PUSH event only. -/
def ev_push : Input := ⟨false, false, true, none⟩

/-- An iteration with no event and the byte `c` waiting on the link. -/
def rx_byte (c : Nat) : Input := ⟨false, false, false, some c⟩

/-- A two-round session: a multiplayer round that the peer loses at once
(`'D'` arrives on the first Playing iteration), the confirm that returns to the
menu, the switch to solo, and the countdown of the solo round. -/
def stale_trace : List Input :=
  [ev_west, ev_push, rx_byte ch_C] ++ List.replicate 3000 idle ++
    [idle, rx_byte ch_D, ev_push, ev_east, ev_push] ++ List.replicate 2998 idle ++ [idle]

/-- The state at the first Playing iteration of the solo round of `stale_trace`:
the field is clear and the player alive, and `connection` still holds the `'D'`
read in the round before. -/
def stale_state : State := { init with game_state := 2, connection := ch_D, count := 1 }

/-- The state reached from a multiplayer Playing state `s` by `n` iterations
without events or bytes that stay below the descent interval (they only count
up and store `'N'` in `connection`), followed by one iteration with input `i`. -/
def wait_then (s : State) (n : Nat) (i : Input) : State :=
  (tick { s with count := s.count + n, connection := ch_N } i).1

/-- A multiplayer session: handshake, countdown, a mine dropped by the peer at
lane-gap 2 on the second Playing iteration, and four descent passes. -/
def drop_trace : List Input :=
  [ev_west, ev_push, rx_byte ch_C] ++ List.replicate 3000 idle ++ [idle, rx_byte 50] ++
    (List.replicate 499 idle ++ [idle]) ++ (List.replicate 498 idle ++ [idle]) ++
    (List.replicate 496 idle ++ [idle]) ++ (List.replicate 494 idle ++ [idle])

/-- The state of `drop_trace` right after the spawn at lane-gap 2. -/
def drop_spawned : State :=
  (tick ⟨2, fun _ _ => 0, fun _ => -1, ch_C, 1, 2, 1, 1, 1000, 0⟩ (rx_byte 50)).1

/-- The state at the end of `drop_trace`: the mine at lane-gap 2 has descended
four times and its tracker holds 3. -/
def drop_state : State :=
  wait_then (wait_then (wait_then (wait_then drop_spawned 499 idle) 498 idle) 496 idle) 494 idle

/-- The state 492 quiet iterations after `drop_state`: the next iteration runs the
fifth descent pass, which brings the mine down onto the player. -/
def pre_death : State :=
  { drop_state with count := drop_state.count + 492, connection := ch_N }

/-- The iterations from power-on to the first Playing iteration of a solo round. -/
def solo_trace : List Input :=
  [ev_push] ++ List.replicate 3000 idle ++ [idle]

/-- The state at the first Playing iteration of a solo round right after
power-on: clear field, no mine, player on lane 2. -/
def solo_start : State := { init with game_state := 2, count := 1 }

/-- A multiplayer round in which the player moves one lane to the left and the
peer then loses, followed by the confirm, the start of a second multiplayer
round and its countdown. -/
def lane_trace : List Input :=
  [ev_west, ev_push, rx_byte ch_C] ++ List.replicate 3000 idle ++
    [idle, ev_west, rx_byte ch_D, ev_push, ev_push, rx_byte ch_C] ++
    List.replicate 2997 idle ++ [idle]

/-- The state at the first Playing iteration of the second round of
`lane_trace`. -/
def lane_state : State := ⟨2, fun _ _ => 0, fun _ => -1, ch_C, 1, 1, 1, 1, 1000, 0⟩

/-- The iteration runs the reset block of case 3 (`game_state = 9; dead = 0; ...`):
a PUSH event in the game-over state, or in a Playing iteration whose
end-of-round test succeeds and falls through into case 3. -/
def confirm_reset (s : State) (i : Input) : Prop :=
  i.push = true ∧
    (s.game_state = 3 ∨
      (s.game_state = 2 ∧
        ((play_update s i).1.dead ≠ 0 ∨ (play_update s i).1.connection = ch_D)))

/-! ## Invariants -/

/-- Every tracker in bounds holds a value in `[-1, 7]`. -/
def MinesOk (ms : Nat → Int) : Prop := ∀ t, t < 4 → -1 ≤ ms t ∧ ms t ≤ 7

/-- A single mine at lane-gap `i` with tracker value `m` on an otherwise clear
field: tracker `i` holds `m`, the other trackers are empty, and the occupied
cells in bounds are those of columns `i`, `i + 1` in rows `m` and `m - 1`. -/
def Falling (s : State) (i : Nat) (m : Int) : Prop :=
  s.mines i = m ∧ (∀ t, t < 4 → t ≠ i → s.mines t = -1) ∧
    ∀ c r, c < 5 → r < 8 →
      s.map c r = if (c = i ∨ c = i + 1) ∧ ((r : Int) = m ∨ (r : Int) = m - 1) then 1 else 0

/-- Ranges of the variables that hold at every point of an iteration. -/
structure Ranges (s : State) : Prop where
  px : s.playerx ≤ 3
  dl : s.dead ≤ 1
  clo : 100 ≤ s.cycle_size
  chi : s.cycle_size ≤ 1000
  cnt : s.count ≤ 3000
  mn : MinesOk s.mines
  mp : s.multiplayer ≤ 1
  cn : s.connection < 256

/-- Invariant of the loop at the top of an iteration: the ranges, a valid
`game_state`, and `dead` raised only in the game-over state. -/
structure Inv (s : State) : Prop where
  rg : Ranges s
  gs : s.game_state = 9 ∨ s.game_state = 0 ∨ s.game_state = 1 ∨ s.game_state = 2 ∨
    s.game_state = 3
  dz : s.game_state ≠ 3 → s.dead = 0

/-- The state of `drop_trace` 499 quiet iterations after the spawn: the next
iteration runs the first descent pass of the round. -/
def first_pass : State :=
  { drop_spawned with count := drop_spawned.count + 499, connection := ch_N }

/-- The state on entering the countdown of the first round after power-on in solo
mode: `count` is 0. -/
def first_countdown : State := ⟨1, fun _ _ => 0, fun _ => -1, ch_N, 0, 2, 1, 0, 1000, 0⟩

/-- The state on entering the countdown of the second round of `stale_trace`:
`count` still holds the 2 reached in the first round. -/
def second_countdown : State := ⟨1, fun _ _ => 0, fun _ => -1, ch_D, 0, 2, 1, 2, 1000, 0⟩

/-- The lane-gap at which the spawn branches of case 2 place a mine in state `s`,
if they place one: in multiplayer the lane-gap `connection - '0'` when
`connection` holds `'0'`..`'3'` and the scan runs to the end; in solo the
player's lane when the scan runs to the end. -/
def spawn_lane (s : State) : Option Nat :=
  if s.multiplayer ≠ 0 then
    (if s.connection > ch_0 - 1 ∧ s.connection < ch_0 + MAP_WIDTH - 1 then
      (if loop_exit (fun t => decide (s.mines t > (MAP_HEIGHT : Int) - 5)) = MAP_WIDTH - 1 then
        some ((s.connection - ch_0) % 256)
      else none)
    else none)
  else
    (if loop_exit (fun t => decide (s.mines t > (MAP_HEIGHT : Int) - 5) ||
        decide (t = s.playerx ∧ s.mines t ≠ -1)) = MAP_WIDTH - 1 then
      some s.playerx
    else none)

/-- The lane-gap at which the Playing iteration from `s` with input `i` spawns,
if it spawns: `spawn_lane` of the state left by the link read, the descent and
the count. -/
def spawn_target (s : State) (i : Input) : Option Nat :=
  spawn_lane (count_up (drop_mines (link_read s i)))

/-- Row 7 holds no cell that a tracker at 7 does not account for. -/
def Top7 (s : State) : Prop :=
  ∀ c, c < 5 → s.map c 7 ≠ 0 → ∃ t, t < 4 ∧ s.mines t = 7 ∧ (c = t ∨ c = t + 1)

/-! ## The array accesses of an iteration

Each function lists the index pairs `(column, row)` of the accesses to `map`, or
the indices of the accesses to `mines`, that the corresponding block of `game.c`
makes in the given state. Indices are integers, so that an access below 0 would
show. Where an operand of `||` or `&&` may be skipped, its access is listed all
the same. -/

/-- The cells read by `collision` at `newpos.x = x`: none when the first test
rejects `x`, else `map[x][0]`, `map[x][1]`, `map[x + 1][0]`, `map[x + 1][1]`. -/
def collision_cells (x : Int) : List (Int × Int) :=
  if x > 3 ∨ x < 0 then [] else [(x, 0), (x, 1), (x + 1, 0), (x + 1, 1)]

/-- The cells written by the first block of the descent loop body for
`temp_var = t`: row `mines[t]` before the decrement and row `mines[t] - 1` after
it, in columns `t` and `t + 1`. -/
def drop_move_cells (t : Nat) (s : State) : List (Int × Int) :=
  if s.mines t + 1 ≠ 0 then
    [((t : Int), s.mines t), ((t : Int) + 1, s.mines t)] ++
      (if s.mines t - 1 > 0 then
        [((t : Int), s.mines t - 1 - 1), ((t : Int) + 1, s.mines t - 1 - 1)]
      else [])
  else []

/-- The cells written by one descent pass. -/
def drop_pass_cells (s : State) : List (Int × Int) :=
  drop_move_cells 0 s ++ drop_move_cells 1 (drop_mine 0 s) ++
    drop_move_cells 2 (drop_mine 1 (drop_mine 0 s)) ++
    drop_move_cells 3 (drop_mine 2 (drop_mine 1 (drop_mine 0 s)))

/-- The cells written by the descent of a Playing iteration, if it runs. -/
def drop_mines_cells (s : State) : List (Int × Int) :=
  if (s.count : Int) > Int.tdiv s.cycle_size speed then drop_pass_cells s else []

/-- The cells written by a spawn at lane-gap `n`. -/
def spawn_cells (n : Nat) : List (Int × Int) :=
  [((n : Int), 7), ((n : Int), 6), ((n : Int) + 1, 7), ((n : Int) + 1, 6)]

/-- The cells written by the spawn branches in state `s`. -/
def spawn_phase_cells (s : State) : List (Int × Int) :=
  match spawn_lane s with
  | some n => spawn_cells n
  | none => []

/-- The cells read by the two movement blocks. -/
def play_move_cells (s : State) (i : Input) : List (Int × Int) :=
  (if i.east then collision_cells (tinygl_coord ((s.playerx : Int) + 1)) else []) ++
    (if i.west then
      collision_cells
        (tinygl_coord (((if i.east then move_right s else s).playerx : Int) - 1))
    else [])

/-- The cells written by `clear_map`. -/
def clear_map_cells : List (Int × Int) :=
  (List.range MAP_WIDTH).flatMap
    (fun (c : Nat) => (List.range MAP_HEIGHT).map (fun (r : Nat) => ((c : Int), (r : Int))))

/-- The cells written by case 3. -/
def game_over_cells (i : Input) : List (Int × Int) :=
  if i.push then clear_map_cells else []

/-- The accesses to `map` of case 2. -/
def playing_cells (s : State) (i : Input) : List (Int × Int) :=
  drop_mines_cells (link_read s i) ++
    spawn_phase_cells (count_up (drop_mines (link_read s i))) ++
    play_move_cells (play_field s i).1 i ++
    (if (play_update s i).1.dead ≠ 0 ∨ (play_update s i).1.connection = ch_D then
      game_over_cells i
    else [])

/-- The accesses to `map` of one iteration of the main loop. -/
def tick_cells (s : State) (i : Input) : List (Int × Int) :=
  if s.game_state = 2 then playing_cells s i
  else if s.game_state = 3 then game_over_cells i
  else []

/-- The indices of a loop `for (temp_var = 0; temp_var < MAP_WIDTH - 1; temp_var++)`
that accesses `mines[temp_var]`: the descent, the two scans, `draw_bombs` and
`clear_mines`. -/
def loop_trackers : List Int :=
  (List.range (MAP_WIDTH - 1)).map (fun (t : Nat) => (t : Int))

/-- The accesses to `mines` of case 2: the descent loop if it runs, the scan and
the spawn target of the spawn branches, `draw_bombs`, and `clear_mines` if the
round ends with a PUSH event. -/
def playing_trackers (s : State) (i : Input) : List Int :=
  (if ((link_read s i).count : Int) > Int.tdiv (link_read s i).cycle_size speed then
      loop_trackers else []) ++
    loop_trackers ++
    (match spawn_target s i with
      | some n => [(n : Int)]
      | none => []) ++
    loop_trackers ++
    (if ((play_update s i).1.dead ≠ 0 ∨ (play_update s i).1.connection = ch_D) ∧
        i.push = true then loop_trackers else [])

/-- The accesses to `mines` of one iteration of the main loop. -/
def tick_trackers (s : State) (i : Input) : List Int :=
  if s.game_state = 2 then playing_trackers s i
  else if s.game_state = 3 then (if i.push then loop_trackers else [])
  else []

/-- A cell index inside `map[MAP_WIDTH][MAP_HEIGHT]`. -/
def CellOk (p : Int × Int) : Prop := 0 ≤ p.1 ∧ p.1 ≤ 4 ∧ 0 ≤ p.2 ∧ p.2 ≤ 7

/-- Cell `(c, r)` belongs to the mine of an active tracker: some tracker `t` with
value `m` other than -1 has `c` in `{t, t + 1}` and `r` in `{m, m - 1}`. -/
def Covered (ms : Nat → Int) (c r : Nat) : Prop :=
  ∃ t, t < 4 ∧ ms t ≠ -1 ∧ (c = t ∨ c = t + 1) ∧ ((r : Int) = ms t ∨ (r : Int) = ms t - 1)

/-- The occupied cells in bounds are exactly the cells of the active trackers. -/
def Consistent (s : State) : Prop :=
  ∀ c r, c < 5 → r < 8 → (s.map c r ≠ 0 ↔ Covered s.mines c r)

/-- Any two active trackers hold values at least `g` apart. -/
def Spaced (ms : Nat → Int) (g : Int) : Prop :=
  ∀ t u, t < 4 → u < 4 → t ≠ u → ms t ≠ -1 → ms u ≠ -1 → g ≤ ms t - ms u ∨ g ≤ ms u - ms t

/-- The field is clear and every tracker is empty, in bounds. -/
def ClearEmpty (s : State) : Prop :=
  (∀ c r, c < 5 → r < 8 → s.map c r = 0) ∧ ∀ t, t < 4 → s.mines t = -1

/-- Invariant for the solo field: outside a round the field is clear and the
trackers are empty; in a solo round the field agrees with the trackers and the
active trackers are at least 4 apart. -/
def SoloInv (s : State) : Prop :=
  (s.game_state ≠ 2 ∧ s.game_state ≠ 3 → ClearEmpty s) ∧
    (s.multiplayer = 0 → Consistent s ∧ Spaced s.mines 4)

/-- A solo Playing state of the collision scenario: the player stands alive on
lane `p`, `connection` holds no `'D'`, the only mine is the one at lane-gap `p`
with tracker `m` (none if `m = -1`), `cycle_size` is `c` and `count` is `k`. -/
def Scene (s : State) (p : Nat) (m c : Int) (k : Nat) : Prop :=
  s.game_state = 2 ∧ s.multiplayer = 0 ∧ s.dead = 0 ∧ s.connection ≠ ch_D ∧
    s.playerx = p ∧ Falling s p m ∧ s.cycle_size = c ∧ s.count = k

/-! ## Frame lemmas: which variables each block leaves alone -/

@[simp] theorem player_died_game_state (s : State) : (player_died s).game_state = s.game_state := by
  rfl
@[simp] theorem player_died_map (s : State) : (player_died s).map = s.map := by
  rfl
@[simp] theorem player_died_mines (s : State) : (player_died s).mines = s.mines := by
  rfl
@[simp] theorem player_died_connection (s : State) : (player_died s).connection = s.connection := by
  rfl
@[simp] theorem player_died_multiplayer (s : State) :
    (player_died s).multiplayer = s.multiplayer := by
  rfl
@[simp] theorem player_died_playerx (s : State) : (player_died s).playerx = s.playerx := by
  rfl
@[simp] theorem player_died_playery (s : State) : (player_died s).playery = s.playery := by
  rfl
@[simp] theorem player_died_count (s : State) : (player_died s).count = s.count := by
  rfl
@[simp] theorem player_died_cycle_size (s : State) : (player_died s).cycle_size = s.cycle_size := by
  rfl

@[simp] theorem collision_game_state (s : State) (x : Int) :
    (collision s x).2.game_state = s.game_state := by
  unfold collision player_died; split_ifs <;> rfl
@[simp] theorem collision_map (s : State) (x : Int) : (collision s x).2.map = s.map := by
  unfold collision player_died; split_ifs <;> rfl
@[simp] theorem collision_mines (s : State) (x : Int) : (collision s x).2.mines = s.mines := by
  unfold collision player_died; split_ifs <;> rfl
@[simp] theorem collision_connection (s : State) (x : Int) :
    (collision s x).2.connection = s.connection := by
  unfold collision player_died; split_ifs <;> rfl
@[simp] theorem collision_multiplayer (s : State) (x : Int) :
    (collision s x).2.multiplayer = s.multiplayer := by
  unfold collision player_died; split_ifs <;> rfl
@[simp] theorem collision_playerx (s : State) (x : Int) :
    (collision s x).2.playerx = s.playerx := by
  unfold collision player_died; split_ifs <;> rfl
@[simp] theorem collision_playery (s : State) (x : Int) :
    (collision s x).2.playery = s.playery := by
  unfold collision player_died; split_ifs <;> rfl
@[simp] theorem collision_count (s : State) (x : Int) : (collision s x).2.count = s.count := by
  unfold collision player_died; split_ifs <;> rfl
@[simp] theorem collision_cycle_size (s : State) (x : Int) :
    (collision s x).2.cycle_size = s.cycle_size := by
  unfold collision player_died; split_ifs <;> rfl

@[simp] theorem drop_move_game_state (t : Nat) (s : State) :
    (drop_move t s).game_state = s.game_state := by
  unfold drop_move; split_ifs <;> rfl
@[simp] theorem drop_move_connection (t : Nat) (s : State) :
    (drop_move t s).connection = s.connection := by
  unfold drop_move; split_ifs <;> rfl
@[simp] theorem drop_move_multiplayer (t : Nat) (s : State) :
    (drop_move t s).multiplayer = s.multiplayer := by
  unfold drop_move; split_ifs <;> rfl
@[simp] theorem drop_move_playerx (t : Nat) (s : State) : (drop_move t s).playerx = s.playerx := by
  unfold drop_move; split_ifs <;> rfl
@[simp] theorem drop_move_playery (t : Nat) (s : State) : (drop_move t s).playery = s.playery := by
  unfold drop_move; split_ifs <;> rfl
@[simp] theorem drop_move_count (t : Nat) (s : State) : (drop_move t s).count = s.count := by
  unfold drop_move; split_ifs <;> rfl
@[simp] theorem drop_move_cycle_size (t : Nat) (s : State) :
    (drop_move t s).cycle_size = s.cycle_size := by
  unfold drop_move; split_ifs <;> rfl
@[simp] theorem drop_move_dead (t : Nat) (s : State) : (drop_move t s).dead = s.dead := by
  unfold drop_move; split_ifs <;> rfl

@[simp] theorem drop_check_game_state (t : Nat) (s : State) :
    (drop_check t s).game_state = s.game_state := by
  unfold drop_check player_died; split_ifs <;> rfl
@[simp] theorem drop_check_map (t : Nat) (s : State) : (drop_check t s).map = s.map := by
  unfold drop_check player_died; split_ifs <;> rfl
@[simp] theorem drop_check_mines (t : Nat) (s : State) : (drop_check t s).mines = s.mines := by
  unfold drop_check player_died; split_ifs <;> rfl
@[simp] theorem drop_check_connection (t : Nat) (s : State) :
    (drop_check t s).connection = s.connection := by
  unfold drop_check player_died; split_ifs <;> rfl
@[simp] theorem drop_check_multiplayer (t : Nat) (s : State) :
    (drop_check t s).multiplayer = s.multiplayer := by
  unfold drop_check player_died; split_ifs <;> rfl
@[simp] theorem drop_check_playerx (t : Nat) (s : State) :
    (drop_check t s).playerx = s.playerx := by
  unfold drop_check player_died; split_ifs <;> rfl
@[simp] theorem drop_check_playery (t : Nat) (s : State) :
    (drop_check t s).playery = s.playery := by
  unfold drop_check player_died; split_ifs <;> rfl
@[simp] theorem drop_check_count (t : Nat) (s : State) : (drop_check t s).count = s.count := by
  unfold drop_check player_died; split_ifs <;> rfl
@[simp] theorem drop_check_cycle_size (t : Nat) (s : State) :
    (drop_check t s).cycle_size = s.cycle_size := by
  unfold drop_check player_died; split_ifs <;> rfl

@[simp] theorem drop_ramp_game_state (s : State) : (drop_ramp s).game_state = s.game_state := by
  unfold drop_ramp; dsimp only; split_ifs <;> rfl
@[simp] theorem drop_ramp_map (s : State) : (drop_ramp s).map = s.map := by
  unfold drop_ramp; dsimp only; split_ifs <;> rfl
@[simp] theorem drop_ramp_mines (s : State) : (drop_ramp s).mines = s.mines := by
  unfold drop_ramp; dsimp only; split_ifs <;> rfl
@[simp] theorem drop_ramp_connection (s : State) : (drop_ramp s).connection = s.connection := by
  unfold drop_ramp; dsimp only; split_ifs <;> rfl
@[simp] theorem drop_ramp_multiplayer (s : State) : (drop_ramp s).multiplayer = s.multiplayer := by
  unfold drop_ramp; dsimp only; split_ifs <;> rfl
@[simp] theorem drop_ramp_playerx (s : State) : (drop_ramp s).playerx = s.playerx := by
  unfold drop_ramp; dsimp only; split_ifs <;> rfl
@[simp] theorem drop_ramp_playery (s : State) : (drop_ramp s).playery = s.playery := by
  unfold drop_ramp; dsimp only; split_ifs <;> rfl
@[simp] theorem drop_ramp_dead (s : State) : (drop_ramp s).dead = s.dead := by
  unfold drop_ramp; dsimp only; split_ifs <;> rfl

@[simp] theorem drop_mine_game_state (t : Nat) (s : State) :
    (drop_mine t s).game_state = s.game_state := by
  simp [drop_mine]
@[simp] theorem drop_mine_connection (t : Nat) (s : State) :
    (drop_mine t s).connection = s.connection := by
  simp [drop_mine]
@[simp] theorem drop_mine_multiplayer (t : Nat) (s : State) :
    (drop_mine t s).multiplayer = s.multiplayer := by
  simp [drop_mine]
@[simp] theorem drop_mine_playerx (t : Nat) (s : State) : (drop_mine t s).playerx = s.playerx := by
  simp [drop_mine]
@[simp] theorem drop_mine_playery (t : Nat) (s : State) : (drop_mine t s).playery = s.playery := by
  simp [drop_mine]

@[simp] theorem drop_pass_game_state (s : State) : (drop_pass s).game_state = s.game_state := by
  simp [drop_pass, MAP_WIDTH, List.range_succ]
@[simp] theorem drop_pass_connection (s : State) : (drop_pass s).connection = s.connection := by
  simp [drop_pass, MAP_WIDTH, List.range_succ]
@[simp] theorem drop_pass_multiplayer (s : State) : (drop_pass s).multiplayer = s.multiplayer := by
  simp [drop_pass, MAP_WIDTH, List.range_succ]
@[simp] theorem drop_pass_playerx (s : State) : (drop_pass s).playerx = s.playerx := by
  simp [drop_pass, MAP_WIDTH, List.range_succ]
@[simp] theorem drop_pass_playery (s : State) : (drop_pass s).playery = s.playery := by
  simp [drop_pass, MAP_WIDTH, List.range_succ]

@[simp] theorem drop_mines_game_state (s : State) : (drop_mines s).game_state = s.game_state := by
  unfold drop_mines; split_ifs <;> simp
@[simp] theorem drop_mines_connection (s : State) : (drop_mines s).connection = s.connection := by
  unfold drop_mines; split_ifs <;> simp
@[simp] theorem drop_mines_multiplayer (s : State) :
    (drop_mines s).multiplayer = s.multiplayer := by
  unfold drop_mines; split_ifs <;> simp
@[simp] theorem drop_mines_playerx (s : State) : (drop_mines s).playerx = s.playerx := by
  unfold drop_mines; split_ifs <;> simp
@[simp] theorem drop_mines_playery (s : State) : (drop_mines s).playery = s.playery := by
  unfold drop_mines; split_ifs <;> simp

@[simp] theorem spawn_game_state (s : State) (n : Nat) : (spawn s n).game_state = s.game_state := by
  rfl
@[simp] theorem spawn_connection (s : State) (n : Nat) : (spawn s n).connection = s.connection := by
  rfl
@[simp] theorem spawn_multiplayer (s : State) (n : Nat) :
    (spawn s n).multiplayer = s.multiplayer := by
  rfl
@[simp] theorem spawn_playerx (s : State) (n : Nat) : (spawn s n).playerx = s.playerx := by
  rfl
@[simp] theorem spawn_playery (s : State) (n : Nat) : (spawn s n).playery = s.playery := by
  rfl
@[simp] theorem spawn_count (s : State) (n : Nat) : (spawn s n).count = s.count := by
  rfl
@[simp] theorem spawn_cycle_size (s : State) (n : Nat) : (spawn s n).cycle_size = s.cycle_size := by
  rfl
@[simp] theorem spawn_dead (s : State) (n : Nat) : (spawn s n).dead = s.dead := by
  rfl

@[simp] theorem solo_spawn_game_state (s : State) : (solo_spawn s).game_state = s.game_state := by
  unfold solo_spawn; split_ifs <;> rfl
@[simp] theorem solo_spawn_connection (s : State) : (solo_spawn s).connection = s.connection := by
  unfold solo_spawn; split_ifs <;> rfl
@[simp] theorem solo_spawn_multiplayer (s : State) :
    (solo_spawn s).multiplayer = s.multiplayer := by
  unfold solo_spawn; split_ifs <;> rfl
@[simp] theorem solo_spawn_playerx (s : State) : (solo_spawn s).playerx = s.playerx := by
  unfold solo_spawn; split_ifs <;> rfl
@[simp] theorem solo_spawn_playery (s : State) : (solo_spawn s).playery = s.playery := by
  unfold solo_spawn; split_ifs <;> rfl
@[simp] theorem solo_spawn_count (s : State) : (solo_spawn s).count = s.count := by
  unfold solo_spawn; split_ifs <;> rfl
@[simp] theorem solo_spawn_cycle_size (s : State) : (solo_spawn s).cycle_size = s.cycle_size := by
  unfold solo_spawn; split_ifs <;> rfl
@[simp] theorem solo_spawn_dead (s : State) : (solo_spawn s).dead = s.dead := by
  unfold solo_spawn; split_ifs <;> rfl

@[simp] theorem multi_spawn_game_state (s : State) (i : Input) :
    (multi_spawn s i).1.game_state = s.game_state := by
  unfold multi_spawn; dsimp only; split_ifs <;> rfl
@[simp] theorem multi_spawn_multiplayer (s : State) (i : Input) :
    (multi_spawn s i).1.multiplayer = s.multiplayer := by
  unfold multi_spawn; dsimp only; split_ifs <;> rfl
@[simp] theorem multi_spawn_playerx (s : State) (i : Input) :
    (multi_spawn s i).1.playerx = s.playerx := by
  unfold multi_spawn; dsimp only; split_ifs <;> rfl
@[simp] theorem multi_spawn_playery (s : State) (i : Input) :
    (multi_spawn s i).1.playery = s.playery := by
  unfold multi_spawn; dsimp only; split_ifs <;> rfl
@[simp] theorem multi_spawn_count (s : State) (i : Input) :
    (multi_spawn s i).1.count = s.count := by
  unfold multi_spawn; dsimp only; split_ifs <;> rfl
@[simp] theorem multi_spawn_cycle_size (s : State) (i : Input) :
    (multi_spawn s i).1.cycle_size = s.cycle_size := by
  unfold multi_spawn; dsimp only; split_ifs <;> rfl
@[simp] theorem multi_spawn_dead (s : State) (i : Input) : (multi_spawn s i).1.dead = s.dead := by
  unfold multi_spawn; dsimp only; split_ifs <;> rfl

@[simp] theorem move_right_game_state (s : State) : (move_right s).game_state = s.game_state := by
  unfold move_right; dsimp only; split_ifs <;> simp
@[simp] theorem move_right_map (s : State) : (move_right s).map = s.map := by
  unfold move_right; dsimp only; split_ifs <;> simp
@[simp] theorem move_right_mines (s : State) : (move_right s).mines = s.mines := by
  unfold move_right; dsimp only; split_ifs <;> simp
@[simp] theorem move_right_connection (s : State) : (move_right s).connection = s.connection := by
  unfold move_right; dsimp only; split_ifs <;> simp
@[simp] theorem move_right_multiplayer (s : State) :
    (move_right s).multiplayer = s.multiplayer := by
  unfold move_right; dsimp only; split_ifs <;> simp
@[simp] theorem move_right_playery (s : State) : (move_right s).playery = s.playery := by
  unfold move_right; dsimp only; split_ifs <;> simp
@[simp] theorem move_right_count (s : State) : (move_right s).count = s.count := by
  unfold move_right; dsimp only; split_ifs <;> simp
@[simp] theorem move_right_cycle_size (s : State) : (move_right s).cycle_size = s.cycle_size := by
  unfold move_right; dsimp only; split_ifs <;> simp

@[simp] theorem move_left_game_state (s : State) : (move_left s).game_state = s.game_state := by
  unfold move_left; dsimp only; split_ifs <;> simp
@[simp] theorem move_left_map (s : State) : (move_left s).map = s.map := by
  unfold move_left; dsimp only; split_ifs <;> simp
@[simp] theorem move_left_mines (s : State) : (move_left s).mines = s.mines := by
  unfold move_left; dsimp only; split_ifs <;> simp
@[simp] theorem move_left_connection (s : State) : (move_left s).connection = s.connection := by
  unfold move_left; dsimp only; split_ifs <;> simp
@[simp] theorem move_left_multiplayer (s : State) : (move_left s).multiplayer = s.multiplayer := by
  unfold move_left; dsimp only; split_ifs <;> simp
@[simp] theorem move_left_playery (s : State) : (move_left s).playery = s.playery := by
  unfold move_left; dsimp only; split_ifs <;> simp
@[simp] theorem move_left_count (s : State) : (move_left s).count = s.count := by
  unfold move_left; dsimp only; split_ifs <;> simp
@[simp] theorem move_left_cycle_size (s : State) : (move_left s).cycle_size = s.cycle_size := by
  unfold move_left; dsimp only; split_ifs <;> simp

@[simp] theorem play_move_game_state (s : State) (i : Input) :
    (play_move s i).game_state = s.game_state := by
  unfold play_move; dsimp only; split_ifs <;> simp
@[simp] theorem play_move_map (s : State) (i : Input) : (play_move s i).map = s.map := by
  unfold play_move; dsimp only; split_ifs <;> simp
@[simp] theorem play_move_mines (s : State) (i : Input) : (play_move s i).mines = s.mines := by
  unfold play_move; dsimp only; split_ifs <;> simp
@[simp] theorem play_move_connection (s : State) (i : Input) :
    (play_move s i).connection = s.connection := by
  unfold play_move; dsimp only; split_ifs <;> simp
@[simp] theorem play_move_multiplayer (s : State) (i : Input) :
    (play_move s i).multiplayer = s.multiplayer := by
  unfold play_move; dsimp only; split_ifs <;> simp
@[simp] theorem play_move_playery (s : State) (i : Input) :
    (play_move s i).playery = s.playery := by
  unfold play_move; dsimp only; split_ifs <;> simp
@[simp] theorem play_move_count (s : State) (i : Input) : (play_move s i).count = s.count := by
  unfold play_move; dsimp only; split_ifs <;> simp
@[simp] theorem play_move_cycle_size (s : State) (i : Input) :
    (play_move s i).cycle_size = s.cycle_size := by
  unfold play_move; dsimp only; split_ifs <;> simp

@[simp] theorem link_read_game_state (s : State) (i : Input) :
    (link_read s i).game_state = s.game_state := by
  unfold link_read; split_ifs <;> rfl
@[simp] theorem link_read_map (s : State) (i : Input) : (link_read s i).map = s.map := by
  unfold link_read; split_ifs <;> rfl
@[simp] theorem link_read_mines (s : State) (i : Input) : (link_read s i).mines = s.mines := by
  unfold link_read; split_ifs <;> rfl
@[simp] theorem link_read_multiplayer (s : State) (i : Input) :
    (link_read s i).multiplayer = s.multiplayer := by
  unfold link_read; split_ifs <;> rfl
@[simp] theorem link_read_playerx (s : State) (i : Input) :
    (link_read s i).playerx = s.playerx := by
  unfold link_read; split_ifs <;> rfl
@[simp] theorem link_read_playery (s : State) (i : Input) :
    (link_read s i).playery = s.playery := by
  unfold link_read; split_ifs <;> rfl
@[simp] theorem link_read_count (s : State) (i : Input) : (link_read s i).count = s.count := by
  unfold link_read; split_ifs <;> rfl
@[simp] theorem link_read_cycle_size (s : State) (i : Input) :
    (link_read s i).cycle_size = s.cycle_size := by
  unfold link_read; split_ifs <;> rfl
@[simp] theorem link_read_dead (s : State) (i : Input) : (link_read s i).dead = s.dead := by
  unfold link_read; split_ifs <;> rfl

@[simp] theorem count_up_game_state (s : State) : (count_up s).game_state = s.game_state := by
  rfl
@[simp] theorem count_up_map (s : State) : (count_up s).map = s.map := by
  rfl
@[simp] theorem count_up_mines (s : State) : (count_up s).mines = s.mines := by
  rfl
@[simp] theorem count_up_connection (s : State) : (count_up s).connection = s.connection := by
  rfl
@[simp] theorem count_up_multiplayer (s : State) : (count_up s).multiplayer = s.multiplayer := by
  rfl
@[simp] theorem count_up_playerx (s : State) : (count_up s).playerx = s.playerx := by
  rfl
@[simp] theorem count_up_playery (s : State) : (count_up s).playery = s.playery := by
  rfl
@[simp] theorem count_up_cycle_size (s : State) : (count_up s).cycle_size = s.cycle_size := by
  rfl
@[simp] theorem count_up_dead (s : State) : (count_up s).dead = s.dead := by
  rfl

@[simp] theorem spawn_phase_game_state (s : State) (i : Input) :
    (spawn_phase s i).1.game_state = s.game_state := by
  unfold spawn_phase; split_ifs <;> simp
@[simp] theorem spawn_phase_multiplayer (s : State) (i : Input) :
    (spawn_phase s i).1.multiplayer = s.multiplayer := by
  unfold spawn_phase; split_ifs <;> simp
@[simp] theorem spawn_phase_playerx (s : State) (i : Input) :
    (spawn_phase s i).1.playerx = s.playerx := by
  unfold spawn_phase; split_ifs <;> simp
@[simp] theorem spawn_phase_playery (s : State) (i : Input) :
    (spawn_phase s i).1.playery = s.playery := by
  unfold spawn_phase; split_ifs <;> simp
@[simp] theorem spawn_phase_count (s : State) (i : Input) :
    (spawn_phase s i).1.count = s.count := by
  unfold spawn_phase; split_ifs <;> simp
@[simp] theorem spawn_phase_cycle_size (s : State) (i : Input) :
    (spawn_phase s i).1.cycle_size = s.cycle_size := by
  unfold spawn_phase; split_ifs <;> simp
@[simp] theorem spawn_phase_dead (s : State) (i : Input) : (spawn_phase s i).1.dead = s.dead := by
  unfold spawn_phase; split_ifs <;> simp

@[simp] theorem play_field_game_state (s : State) (i : Input) :
    (play_field s i).1.game_state = s.game_state := by
  simp [play_field]
@[simp] theorem play_field_multiplayer (s : State) (i : Input) :
    (play_field s i).1.multiplayer = s.multiplayer := by
  simp [play_field]
@[simp] theorem play_field_playerx (s : State) (i : Input) :
    (play_field s i).1.playerx = s.playerx := by
  simp [play_field]
@[simp] theorem play_field_playery (s : State) (i : Input) :
    (play_field s i).1.playery = s.playery := by
  simp [play_field]

@[simp] theorem play_update_game_state (s : State) (i : Input) :
    (play_update s i).1.game_state = s.game_state := by
  simp [play_update]
@[simp] theorem play_update_multiplayer (s : State) (i : Input) :
    (play_update s i).1.multiplayer = s.multiplayer := by
  simp [play_update]
@[simp] theorem play_update_playery (s : State) (i : Input) :
    (play_update s i).1.playery = s.playery := by
  simp [play_update]

@[simp] theorem menu_map (s : State) (i : Input) : (menu s i).map = s.map := by
  unfold menu; dsimp only; split_ifs <;> rfl
@[simp] theorem menu_mines (s : State) (i : Input) : (menu s i).mines = s.mines := by
  unfold menu; dsimp only; split_ifs <;> rfl
@[simp] theorem menu_connection (s : State) (i : Input) : (menu s i).connection = s.connection := by
  unfold menu; dsimp only; split_ifs <;> rfl
@[simp] theorem menu_playerx (s : State) (i : Input) : (menu s i).playerx = s.playerx := by
  unfold menu; dsimp only; split_ifs <;> rfl
@[simp] theorem menu_playery (s : State) (i : Input) : (menu s i).playery = s.playery := by
  unfold menu; dsimp only; split_ifs <;> rfl
@[simp] theorem menu_count (s : State) (i : Input) : (menu s i).count = s.count := by
  unfold menu; dsimp only; split_ifs <;> rfl
@[simp] theorem menu_cycle_size (s : State) (i : Input) : (menu s i).cycle_size = s.cycle_size := by
  unfold menu; dsimp only; split_ifs <;> rfl
@[simp] theorem menu_dead (s : State) (i : Input) : (menu s i).dead = s.dead := by
  unfold menu; dsimp only; split_ifs <;> rfl

@[simp] theorem connecting_map (s : State) (i : Input) : (connecting s i).1.map = s.map := by
  unfold connecting; dsimp only; split_ifs <;> rfl
@[simp] theorem connecting_mines (s : State) (i : Input) : (connecting s i).1.mines = s.mines := by
  unfold connecting; dsimp only; split_ifs <;> rfl
@[simp] theorem connecting_multiplayer (s : State) (i : Input) :
    (connecting s i).1.multiplayer = s.multiplayer := by
  unfold connecting; dsimp only; split_ifs <;> rfl
@[simp] theorem connecting_playerx (s : State) (i : Input) :
    (connecting s i).1.playerx = s.playerx := by
  unfold connecting; dsimp only; split_ifs <;> rfl
@[simp] theorem connecting_playery (s : State) (i : Input) :
    (connecting s i).1.playery = s.playery := by
  unfold connecting; dsimp only; split_ifs <;> rfl
@[simp] theorem connecting_count (s : State) (i : Input) : (connecting s i).1.count = s.count := by
  unfold connecting; dsimp only; split_ifs <;> rfl
@[simp] theorem connecting_cycle_size (s : State) (i : Input) :
    (connecting s i).1.cycle_size = s.cycle_size := by
  unfold connecting; dsimp only; split_ifs <;> rfl
@[simp] theorem connecting_dead (s : State) (i : Input) : (connecting s i).1.dead = s.dead := by
  unfold connecting; dsimp only; split_ifs <;> rfl

@[simp] theorem countdown_map (s : State) : (countdown s).map = s.map := by
  unfold countdown; dsimp only; split_ifs <;> rfl
@[simp] theorem countdown_mines (s : State) : (countdown s).mines = s.mines := by
  unfold countdown; dsimp only; split_ifs <;> rfl
@[simp] theorem countdown_connection (s : State) : (countdown s).connection = s.connection := by
  unfold countdown; dsimp only; split_ifs <;> rfl
@[simp] theorem countdown_multiplayer (s : State) : (countdown s).multiplayer = s.multiplayer := by
  unfold countdown; dsimp only; split_ifs <;> rfl
@[simp] theorem countdown_playerx (s : State) : (countdown s).playerx = s.playerx := by
  unfold countdown; dsimp only; split_ifs <;> rfl
@[simp] theorem countdown_playery (s : State) : (countdown s).playery = s.playery := by
  unfold countdown; dsimp only; split_ifs <;> rfl
@[simp] theorem countdown_cycle_size (s : State) : (countdown s).cycle_size = s.cycle_size := by
  unfold countdown; dsimp only; split_ifs <;> rfl
@[simp] theorem countdown_dead (s : State) : (countdown s).dead = s.dead := by
  unfold countdown; dsimp only; split_ifs <;> rfl

@[simp] theorem game_over_connection (s : State) (i : Input) :
    (game_over s i).connection = s.connection := by
  unfold game_over; split_ifs <;> rfl
@[simp] theorem game_over_multiplayer (s : State) (i : Input) :
    (game_over s i).multiplayer = s.multiplayer := by
  unfold game_over; split_ifs <;> rfl
@[simp] theorem game_over_playerx (s : State) (i : Input) :
    (game_over s i).playerx = s.playerx := by
  unfold game_over; split_ifs <;> rfl
@[simp] theorem game_over_count (s : State) (i : Input) : (game_over s i).count = s.count := by
  unfold game_over; split_ifs <;> rfl

@[simp] theorem round_end_connection (s : State) (i : Input) (out : List Nat) :
    (round_end s i out).1.connection = s.connection := by
  unfold round_end; split_ifs <;> simp
@[simp] theorem round_end_multiplayer (s : State) (i : Input) (out : List Nat) :
    (round_end s i out).1.multiplayer = s.multiplayer := by
  unfold round_end; split_ifs <;> simp
@[simp] theorem round_end_playerx (s : State) (i : Input) (out : List Nat) :
    (round_end s i out).1.playerx = s.playerx := by
  unfold round_end; split_ifs <;> simp
@[simp] theorem round_end_count (s : State) (i : Input) (out : List Nat) :
    (round_end s i out).1.count = s.count := by
  unfold round_end; split_ifs <;> simp

theorem tick_menu (s : State) (i : Input) (hg : s.game_state = 9) :
    tick s i = (menu s i, []) := by
  simp [tick, hg]

theorem tick_connecting (s : State) (i : Input) (hg : s.game_state = 0) :
    tick s i = connecting s i := by
  simp [tick, hg]

theorem tick_countdown_eq (s : State) (i : Input) (hg : s.game_state = 1) :
    tick s i = (countdown s, []) := by
  simp [tick, hg]

theorem tick_playing (s : State) (i : Input) (hg : s.game_state = 2) :
    tick s i = playing s i := by
  simp [tick, hg]

theorem tick_game_over (s : State) (i : Input) (hg : s.game_state = 3) :
    tick s i = (game_over s i, []) := by
  simp [tick, hg]

/-! ## What the descent does to the counters, the flag and the trackers -/

@[simp] theorem drop_ramp_count (s : State) : (drop_ramp s).count = 0 := by
  unfold drop_ramp; dsimp only; split_ifs <;> rfl

theorem drop_ramp_cycle (s : State) :
    (drop_ramp s).cycle_size = if s.cycle_size > 100 then s.cycle_size - 1 else s.cycle_size := by
  unfold drop_ramp REFRESH_RATE; dsimp only; split_ifs <;> simp_all

@[simp] theorem drop_mine_count (t : Nat) (s : State) : (drop_mine t s).count = 0 := by
  simp [drop_mine]

theorem drop_mine_cycle (t : Nat) (s : State) :
    (drop_mine t s).cycle_size =
      if s.cycle_size > 100 then s.cycle_size - 1 else s.cycle_size := by
  simp [drop_mine, drop_ramp_cycle]

theorem drop_pass_eq (s : State) :
    drop_pass s = drop_mine 3 (drop_mine 2 (drop_mine 1 (drop_mine 0 s))) := rfl

@[simp] theorem drop_pass_count (s : State) : (drop_pass s).count = 0 := by
  simp [drop_pass_eq]

theorem drop_pass_cycle (s : State) :
    (drop_pass s).cycle_size ≤ s.cycle_size ∧
      (100 ≤ s.cycle_size → 100 ≤ (drop_pass s).cycle_size) := by
  simp only [drop_pass_eq, drop_mine_cycle]
  split_ifs <;> omega

theorem drop_check_dead (t : Nat) (s : State) :
    (drop_check t s).dead = s.dead ∨ (drop_check t s).dead = 1 := by
  unfold drop_check player_died; split_ifs <;> simp

theorem drop_mine_dead (t : Nat) (s : State) :
    (drop_mine t s).dead = s.dead ∨ (drop_mine t s).dead = 1 := by
  have h := drop_check_dead t (drop_move t s)
  simpa [drop_mine] using h

theorem drop_pass_dead (s : State) :
    (drop_pass s).dead = s.dead ∨ (drop_pass s).dead = 1 := by
  rw [drop_pass_eq]
  have h0 := drop_mine_dead 0 s
  have h1 := drop_mine_dead 1 (drop_mine 0 s)
  have h2 := drop_mine_dead 2 (drop_mine 1 (drop_mine 0 s))
  have h3 := drop_mine_dead 3 (drop_mine 2 (drop_mine 1 (drop_mine 0 s)))
  omega

theorem drop_move_mines (t : Nat) (s : State) :
    (drop_move t s).mines =
      if s.mines t = -1 then s.mines else setMine s.mines t (s.mines t - 1) := by
  unfold drop_move
  by_cases h : s.mines t = -1
  · simp [h]
  · have h2 : s.mines t + 1 ≠ 0 := by omega
    simp [h, h2]

theorem drop_mine_mines (t : Nat) (s : State) :
    (drop_mine t s).mines =
      if s.mines t = -1 then s.mines else setMine s.mines t (s.mines t - 1) := by
  simp [drop_mine, drop_move_mines]

theorem drop_mine_minesOk (t : Nat) (s : State) (h : MinesOk s.mines) (ht : t < 4) :
    MinesOk (drop_mine t s).mines := by
  rw [drop_mine_mines]
  split_ifs with h1
  · exact h
  · intro u hu
    unfold setMine
    have := h u hu
    have := h t ht
    split_ifs <;> omega

theorem drop_pass_minesOk (s : State) (h : MinesOk s.mines) : MinesOk (drop_pass s).mines := by
  rw [drop_pass_eq]
  exact drop_mine_minesOk 3 _ (drop_mine_minesOk 2 _ (drop_mine_minesOk 1 _
    (drop_mine_minesOk 0 _ h (by omega)) (by omega)) (by omega)) (by omega)

/-! ## The invariant is kept by every iteration -/

theorem ir_read_lt (i : Input) : ir_read i < 256 := by
  unfold ir_read ch_N
  split
  · exact Nat.mod_lt _ (by decide)
  · decide

theorem setMine_minesOk (ms : Nat → Int) (n : Nat) (v : Int) (h : MinesOk ms)
    (hv : -1 ≤ v ∧ v ≤ 7) : MinesOk (setMine ms n v) := by
  intro u hu
  unfold setMine
  have := h u hu
  split_ifs <;> omega

theorem ranges_drop_mines (s : State) (h : Ranges s) : Ranges (drop_mines s) := by
  unfold drop_mines
  split_ifs with hc
  · have hcy := drop_pass_cycle s
    have hd := drop_pass_dead s
    have h1 := h.dl
    have h2 := h.clo
    have h3 := h.chi
    exact ⟨by simpa using h.px, by omega, hcy.2 h.clo, by omega, by simp,
      drop_pass_minesOk s h.mn, by simpa using h.mp, by simpa using h.cn⟩
  · exact h

theorem drop_mines_count_le (s : State) (h : Ranges s) : (drop_mines s).count ≤ 500 := by
  unfold drop_mines
  split_ifs with hc
  · simp
  · have h1 := h.clo
    have h3 := h.chi
    have e : Int.tdiv s.cycle_size speed = s.cycle_size / 2 :=
      Int.tdiv_eq_ediv (by omega) (by decide)
    rw [e] at hc
    omega

theorem ranges_spawn (s : State) (n : Nat) (h : Ranges s) : Ranges (spawn s n) :=
  ⟨h.px, h.dl, h.clo, h.chi, h.cnt, setMine_minesOk _ _ _ h.mn (by omega), h.mp, h.cn⟩

theorem ranges_solo_spawn (s : State) (h : Ranges s) : Ranges (solo_spawn s) := by
  unfold solo_spawn
  split_ifs
  · exact ranges_spawn s _ h
  · exact h

theorem ranges_multi_spawn (s : State) (i : Input) (h : Ranges s) :
    Ranges (multi_spawn s i).1 := by
  unfold multi_spawn
  dsimp only
  have hc : Ranges { s with connection := (s.connection - ch_0) % 256 } :=
    ⟨h.px, h.dl, h.clo, h.chi, h.cnt, h.mn, h.mp, Nat.mod_lt _ (by decide)⟩
  split_ifs
  · exact ranges_spawn _ _ hc
  · exact hc
  · exact h

theorem ranges_link_read (s : State) (i : Input) (h : Ranges s) : Ranges (link_read s i) := by
  unfold link_read
  by_cases hm : s.multiplayer ≠ 0
  · rw [if_pos hm]
    exact ⟨h.px, h.dl, h.clo, h.chi, h.cnt, h.mn, h.mp, ir_read_lt i⟩
  · rw [if_neg hm]
    exact h

theorem ranges_count_up (s : State) (h : Ranges s) (hc : s.count ≤ 500) :
    Ranges (count_up s) :=
  ⟨h.px, h.dl, h.clo, h.chi, by simp only [count_up]; omega, h.mn, h.mp, h.cn⟩

theorem ranges_spawn_phase (s : State) (i : Input) (h : Ranges s) :
    Ranges (spawn_phase s i).1 := by
  unfold spawn_phase
  by_cases hm : s.multiplayer ≠ 0
  · rw [if_pos hm]
    exact ranges_multi_spawn s i h
  · rw [if_neg hm]
    exact ranges_solo_spawn s h

theorem ranges_play_field (s : State) (i : Input) (h : Ranges s) :
    Ranges (play_field s i).1 := by
  have h0 := ranges_link_read s i h
  exact ranges_spawn_phase _ i
    (ranges_count_up _ (ranges_drop_mines _ h0) (drop_mines_count_le _ h0))

theorem collision_dead (s : State) (x : Int) :
    (collision s x).2.dead = s.dead ∨ (collision s x).2.dead = 1 := by
  unfold collision player_died; split_ifs <;> simp

theorem collision_free (s : State) (x : Int) (h : (collision s x).1 = 0) :
    0 ≤ x ∧ x ≤ 3 := by
  unfold collision at h
  split_ifs at h with h1
  omega

theorem tinygl_coord_small (v : Int) (h : -128 ≤ v ∧ v ≤ 127) : tinygl_coord v = v := by
  unfold tinygl_coord; omega

theorem ranges_move_right (s : State) (h : Ranges s) : Ranges (move_right s) := by
  have hp := h.px
  have hd := collision_dead s (tinygl_coord ((s.playerx : Int) + 1))
  have hl := h.dl
  have e : tinygl_coord ((s.playerx : Int) + 1) = (s.playerx : Int) + 1 :=
    tinygl_coord_small _ (by omega)
  unfold move_right
  dsimp only
  split_ifs with hc
  · have hb := collision_free _ _ hc
    rw [e] at hb
    refine ⟨?_, by simp only; omega, by simpa using h.clo, by simpa using h.chi,
      by simpa using h.cnt, by simpa using h.mn, by simpa using h.mp, by simpa using h.cn⟩
    simp only [collision_playerx]
    omega
  · exact ⟨by simpa using h.px, by omega, by simpa using h.clo, by simpa using h.chi,
      by simpa using h.cnt, by simpa using h.mn, by simpa using h.mp, by simpa using h.cn⟩

theorem ranges_move_left (s : State) (h : Ranges s) : Ranges (move_left s) := by
  have hp := h.px
  have hd := collision_dead s (tinygl_coord ((s.playerx : Int) - 1))
  have hl := h.dl
  have e : tinygl_coord ((s.playerx : Int) - 1) = (s.playerx : Int) - 1 :=
    tinygl_coord_small _ (by omega)
  unfold move_left
  dsimp only
  split_ifs with hc
  · have hb := collision_free _ _ hc
    rw [e] at hb
    refine ⟨?_, by simp only; omega, by simpa using h.clo, by simpa using h.chi,
      by simpa using h.cnt, by simpa using h.mn, by simpa using h.mp, by simpa using h.cn⟩
    simp only [collision_playerx]
    omega
  · exact ⟨by simpa using h.px, by omega, by simpa using h.clo, by simpa using h.chi,
      by simpa using h.cnt, by simpa using h.mn, by simpa using h.mp, by simpa using h.cn⟩

theorem ranges_play_move (s : State) (i : Input) (h : Ranges s) : Ranges (play_move s i) := by
  have h4 : Ranges (if i.east = true then move_right s else s) := by
    by_cases he : i.east = true
    · rw [if_pos he]
      exact ranges_move_right s h
    · rw [if_neg he]
      exact h
  unfold play_move
  dsimp only
  by_cases hw : i.west = true
  · rw [if_pos hw]
    exact ranges_move_left _ h4
  · rw [if_neg hw]
    exact h4

theorem ranges_play_update (s : State) (i : Input) (h : Ranges s) :
    Ranges (play_update s i).1 :=
  ranges_play_move _ _ (ranges_play_field s i h)

theorem clear_mines_apply (ms : Nat → Int) (t : Nat) :
    clear_mines ms t = if t < 4 then -1 else ms t := by
  simp only [clear_mines, MAP_WIDTH, List.range_succ, List.range_zero, List.nil_append,
    List.foldl_append, List.foldl_cons, List.foldl_nil, setMine]
  split_ifs <;> first | rfl | omega

theorem clear_row_apply (m : Nat → Nat → Nat) (c n c2 r2 : Nat) :
    (List.range n).foldl (fun m2 r => setCell m2 c r 0) m c2 r2 =
      if c2 = c ∧ r2 < n then 0 else m c2 r2 := by
  induction n with
  | zero => simp
  | succ k ih =>
    rw [List.range_succ, List.foldl_append]
    simp only [List.foldl_cons, List.foldl_nil, setCell, ih]
    split_ifs <;> first | rfl | omega

theorem clear_cols_apply (m : Nat → Nat → Nat) (k c2 r2 : Nat) :
    (List.range k).foldl
      (fun m1 c => (List.range MAP_HEIGHT).foldl (fun m2 r => setCell m2 c r 0) m1) m c2 r2 =
      if c2 < k ∧ r2 < MAP_HEIGHT then 0 else m c2 r2 := by
  induction k with
  | zero => simp
  | succ j ih =>
    rw [List.range_succ, List.foldl_append]
    simp only [List.foldl_cons, List.foldl_nil, clear_row_apply, ih]
    split_ifs <;> first | rfl | omega

theorem clear_map_apply (m : Nat → Nat → Nat) (c r : Nat) :
    clear_map m c r = if c < 5 ∧ r < 8 then 0 else m c r := by
  unfold clear_map
  rw [clear_cols_apply]
  rfl

theorem inv_game_over (s : State) (i : Input) (h : Ranges s) (hg : s.game_state = 3) :
    Inv (game_over s i) := by
  unfold game_over
  by_cases hp : i.push = true
  · rw [if_pos hp]
    refine ⟨⟨h.px, by simp, by simp [REFRESH_RATE], by simp [REFRESH_RATE], h.cnt, ?_, h.mp,
      h.cn⟩, by simp, by simp⟩
    intro t ht
    simp [clear_mines_apply, ht]
  · rw [if_neg hp]
    exact ⟨h, by simp [hg], by simp [hg]⟩

theorem inv_round_end (s : State) (i : Input) (out : List Nat) (h : Ranges s)
    (hg : s.game_state = 2) : Inv (round_end s i out).1 := by
  unfold round_end
  by_cases he : s.dead ≠ 0 ∨ s.connection = ch_D
  · rw [if_pos he]
    exact inv_game_over _ i ⟨h.px, h.dl, h.clo, h.chi, h.cnt, h.mn, h.mp, h.cn⟩ rfl
  · rw [if_neg he]
    refine ⟨h, by simp [hg], ?_⟩
    intro _
    by_contra hd
    exact he (Or.inl hd)

theorem inv_menu (s : State) (i : Input) (h : Inv s) (hg : s.game_state = 9) :
    Inv (menu s i) := by
  have hr := h.rg
  have hd : s.dead = 0 := h.dz (by omega)
  unfold menu
  dsimp only
  split_ifs <;>
    exact ⟨⟨hr.px, hr.dl, hr.clo, hr.chi, hr.cnt, hr.mn, by first | exact hr.mp | simp, hr.cn⟩,
      by simp [hg], fun _ => hd⟩

theorem inv_connecting (s : State) (i : Input) (h : Inv s) (hg : s.game_state = 0) :
    Inv (connecting s i).1 := by
  have hr := h.rg
  have hd : s.dead = 0 := h.dz (by omega)
  unfold connecting ir_connect
  dsimp only
  split_ifs <;>
    exact ⟨⟨hr.px, hr.dl, hr.clo, hr.chi, hr.cnt, hr.mn, hr.mp, ir_read_lt i⟩,
      by simp [hg], fun _ => hd⟩

theorem inv_countdown (s : State) (h : Inv s) (hg : s.game_state = 1) :
    Inv (countdown s) := by
  have hr := h.rg
  have hd : s.dead = 0 := h.dz (by omega)
  unfold countdown
  dsimp only
  split_ifs with hc
  · exact ⟨⟨hr.px, hr.dl, hr.clo, hr.chi, by simp only; omega, hr.mn, hr.mp, hr.cn⟩,
      by simp [hg], fun _ => hd⟩
  · exact ⟨⟨hr.px, hr.dl, hr.clo, hr.chi, by simp, hr.mn, hr.mp, hr.cn⟩,
      by simp, fun _ => hd⟩

theorem inv_tick (s : State) (i : Input) (h : Inv s) : Inv (tick s i).1 := by
  unfold tick
  rcases h.gs with hg | hg | hg | hg | hg
  · simp only [hg, if_true]
    exact inv_menu s i h hg
  · simp only [hg]
    exact inv_connecting s i h hg
  · simp only [hg]
    exact inv_countdown s h hg
  · simp only [hg]
    exact inv_round_end _ i _ (ranges_play_update s i h.rg) (by simp [hg])
  · simp only [hg]
    exact inv_game_over s i h.rg hg

theorem inv_init : Inv init :=
  ⟨⟨by decide, by decide, by decide, by decide, by decide, fun _ _ => by simp [init],
    by decide, by decide⟩, by decide, fun _ => rfl⟩

theorem reachable_inv (s : State) (h : Reachable s) : Inv s := by
  induction h with
  | start => exact inv_init
  | step s i _ ih => exact inv_tick s i ih

/-! ## Movement helpers -/

theorem collision_fst (s : State) (x : Int) :
    (collision s x).1 = if lane_blocked s.map x then 1 else 0 := by
  unfold collision lane_blocked
  by_cases h1 : x > 3 ∨ x < 0
  · have h2 : x < 0 ∨ x > 3 := h1.symm
    rw [if_pos h1, if_pos (by tauto)]
  · have e : (x + 1).toNat = x.toNat + 1 := by omega
    rw [if_neg h1, e]
    have h3 : ¬ x < 0 := by omega
    have h4 : ¬ x > 3 := by omega
    by_cases ha : s.map x.toNat 0 ≠ 0 ∨ s.map x.toNat 1 ≠ 0
    · rw [if_pos ha, if_pos (by tauto)]
    · rw [if_neg ha]
      by_cases hb : s.map (x.toNat + 1) 0 ≠ 0 ∨ s.map (x.toNat + 1) 1 ≠ 0
      · rw [if_pos hb, if_pos (by tauto)]
      · rw [if_neg hb, if_neg (by tauto)]

theorem lane_blocked_of_out (m : Nat → Nat → Nat) (L : Int) (h : L < 0 ∨ L > 3) :
    lane_blocked m L := by
  unfold lane_blocked; tauto

theorem move_right_playerx (s : State) (hx : s.playerx ≤ 3) :
    (move_right s).playerx =
      if lane_blocked s.map ((s.playerx : Int) + 1) then s.playerx else s.playerx + 1 := by
  have e : tinygl_coord ((s.playerx : Int) + 1) = (s.playerx : Int) + 1 :=
    tinygl_coord_small _ (by omega)
  unfold move_right
  dsimp only
  rw [e, collision_fst]
  by_cases hb : lane_blocked s.map ((s.playerx : Int) + 1)
  · simp [hb]
  · have h3 : s.playerx + 1 ≤ 3 := by
      by_contra hc
      exact hb (lane_blocked_of_out _ _ (Or.inr (by omega)))
    simp only [hb, if_false, if_true, collision_playerx]
    omega

theorem move_left_playerx (s : State) (hx : s.playerx ≤ 3) :
    (move_left s).playerx =
      if lane_blocked s.map ((s.playerx : Int) - 1) then s.playerx else s.playerx - 1 := by
  have e : tinygl_coord ((s.playerx : Int) - 1) = (s.playerx : Int) - 1 :=
    tinygl_coord_small _ (by omega)
  unfold move_left
  dsimp only
  rw [e, collision_fst]
  by_cases hb : lane_blocked s.map ((s.playerx : Int) - 1)
  · simp [hb]
  · have h3 : 1 ≤ s.playerx := by
      by_contra hc
      exact hb (lane_blocked_of_out _ _ (Or.inl (by omega)))
    simp only [hb, if_false, if_true, collision_playerx]
    omega

/-! ## Runs: long stretches of iterations without events -/

theorem run_append (s : State) (l1 l2 : List Input) :
    run s (l1 ++ l2) = run (run s l1) l2 := by
  induction l1 generalizing s with
  | nil => rfl
  | cons i is ih => exact ih _

theorem reachable_run (s : State) (l : List Input) (h : Reachable s) : Reachable (run s l) := by
  induction l generalizing s with
  | nil => exact h
  | cons i is ih => exact ih _ (Reachable.step s i h)

theorem tick_countdown (s : State) (i : Input) (hg : s.game_state = 1) (hc : s.count < 3000) :
    (tick s i).1 = { s with count := s.count + 1 } := by
  have h1 : (s.count + 1) % 65536 = s.count + 1 := by omega
  simp [tick, countdown, hg, hc, h1]

theorem run_countdown (n : Nat) (s : State) (hg : s.game_state = 1)
    (hc : s.count + n ≤ 3000) :
    run s (List.replicate n idle) = { s with count := s.count + n } := by
  induction n generalizing s with
  | zero => rfl
  | succ k ih =>
    rw [List.replicate_succ, run, tick_countdown s idle hg (by omega),
      ih { s with count := s.count + 1 } hg (by simp only; omega)]
    simp only [State.mk.injEq, true_and, and_true]
    omega

theorem tick_multi_idle (s : State) (hg : s.game_state = 2) (hm : s.multiplayer ≠ 0)
    (hd : s.dead = 0) (hc : (s.count : Int) ≤ Int.tdiv s.cycle_size speed)
    (hl : s.count < 65535) :
    (tick s idle).1 = { s with count := s.count + 1, connection := ch_N } := by
  have h1 : (s.count + 1) % 65536 = s.count + 1 := by omega
  have h2 : ¬ (s.count : Int) > Int.tdiv s.cycle_size speed := by omega
  simp [tick, hg, playing, play_update, play_field, link_read, hm, drop_mines, h2, count_up,
    spawn_phase, multi_spawn, idle, ir_read, play_move, round_end, hd, h1, ch_N, ch_0, ch_D,
    MAP_WIDTH]

theorem run_multi_idle (n : Nat) (s : State) (hg : s.game_state = 2) (hm : s.multiplayer ≠ 0)
    (hd : s.dead = 0) (hc : ((s.count + n : Nat) : Int) ≤ Int.tdiv s.cycle_size speed)
    (hl : s.count + n < 65535) :
    run s (List.replicate (n + 1) idle) =
      { s with count := s.count + (n + 1), connection := ch_N } := by
  induction n generalizing s with
  | zero =>
    rw [List.replicate_succ, List.replicate_zero, run, run]
    exact tick_multi_idle s hg hm hd (by simpa using hc) (by omega)
  | succ k ih =>
    rw [List.replicate_succ, run,
      tick_multi_idle s hg hm hd (by push_cast at hc ⊢; omega) (by omega),
      ih { s with count := s.count + 1, connection := ch_N } hg hm hd
        (by push_cast at hc ⊢; omega) (by simp only; omega)]
    simp only [State.mk.injEq, true_and, and_true]
    omega

/-! ## A session that leaves a stale byte in `connection` -/

theorem clear_map_zero : clear_map (fun _ _ => 0) = fun _ _ => 0 := by
  funext c r
  rw [clear_map_apply]
  split_ifs <;> rfl

theorem clear_mines_empty : clear_mines (fun _ => -1) = fun _ => -1 := by
  funext t
  rw [clear_mines_apply]
  split_ifs <;> rfl

theorem run_stale_trace : run init stale_trace = stale_state := by
  have e1 : run init [ev_west, ev_push, rx_byte ch_C] =
      ⟨1, fun _ _ => 0, fun _ => -1, ch_C, 1, 2, 1, 0, 1000, 0⟩ := rfl
  have e2 : run ⟨1, fun _ _ => 0, fun _ => -1, ch_C, 1, 2, 1, 0, 1000, 0⟩
      (List.replicate 3000 idle) =
      ⟨1, fun _ _ => 0, fun _ => -1, ch_C, 1, 2, 1, 3000, 1000, 0⟩ :=
    run_countdown 3000 _ rfl (by decide)
  have e3 : run ⟨1, fun _ _ => 0, fun _ => -1, ch_C, 1, 2, 1, 3000, 1000, 0⟩
      [idle, rx_byte ch_D, ev_push, ev_east, ev_push] =
      ⟨1, clear_map (fun _ _ => 0), clear_mines (fun _ => -1), ch_D, 0, 2, 1, 2, 1000, 0⟩ := rfl
  have e4 : run ⟨1, fun _ _ => 0, fun _ => -1, ch_D, 0, 2, 1, 2, 1000, 0⟩
      (List.replicate 2998 idle) =
      ⟨1, fun _ _ => 0, fun _ => -1, ch_D, 0, 2, 1, 3000, 1000, 0⟩ :=
    run_countdown 2998 _ rfl (by decide)
  have e5 : run ⟨1, fun _ _ => 0, fun _ => -1, ch_D, 0, 2, 1, 3000, 1000, 0⟩ [idle] =
      stale_state := rfl
  unfold stale_trace
  rw [run_append, run_append, run_append, run_append, e1, e2, e3, clear_map_zero,
    clear_mines_empty, e4, e5]

theorem reachable_stale_state : Reachable stale_state := by
  rw [← run_stale_trace]
  exact reachable_run _ _ Reachable.start

/-! ## A multiplayer session with a mine dropped by the peer -/

theorem run_wait_then (n : Nat) (s : State) (i : Input) (hn : 0 < n) (hg : s.game_state = 2)
    (hm : s.multiplayer ≠ 0) (hd : s.dead = 0)
    (hc : ((s.count + n : Nat) : Int) ≤ Int.tdiv s.cycle_size speed + 1)
    (hl : s.count + n < 65536) :
    run (run s (List.replicate n idle)) [i] = wait_then s n i := by
  obtain ⟨k, rfl⟩ : ∃ k, n = k + 1 := ⟨n - 1, by omega⟩
  rw [run_multi_idle k s hg hm hd (by push_cast at hc ⊢; omega) (by omega)]
  rfl

theorem run_drop_trace : run init drop_trace = drop_state := by
  have e1 : run init [ev_west, ev_push, rx_byte ch_C] =
      ⟨1, fun _ _ => 0, fun _ => -1, ch_C, 1, 2, 1, 0, 1000, 0⟩ := rfl
  have e2 : run ⟨1, fun _ _ => 0, fun _ => -1, ch_C, 1, 2, 1, 0, 1000, 0⟩
      (List.replicate 3000 idle) =
      ⟨1, fun _ _ => 0, fun _ => -1, ch_C, 1, 2, 1, 3000, 1000, 0⟩ :=
    run_countdown 3000 _ rfl (by decide)
  have e3 : run ⟨1, fun _ _ => 0, fun _ => -1, ch_C, 1, 2, 1, 3000, 1000, 0⟩
      [idle, rx_byte 50] = drop_spawned := rfl
  have e4 := run_wait_then 499 drop_spawned idle (by decide) (by decide) (by decide)
    (by decide) (by decide) (by decide)
  have e5 := run_wait_then 498 (wait_then drop_spawned 499 idle) idle (by decide) (by decide)
    (by decide) (by decide) (by decide) (by decide)
  have e6 := run_wait_then 496 (wait_then (wait_then drop_spawned 499 idle) 498 idle) idle
    (by decide) (by decide) (by decide) (by decide) (by decide) (by decide)
  have e7 := run_wait_then 494
    (wait_then (wait_then (wait_then drop_spawned 499 idle) 498 idle) 496 idle) idle
    (by decide) (by decide) (by decide) (by decide) (by decide) (by decide)
  unfold drop_trace
  simp only [run_append]
  rw [e1, e2, e3, e4, e5, e6, e7]
  rfl

theorem reachable_drop_state : Reachable drop_state := by
  rw [← run_drop_trace]
  exact reachable_run _ _ Reachable.start

theorem reachable_pre_death : Reachable pre_death := by
  have e : run drop_state (List.replicate 492 idle) = pre_death :=
    run_multi_idle 491 drop_state (by decide) (by decide) (by decide) (by decide) (by decide)
  rw [← e]
  exact reachable_run _ _ reachable_drop_state

/-! ## Bytes sent by a Playing iteration -/

theorem multi_spawn_out (s : State) (i : Input) :
    (multi_spawn s i).2 = if i.push = true then [(ch_0 + s.playerx) % 256] else [] := by
  unfold multi_spawn; rfl

theorem spawn_phase_out (s : State) (i : Input) :
    (spawn_phase s i).2 =
      if s.multiplayer ≠ 0 ∧ i.push = true then [(ch_0 + s.playerx) % 256] else [] := by
  unfold spawn_phase
  by_cases hm : s.multiplayer ≠ 0
  · rw [if_pos hm, multi_spawn_out]
    by_cases hp : i.push = true <;> simp [hm, hp]
  · rw [if_neg hm]
    simp [hm]

theorem play_update_out (s : State) (i : Input) :
    (play_update s i).2 =
      if s.multiplayer ≠ 0 ∧ i.push = true then [(ch_0 + s.playerx) % 256] else [] := by
  unfold play_update play_field
  dsimp only
  rw [spawn_phase_out]
  simp

theorem play_update_out_count (s : State) (i : Input) (hx : s.playerx ≤ 3) :
    List.count ch_D (play_update s i).2 = 0 := by
  rw [play_update_out]
  split_ifs
  · have h1 : (ch_0 + s.playerx) % 256 ≠ ch_D := by
      unfold ch_0 ch_D; omega
    rw [List.count_singleton]
    simp [h1]
  · rfl

/-! ## The scanning loops of the spawn -/

theorem run_solo_trace : run init solo_trace = solo_start := by
  have e1 : run init [ev_push] = ⟨1, fun _ _ => 0, fun _ => -1, ch_N, 0, 2, 1, 0, 1000, 0⟩ := rfl
  have e2 : run ⟨1, fun _ _ => 0, fun _ => -1, ch_N, 0, 2, 1, 0, 1000, 0⟩
      (List.replicate 3000 idle) =
      ⟨1, fun _ _ => 0, fun _ => -1, ch_N, 0, 2, 1, 3000, 1000, 0⟩ :=
    run_countdown 3000 _ rfl (by decide)
  have e3 : run ⟨1, fun _ _ => 0, fun _ => -1, ch_N, 0, 2, 1, 3000, 1000, 0⟩ [idle] =
      solo_start := rfl
  unfold solo_trace
  simp only [run_append]
  rw [e1, e2, e3]

theorem reachable_solo_start : Reachable solo_start := by
  rw [← run_solo_trace]
  exact reachable_run _ _ Reachable.start

theorem loop_exit_eq (brk : Nat → Bool) :
    loop_exit brk =
      if brk 0 then 0 else if brk 1 then 1 else if brk 2 then 2 else if brk 3 then 3 else 4 := by
  unfold loop_exit MAP_WIDTH
  simp [List.range_succ, List.find?_cons]
  cases brk 0 <;> cases brk 1 <;> cases brk 2 <;> cases brk 3 <;> simp

theorem loop_exit_iff (brk : Nat → Bool) :
    loop_exit brk = MAP_WIDTH - 1 ↔ ∀ t, t < 4 → brk t = false := by
  rw [loop_exit_eq]
  have e : MAP_WIDTH - 1 = 4 := rfl
  rw [e]
  constructor
  · intro h t ht
    interval_cases t <;> revert h <;>
      cases brk 0 <;> cases brk 1 <;> cases brk 2 <;> cases brk 3 <;> simp
  · intro h
    simp [h 0, h 1, h 2, h 3]

theorem solo_spawn_iff (s : State) (hx : s.playerx ≤ 3) :
    loop_exit (fun t => decide (s.mines t > (MAP_HEIGHT : Int) - 5) ||
      decide (t = s.playerx ∧ s.mines t ≠ -1)) = MAP_WIDTH - 1 ↔
    (∀ t, t < 4 → s.mines t ≤ 3) ∧ s.mines s.playerx = -1 := by
  rw [loop_exit_iff]
  have e : ((MAP_HEIGHT : Nat) : Int) - 5 = 3 := rfl
  simp only [e, Bool.or_eq_false_iff, decide_eq_false_iff_not, not_lt, not_and, not_not]
  constructor
  · intro h
    exact ⟨fun t ht => (h t ht).1, (h s.playerx (by omega)).2 rfl⟩
  · rintro ⟨h1, h2⟩ t ht
    refine ⟨h1 t ht, ?_⟩
    intro e2
    rw [e2]
    exact h2

theorem solo_spawn_on_lane (s : State) (hx : s.playerx ≤ 3) :
    ((∀ t, t < 4 → s.mines t ≤ 3) ∧ s.mines s.playerx = -1 →
      solo_spawn s = spawn s s.playerx ∧ (solo_spawn s).mines s.playerx = 7 ∧
        ∀ t, t ≠ s.playerx → (solo_spawn s).mines t = s.mines t) ∧
    (¬ ((∀ t, t < 4 → s.mines t ≤ 3) ∧ s.mines s.playerx = -1) → solo_spawn s = s) := by
  constructor
  · intro h
    have h1 : solo_spawn s = spawn s s.playerx := by
      unfold solo_spawn
      rw [if_pos ((solo_spawn_iff s hx).2 h)]
    rw [h1]
    refine ⟨rfl, by simp [spawn, setMine], ?_⟩
    intro t ht
    simp [spawn, setMine, ht]
  · intro h
    unfold solo_spawn
    rw [if_neg (fun hc => h ((solo_spawn_iff s hx).1 hc))]

/-! ## A single mine falling through a clear field -/

theorem drop_move_map_active (t : Nat) (s : State) (h : s.mines t ≠ -1) (c r : Nat) :
    (drop_move t s).map c r =
      if 0 < s.mines t - 1 ∧ (c = t ∨ c = t + 1) ∧ r = (s.mines t - 1 - 1).toNat then 1
      else if (c = t ∨ c = t + 1) ∧ r = (s.mines t).toNat then 0
      else s.map c r := by
  have hne : s.mines t + 1 ≠ 0 := by omega
  unfold drop_move
  rw [if_pos hne]
  dsimp only
  by_cases hp : s.mines t - 1 > 0
  · rw [if_pos hp]
    simp only [setCell]
    split_ifs <;> first | rfl | omega
  · rw [if_neg hp]
    simp only [setCell]
    split_ifs <;> first | rfl | omega

theorem falling_drop_move (s : State) (i : Nat) (m : Int) (h0 : 0 ≤ m)
    (h : Falling s i m) : Falling (drop_move i s) i (m - 1) := by
  obtain ⟨hm, ho, hc⟩ := h
  have hne : s.mines i ≠ -1 := by omega
  refine ⟨?_, ?_, ?_⟩
  · rw [drop_move_mines, if_neg hne]
    simp [setMine, hm]
  · intro t ht hti
    rw [drop_move_mines, if_neg hne]
    simp [setMine, hti, ho t ht hti]
  · intro c r hc5 hr8
    have hcr := hc c r hc5 hr8
    rw [drop_move_map_active i s hne, hm]
    split_ifs at hcr ⊢ <;> omega

theorem falling_congr (s u : State) (i : Nat) (m : Int) (h1 : u.mines = s.mines)
    (h2 : u.map = s.map) (h : Falling s i m) : Falling u i m := by
  unfold Falling
  rw [h1, h2]
  exact h

theorem falling_drop_mine_self (s : State) (i : Nat) (m : Int) (h0 : 0 ≤ m)
    (h : Falling s i m) : Falling (drop_mine i s) i (m - 1) :=
  falling_congr (drop_move i s) _ i _ (by simp [drop_mine]) (by simp [drop_mine])
    (falling_drop_move s i m h0 h)

theorem falling_drop_mine_other (s : State) (i t : Nat) (m : Int) (ht : t < 4) (hti : t ≠ i)
    (h : Falling s i m) : Falling (drop_mine t s) i m := by
  have e : drop_move t s = s := by simp [drop_move, h.2.1 t ht hti]
  exact falling_congr s _ i m (by simp [drop_mine, e]) (by simp [drop_mine, e]) h

theorem falling_drop_pass (s : State) (i : Nat) (m : Int) (hi : i < 4) (h0 : 0 ≤ m)
    (h : Falling s i m) : Falling (drop_pass s) i (m - 1) := by
  rw [drop_pass_eq]
  interval_cases i
  · exact falling_drop_mine_other _ 0 3 _ (by omega) (by omega)
      (falling_drop_mine_other _ 0 2 _ (by omega) (by omega)
        (falling_drop_mine_other _ 0 1 _ (by omega) (by omega)
          (falling_drop_mine_self s 0 m h0 h)))
  · exact falling_drop_mine_other _ 1 3 _ (by omega) (by omega)
      (falling_drop_mine_other _ 1 2 _ (by omega) (by omega)
        (falling_drop_mine_self _ 1 m h0
          (falling_drop_mine_other s 1 0 _ (by omega) (by omega) h)))
  · exact falling_drop_mine_other _ 2 3 _ (by omega) (by omega)
      (falling_drop_mine_self _ 2 m h0
        (falling_drop_mine_other _ 2 1 _ (by omega) (by omega)
          (falling_drop_mine_other s 2 0 _ (by omega) (by omega) h)))
  · exact falling_drop_mine_self _ 3 m h0
      (falling_drop_mine_other _ 3 2 _ (by omega) (by omega)
        (falling_drop_mine_other _ 3 1 _ (by omega) (by omega)
          (falling_drop_mine_other s 3 0 _ (by omega) (by omega) h)))

theorem falling_spawn (s : State) (i : Nat)
    (hclear : ∀ c r, c < 5 → r < 8 → s.map c r = 0) (hempty : ∀ t, t < 4 → s.mines t = -1) :
    Falling (spawn s i) i 7 := by
  refine ⟨by simp [spawn, setMine], ?_, ?_⟩
  · intro t ht hti
    simp [spawn, setMine, hti, hempty t ht]
  · intro c r hc hr
    have h := hclear c r hc hr
    simp only [spawn, setCell]
    split_ifs <;> omega

theorem falling_iterate (s : State) (i : Nat) (hi : i < 4) (h : Falling s i 7) (k : Nat)
    (hk : k ≤ 8) : Falling (Nat.iterate drop_pass k s) i (7 - (k : Int)) := by
  induction k with
  | zero => simpa using h
  | succ j ih =>
    rw [Function.iterate_succ_apply']
    have e : (7 : Int) - ((j + 1 : Nat) : Int) = 7 - (j : Int) - 1 := by push_cast; omega
    rw [e]
    exact falling_drop_pass _ i _ hi (by omega) (ih (by omega))

/-! ## The difficulty counter and the reset -/

theorem drop_mines_cycle_le (s : State) : (drop_mines s).cycle_size ≤ s.cycle_size := by
  unfold drop_mines
  split_ifs
  · exact (drop_pass_cycle s).1
  · exact le_refl _

theorem play_update_cycle_le (s : State) (i : Input) :
    (play_update s i).1.cycle_size ≤ s.cycle_size := by
  have h := drop_mines_cycle_le (link_read s i)
  simpa [play_update, play_field] using h

theorem game_over_push (s : State) (i : Input) (hp : i.push = true) :
    game_over s i =
      { s with
        game_state := 9
        dead := 0
        map := clear_map s.map
        mines := clear_mines s.mines
        cycle_size := REFRESH_RATE
        playery := 1 } := by
  unfold game_over
  rw [if_pos hp]

theorem game_over_quiet (s : State) (i : Input) (hp : ¬ i.push = true) :
    game_over s i = s := by
  unfold game_over
  rw [if_neg hp]

theorem tick_cycle_le (s : State) (i : Input) (h : ¬ confirm_reset s i) :
    (tick s i).1.cycle_size ≤ s.cycle_size := by
  by_cases h9 : s.game_state = 9
  · simp [tick_menu s i h9]
  by_cases h0 : s.game_state = 0
  · simp [tick_connecting s i h0]
  by_cases h1 : s.game_state = 1
  · simp [tick_countdown_eq s i h1]
  by_cases h2 : s.game_state = 2
  · rw [tick_playing s i h2]
    unfold playing round_end
    by_cases he : (play_update s i).1.dead ≠ 0 ∨ (play_update s i).1.connection = ch_D
    · have hp : ¬ i.push = true := fun hp => h ⟨hp, Or.inr ⟨h2, he⟩⟩
      rw [if_pos he, game_over_quiet _ i hp]
      exact play_update_cycle_le s i
    · rw [if_neg he]
      exact play_update_cycle_le s i
  by_cases h3 : s.game_state = 3
  · have hp : ¬ i.push = true := fun hp => h ⟨hp, Or.inl h3⟩
    rw [tick_game_over s i h3, game_over_quiet s i hp]
  · simp [tick, h9, h0, h1, h2, h3]

/-! ## A second round -/

theorem run_lane_trace : run init lane_trace = lane_state := by
  have e1 : run init [ev_west, ev_push, rx_byte ch_C] =
      ⟨1, fun _ _ => 0, fun _ => -1, ch_C, 1, 2, 1, 0, 1000, 0⟩ := rfl
  have e2 : run ⟨1, fun _ _ => 0, fun _ => -1, ch_C, 1, 2, 1, 0, 1000, 0⟩
      (List.replicate 3000 idle) =
      ⟨1, fun _ _ => 0, fun _ => -1, ch_C, 1, 2, 1, 3000, 1000, 0⟩ :=
    run_countdown 3000 _ rfl (by decide)
  have e3 : run ⟨1, fun _ _ => 0, fun _ => -1, ch_C, 1, 2, 1, 3000, 1000, 0⟩
      [idle, ev_west, rx_byte ch_D, ev_push, ev_push, rx_byte ch_C] =
      ⟨1, clear_map (fun _ _ => 0), clear_mines (fun _ => -1), ch_C, 1, 1, 1, 3, 1000, 0⟩ := rfl
  have e4 : run ⟨1, fun _ _ => 0, fun _ => -1, ch_C, 1, 1, 1, 3, 1000, 0⟩
      (List.replicate 2997 idle) =
      ⟨1, fun _ _ => 0, fun _ => -1, ch_C, 1, 1, 1, 3000, 1000, 0⟩ :=
    run_countdown 2997 _ rfl (by decide)
  have e5 : run ⟨1, fun _ _ => 0, fun _ => -1, ch_C, 1, 1, 1, 3000, 1000, 0⟩ [idle] =
      lane_state := rfl
  unfold lane_trace
  simp only [run_append]
  rw [e1, e2, e3, clear_map_zero, clear_mines_empty, e4, e5]

theorem reachable_lane_state : Reachable lane_state := by
  rw [← run_lane_trace]
  exact reachable_run _ _ Reachable.start

/-! ## The end-of-round test -/

theorem game_over_state_ne (s : State) (i : Input) (hg : s.game_state = 3) :
    (game_over s i).game_state ≠ 2 := by
  unfold game_over
  split_ifs
  · simp
  · simp [hg]

/-- What the end-of-round test does: a Playing iteration leaves Playing exactly
when, after its updates, `dead` is raised or `connection` holds `'D'`. -/
theorem leave_playing_iff (s : State) (i : Input) (hg : s.game_state = 2) :
    (tick s i).1.game_state ≠ 2 ↔
      ((play_update s i).1.dead ≠ 0 ∨ (play_update s i).1.connection = ch_D) := by
  rw [tick_playing s i hg]
  unfold playing round_end
  by_cases he : (play_update s i).1.dead ≠ 0 ∨ (play_update s i).1.connection = ch_D
  · rw [if_pos he]
    exact ⟨fun _ => he, fun _ => game_over_state_ne _ i rfl⟩
  · rw [if_neg he]
    simp only [play_update_game_state, hg]
    exact ⟨fun h => absurd rfl h, fun h => absurd h he⟩

theorem multi_spawn_connection (s : State) (i : Input) :
    (multi_spawn s i).1.connection = ch_D ↔ s.connection = ch_D := by
  unfold multi_spawn
  dsimp only
  by_cases hc : s.connection > ch_0 - 1 ∧ s.connection < ch_0 + MAP_WIDTH - 1
  · rw [if_pos hc]
    have h1 : s.connection ≠ ch_D := by
      unfold ch_0 MAP_WIDTH at hc
      unfold ch_D
      omega
    have h2 : (s.connection - ch_0) % 256 ≠ ch_D := by
      unfold ch_0 MAP_WIDTH at hc
      unfold ch_D ch_0
      omega
    split_ifs <;> simp [spawn, h1, h2]
  · rw [if_neg hc]

/-- In multiplayer the byte tested by the end-of-round test is the one read on
this iteration. -/
theorem multi_connection_fresh (s : State) (i : Input) (hm : s.multiplayer ≠ 0) :
    (play_update s i).1.connection = ch_D ↔ ir_read i = ch_D := by
  have e : (play_update s i).1.connection =
      (multi_spawn (count_up (drop_mines (link_read s i))) i).1.connection := by
    simp [play_update, play_field, spawn_phase, hm]
  rw [e, multi_spawn_connection]
  simp [link_read, hm]

/-! ## Menu and handshake -/

theorem tick_multiplayer_frame (s : State) (i : Input) (hg : s.game_state ≠ 9) :
    (tick s i).1.multiplayer = s.multiplayer := by
  by_cases h0 : s.game_state = 0
  · simp [tick_connecting s i h0]
  by_cases h1 : s.game_state = 1
  · simp [tick_countdown_eq s i h1]
  by_cases h2 : s.game_state = 2
  · simp [tick_playing s i h2, playing]
  by_cases h3 : s.game_state = 3
  · simp [tick_game_over s i h3]
  · simp [tick, hg, h0, h1, h2, h3]

theorem menu_multiplayer (s : State) (i : Input) :
    (menu s i).multiplayer =
      if s.multiplayer = 0 then (if i.west = true then 1 else 0)
      else (if i.east = true then 0 else s.multiplayer) := by
  unfold menu
  dsimp only
  by_cases hm : s.multiplayer = 0
  · by_cases hw : i.west = true <;> by_cases hp : i.push = true <;> simp [hm, hw, hp]
  · by_cases he : i.east = true <;> by_cases hp : i.push = true <;> simp [hm, he, hp]

theorem menu_game_state (s : State) (i : Input) :
    (menu s i).game_state =
      if i.push = true then (if (menu s i).multiplayer ≠ 0 then 0 else 1) else s.game_state := by
  rw [menu_multiplayer]
  unfold menu
  dsimp only
  by_cases hm : s.multiplayer = 0
  · by_cases hw : i.west = true <;> by_cases hp : i.push = true <;> simp [hm, hw, hp]
  · by_cases he : i.east = true <;> by_cases hp : i.push = true <;> simp [hm, he, hp]

/-! ## The death check inside the descent -/

theorem drop_mine_mines_apply (t u : Nat) (s : State) :
    (drop_mine t s).mines u =
      if u = t then (if s.mines t = -1 then -1 else s.mines t - 1) else s.mines u := by
  rw [drop_mine_mines]
  by_cases h : s.mines t = -1
  · rw [if_pos h]
    by_cases hu : u = t
    · rw [if_pos hu, if_pos h, hu, h]
    · rw [if_neg hu]
  · rw [if_neg h]
    unfold setMine
    by_cases hu : u = t
    · rw [if_pos hu, if_pos hu, if_neg h]
    · rw [if_neg hu, if_neg hu]

theorem drop_mine_mines_other (t u : Nat) (s : State) (h : u ≠ t) :
    (drop_mine t s).mines u = s.mines u := by
  rw [drop_mine_mines_apply, if_neg h]

theorem drop_mine_mines_self (t : Nat) (s : State) :
    (drop_mine t s).mines t = if s.mines t = -1 then -1 else s.mines t - 1 := by
  rw [drop_mine_mines_apply, if_pos rfl]

theorem drop_pass_mines_apply (s : State) (u : Nat) (hu : u < 4) :
    (drop_pass s).mines u = if s.mines u = -1 then -1 else s.mines u - 1 := by
  rw [drop_pass_eq]
  simp only [drop_mine_mines_apply]
  interval_cases u <;> simp

theorem drop_check_dead_iff (t : Nat) (s : State) (hm : -1 ≤ s.mines t) :
    (drop_check t s).dead ≠ 0 ↔
      (s.dead ≠ 0 ∨ (0 ≤ s.mines t ∧ s.mines t ≤ 2 ∧
        (t = s.playerx ∨ t = s.playerx + 1 ∨ t + 1 = s.playerx))) := by
  unfold drop_check player_died
  by_cases h1 : s.mines t + 1 ≠ 0 ∧ s.mines t < 3
  · rw [if_pos h1]
    by_cases h2 : t = s.playerx ∨ t = s.playerx + 1 ∨ t + 1 = s.playerx
    · rw [if_pos h2]
      simp only [ne_eq, one_ne_zero, not_false_eq_true, true_iff]
      exact Or.inr ⟨by omega, by omega, h2⟩
    · rw [if_neg h2]
      constructor
      · exact fun h => Or.inl h
      · rintro (h | ⟨_, _, h⟩)
        · exact h
        · exact absurd h h2
  · rw [if_neg h1]
    constructor
    · exact fun h => Or.inl h
    · rintro (h | ⟨h3, h4, _⟩)
      · exact h
      · exact absurd ⟨by omega, by omega⟩ h1

theorem drop_mine_dead_iff (t : Nat) (s : State) (hm : -1 ≤ s.mines t) :
    (drop_mine t s).dead ≠ 0 ↔
      (s.dead ≠ 0 ∨ (0 ≤ (drop_mine t s).mines t ∧ (drop_mine t s).mines t ≤ 2 ∧
        (t = s.playerx ∨ t = s.playerx + 1 ∨ t + 1 = s.playerx))) := by
  have h1 : -1 ≤ (drop_move t s).mines t := by
    rw [drop_move_mines]
    split_ifs
    · exact hm
    · simp only [setMine, if_true]
      omega
  have h := drop_check_dead_iff t (drop_move t s) h1
  simpa [drop_mine] using h

/-! ## The speed-up of a descent pass -/

theorem reachable_drop_spawned : Reachable drop_spawned := by
  have e1 : run init [ev_west, ev_push, rx_byte ch_C] =
      ⟨1, fun _ _ => 0, fun _ => -1, ch_C, 1, 2, 1, 0, 1000, 0⟩ := rfl
  have e2 : run ⟨1, fun _ _ => 0, fun _ => -1, ch_C, 1, 2, 1, 0, 1000, 0⟩
      (List.replicate 3000 idle) =
      ⟨1, fun _ _ => 0, fun _ => -1, ch_C, 1, 2, 1, 3000, 1000, 0⟩ :=
    run_countdown 3000 _ rfl (by decide)
  have e3 : run ⟨1, fun _ _ => 0, fun _ => -1, ch_C, 1, 2, 1, 3000, 1000, 0⟩
      [idle, rx_byte 50] = drop_spawned := rfl
  have e : run init ([ev_west, ev_push, rx_byte ch_C] ++ List.replicate 3000 idle ++
      [idle, rx_byte 50]) = drop_spawned := by
    simp only [run_append]
    rw [e1, e2, e3]
  rw [← e]
  exact reachable_run _ _ Reachable.start

theorem reachable_first_pass : Reachable first_pass := by
  have e : run drop_spawned (List.replicate 499 idle) = first_pass :=
    run_multi_idle 498 drop_spawned (by decide) (by decide) (by decide) (by decide) (by decide)
  rw [← e]
  exact reachable_run _ _ reachable_drop_spawned

theorem drop_pass_cycle_eq (s : State) :
    (drop_pass s).cycle_size = if 100 < s.cycle_size then max 100 (s.cycle_size - 4)
      else s.cycle_size := by
  simp only [drop_pass_eq, drop_mine_cycle]
  split_ifs <;> omega

theorem play_update_cycle (s : State) (i : Input) :
    (play_update s i).1.cycle_size = (drop_mines (link_read s i)).cycle_size := by
  simp [play_update, play_field]

/-! ## Length of the countdown -/

theorem reachable_first_countdown : Reachable first_countdown :=
  Reachable.step init ev_push Reachable.start

theorem reachable_second_countdown : Reachable second_countdown := by
  have e1 : run init [ev_west, ev_push, rx_byte ch_C] =
      ⟨1, fun _ _ => 0, fun _ => -1, ch_C, 1, 2, 1, 0, 1000, 0⟩ := rfl
  have e2 : run ⟨1, fun _ _ => 0, fun _ => -1, ch_C, 1, 2, 1, 0, 1000, 0⟩
      (List.replicate 3000 idle) =
      ⟨1, fun _ _ => 0, fun _ => -1, ch_C, 1, 2, 1, 3000, 1000, 0⟩ :=
    run_countdown 3000 _ rfl (by decide)
  have e3 : run ⟨1, fun _ _ => 0, fun _ => -1, ch_C, 1, 2, 1, 3000, 1000, 0⟩
      [idle, rx_byte ch_D, ev_push, ev_east, ev_push] =
      ⟨1, clear_map (fun _ _ => 0), clear_mines (fun _ => -1), ch_D, 0, 2, 1, 2, 1000, 0⟩ := rfl
  have e : run init ([ev_west, ev_push, rx_byte ch_C] ++ List.replicate 3000 idle ++
      [idle, rx_byte ch_D, ev_push, ev_east, ev_push]) = second_countdown := by
    simp only [run_append]
    rw [e1, e2, e3, clear_map_zero, clear_mines_empty]
    rfl
  rw [← e]
  exact reachable_run _ _ Reachable.start

/-- What the countdown does: entered with `count = c`, it shows the digits for
`3000 - c` iterations and the next iteration enters Playing with `count = 1`. -/
theorem countdown_length (s : State) (hg : s.game_state = 1) (hc : s.count ≤ 3000) :
    (∀ k, k ≤ 3000 - s.count → (run s (List.replicate k idle)).game_state = 1) ∧
    (run s (List.replicate (3000 - s.count + 1) idle)).game_state = 2 ∧
    (run s (List.replicate (3000 - s.count + 1) idle)).count = 1 := by
  refine ⟨?_, ?_, ?_⟩
  · intro k hk
    rw [run_countdown k s hg (by omega)]
    exact hg
  · rw [List.replicate_succ', run_append, run_countdown _ s hg (by omega)]
    have e : s.count + (3000 - s.count) = 3000 := by omega
    simp [run, tick, countdown, hg, e]
  · rw [List.replicate_succ', run_append, run_countdown _ s hg (by omega)]
    have e : s.count + (3000 - s.count) = 3000 := by omega
    simp [run, tick, countdown, hg, e]

/-! ## The spawn step and the top row -/

theorem multi_scan_iff (s : State) :
    loop_exit (fun t => decide (s.mines t > (MAP_HEIGHT : Int) - 5)) = MAP_WIDTH - 1 ↔
      ∀ t, t < 4 → s.mines t ≤ 3 := by
  rw [loop_exit_iff]
  have e : ((MAP_HEIGHT : Nat) : Int) - 5 = 3 := rfl
  simp only [e, decide_eq_false_iff_not, not_lt]

theorem spawn_phase_some (s : State) (i : Input) (n : Nat) (h : spawn_lane s = some n) :
    (spawn_phase s i).1.mines = setMine s.mines n 7 ∧
    (spawn_phase s i).1.map =
      setCell (setCell (setCell (setCell s.map n 7 1) n 6 1) (n + 1) 7 1) (n + 1) 6 1 := by
  unfold spawn_lane at h
  unfold spawn_phase
  by_cases hm : s.multiplayer ≠ 0
  · rw [if_pos hm] at h ⊢
    unfold multi_spawn
    dsimp only
    by_cases hc : s.connection > ch_0 - 1 ∧ s.connection < ch_0 + MAP_WIDTH - 1
    · rw [if_pos hc] at h ⊢
      by_cases hl : loop_exit (fun t => decide (s.mines t > (MAP_HEIGHT : Int) - 5)) =
          MAP_WIDTH - 1
      · rw [if_pos hl] at h ⊢
        simp only [Option.some.injEq] at h
        subst h
        exact ⟨rfl, rfl⟩
      · rw [if_neg hl] at h
        exact absurd h (by simp)
    · rw [if_neg hc] at h
      exact absurd h (by simp)
  · rw [if_neg hm] at h ⊢
    unfold solo_spawn
    by_cases hl : loop_exit (fun t => decide (s.mines t > (MAP_HEIGHT : Int) - 5) ||
        decide (t = s.playerx ∧ s.mines t ≠ -1)) = MAP_WIDTH - 1
    · rw [if_pos hl] at h ⊢
      simp only [Option.some.injEq] at h
      subst h
      exact ⟨rfl, rfl⟩
    · rw [if_neg hl] at h
      exact absurd h (by simp)

theorem spawn_phase_none (s : State) (i : Input) (h : spawn_lane s = none) :
    (spawn_phase s i).1.mines = s.mines ∧ (spawn_phase s i).1.map = s.map := by
  unfold spawn_lane at h
  unfold spawn_phase
  by_cases hm : s.multiplayer ≠ 0
  · rw [if_pos hm] at h ⊢
    unfold multi_spawn
    dsimp only
    by_cases hc : s.connection > ch_0 - 1 ∧ s.connection < ch_0 + MAP_WIDTH - 1
    · rw [if_pos hc] at h ⊢
      by_cases hl : loop_exit (fun t => decide (s.mines t > (MAP_HEIGHT : Int) - 5)) =
          MAP_WIDTH - 1
      · rw [if_pos hl] at h
        exact absurd h (by simp)
      · rw [if_neg hl]
        exact ⟨rfl, rfl⟩
    · rw [if_neg hc]
      exact ⟨rfl, rfl⟩
  · rw [if_neg hm] at h ⊢
    unfold solo_spawn
    by_cases hl : loop_exit (fun t => decide (s.mines t > (MAP_HEIGHT : Int) - 5) ||
        decide (t = s.playerx ∧ s.mines t ≠ -1)) = MAP_WIDTH - 1
    · rw [if_pos hl] at h
      exact absurd h (by simp)
    · rw [if_neg hl]
      exact ⟨rfl, rfl⟩

theorem spawn_lane_facts (s : State) (n : Nat) (hx : s.playerx ≤ 3)
    (h : spawn_lane s = some n) :
    n < 4 ∧ (∀ t, t < 4 → s.mines t ≤ 3) ∧
      (s.multiplayer = 0 → n = s.playerx ∧ s.mines n = -1) ∧
      (s.multiplayer ≠ 0 → s.connection = ch_0 + n) := by
  unfold spawn_lane at h
  by_cases hm : s.multiplayer ≠ 0
  · rw [if_pos hm] at h
    by_cases hc : s.connection > ch_0 - 1 ∧ s.connection < ch_0 + MAP_WIDTH - 1
    · rw [if_pos hc] at h
      by_cases hl : loop_exit (fun t => decide (s.mines t > (MAP_HEIGHT : Int) - 5)) =
          MAP_WIDTH - 1
      · rw [if_pos hl] at h
        simp only [Option.some.injEq] at h
        unfold ch_0 MAP_WIDTH at hc
        unfold ch_0 at h
        refine ⟨by omega, (multi_scan_iff s).1 hl, fun h0 => absurd h0 hm, fun _ => ?_⟩
        unfold ch_0
        omega
      · rw [if_neg hl] at h
        exact absurd h (by simp)
    · rw [if_neg hc] at h
      exact absurd h (by simp)
  · rw [if_neg hm] at h
    by_cases hl : loop_exit (fun t => decide (s.mines t > (MAP_HEIGHT : Int) - 5) ||
        decide (t = s.playerx ∧ s.mines t ≠ -1)) = MAP_WIDTH - 1
    · rw [if_pos hl] at h
      simp only [Option.some.injEq] at h
      have hs := (solo_spawn_iff s hx).1 hl
      subst h
      exact ⟨by omega, hs.1, fun _ => ⟨rfl, hs.2⟩, fun h1 => absurd h1 hm⟩
    · rw [if_neg hl] at h
      exact absurd h (by simp)

theorem top7_congr (s u : State) (h1 : u.mines = s.mines) (h2 : u.map = s.map)
    (h : Top7 s) : Top7 u := by
  unfold Top7
  rw [h1, h2]
  exact h

theorem top7_drop_mine (t : Nat) (s : State) (hm : MinesOk s.mines) (ht : t < 4)
    (h : Top7 s) : Top7 (drop_mine t s) := by
  by_cases ha : s.mines t = -1
  · have e : drop_move t s = s := by simp [drop_move, ha]
    exact top7_congr s _ (by simp [drop_mine, e]) (by simp [drop_mine, e]) h
  · have hb := hm t ht
    apply top7_congr (drop_move t s) _ (by simp [drop_mine]) (by simp [drop_mine])
    intro c hc hne
    rw [drop_move_map_active t s ha] at hne
    have h1 : ¬ (0 < s.mines t - 1 ∧ (c = t ∨ c = t + 1) ∧ 7 = (s.mines t - 1 - 1).toNat) := by
      omega
    rw [if_neg h1] at hne
    by_cases h2 : (c = t ∨ c = t + 1) ∧ 7 = (s.mines t).toNat
    · rw [if_pos h2] at hne
      exact absurd rfl hne
    · rw [if_neg h2] at hne
      obtain ⟨u, hu, hu7, hcu⟩ := h c hc hne
      have hut : u ≠ t := by
        intro e
        subst e
        exact h2 ⟨hcu, by omega⟩
      refine ⟨u, hu, ?_, hcu⟩
      rw [drop_move_mines, if_neg ha]
      simp [setMine, hut, hu7]

theorem top7_drop_pass (s : State) (hm : MinesOk s.mines) (h : Top7 s) :
    Top7 (drop_pass s) := by
  rw [drop_pass_eq]
  have m1 := drop_mine_minesOk 0 s hm (by omega)
  have m2 := drop_mine_minesOk 1 _ m1 (by omega)
  have m3 := drop_mine_minesOk 2 _ m2 (by omega)
  exact top7_drop_mine 3 _ m3 (by omega) (top7_drop_mine 2 _ m2 (by omega)
    (top7_drop_mine 1 _ m1 (by omega) (top7_drop_mine 0 s hm (by omega) h)))

theorem top7_drop_mines (s : State) (hm : MinesOk s.mines) (h : Top7 s) :
    Top7 (drop_mines s) := by
  unfold drop_mines
  split_ifs
  · exact top7_drop_pass s hm h
  · exact h

theorem top7_spawn_phase (s : State) (i : Input) (hx : s.playerx ≤ 3) (h : Top7 s) :
    Top7 (spawn_phase s i).1 := by
  cases hl : spawn_lane s with
  | none =>
    have e := spawn_phase_none s i hl
    exact top7_congr s _ e.1 e.2 h
  | some n =>
    have e := spawn_phase_some s i n hl
    have hn := (spawn_lane_facts s n hx hl).1
    intro c hc hne
    rw [e.1]
    rw [e.2] at hne
    by_cases hcn : c = n ∨ c = n + 1
    · exact ⟨n, hn, by simp [setMine], hcn⟩
    · have e2 : setCell (setCell (setCell (setCell s.map n 7 1) n 6 1) (n + 1) 7 1) (n + 1) 6 1
          c 7 = s.map c 7 := by
        simp only [setCell]
        split_ifs <;> first | rfl | omega
      rw [e2] at hne
      obtain ⟨u, hu, hu7, hcu⟩ := h c hc hne
      refine ⟨u, hu, ?_, hcu⟩
      unfold setMine
      split_ifs
      · rfl
      · exact hu7

theorem top7_game_over (s : State) (i : Input) (h : Top7 s) : Top7 (game_over s i) := by
  by_cases hp : i.push = true
  · rw [game_over_push s i hp]
    intro c hc hne
    have e : clear_map s.map c 7 = 0 := by
      rw [clear_map_apply, if_pos ⟨hc, by omega⟩]
    exact absurd e hne
  · rw [game_over_quiet s i hp]
    exact h

theorem top7_play_update (s : State) (i : Input) (hr : Ranges s) (h : Top7 s) :
    Top7 (play_update s i).1 := by
  have h0 : Top7 (link_read s i) := top7_congr s _ (by simp) (by simp) h
  have r0 := ranges_link_read s i hr
  have h1 := top7_drop_mines _ r0.mn h0
  have h2 : Top7 (count_up (drop_mines (link_read s i))) :=
    top7_congr _ _ (by simp) (by simp) h1
  have h3 := top7_spawn_phase _ i (by simpa using hr.px) h2
  exact top7_congr _ _ (by simp [play_update, play_field])
    (by simp [play_update, play_field]) h3

theorem top7_tick (s : State) (i : Input) (hi : Inv s) (h : Top7 s) : Top7 (tick s i).1 := by
  rcases hi.gs with hg | hg | hg | hg | hg
  · rw [tick_menu s i hg]
    exact top7_congr s _ (by simp) (by simp) h
  · rw [tick_connecting s i hg]
    exact top7_congr s _ (by simp) (by simp) h
  · rw [tick_countdown_eq s i hg]
    exact top7_congr s _ (by simp) (by simp) h
  · rw [tick_playing s i hg]
    have hu := top7_play_update s i hi.rg h
    unfold playing round_end
    by_cases he : (play_update s i).1.dead ≠ 0 ∨ (play_update s i).1.connection = ch_D
    · rw [if_pos he]
      exact top7_game_over _ i (top7_congr _ _ rfl rfl hu)
    · rw [if_neg he]
      exact hu
  · rw [tick_game_over s i hg]
    exact top7_game_over s i h

theorem reachable_top7 (s : State) (h : Reachable s) : Top7 s := by
  induction h with
  | start =>
    intro c _ hne
    exact absurd rfl hne
  | step s i hs ih => exact top7_tick s i (reachable_inv s hs) ih

theorem drop_mines_empty (s : State) (t : Nat) (ht : t < 4) (h : s.mines t = -1) :
    (drop_mines s).mines t = -1 := by
  unfold drop_mines
  split_ifs
  · rw [drop_pass_mines_apply s t ht, if_pos h]
  · exact h

theorem game_over_mines (s : State) (i : Input) (t : Nat) (ht : t < 4) :
    (game_over s i).mines t = s.mines t ∨ (game_over s i).mines t = -1 := by
  by_cases hp : i.push = true
  · rw [game_over_push s i hp]
    right
    show clear_mines s.mines t = -1
    rw [clear_mines_apply, if_pos ht]
  · rw [game_over_quiet s i hp]
    exact Or.inl rfl

theorem tick_playing_mines (s : State) (i : Input) (hg : s.game_state = 2) (t : Nat)
    (ht : t < 4) :
    (tick s i).1.mines t = (play_field s i).1.mines t ∨ (tick s i).1.mines t = -1 := by
  rw [tick_playing s i hg]
  unfold playing round_end
  have e : (play_update s i).1.mines = (play_field s i).1.mines := by simp [play_update]
  by_cases he : (play_update s i).1.dead ≠ 0 ∨ (play_update s i).1.connection = ch_D
  · rw [if_pos he]
    rcases game_over_mines { (play_update s i).1 with game_state := 3 } i t ht with h | h
    · left
      rw [h]
      show (play_update s i).1.mines t = _
      rw [e]
    · exact Or.inr h
  · rw [if_neg he, e]
    exact Or.inl rfl

/-! ## Index safety of the accesses -/

theorem collision_cells_ok (x : Int) : ∀ p ∈ collision_cells x, CellOk p := by
  intro p hp
  unfold collision_cells at hp
  split_ifs at hp with h
  · simp at hp
  · simp only [List.mem_cons, List.mem_singleton, List.not_mem_nil, or_false] at hp
    unfold CellOk
    rcases hp with rfl | rfl | rfl | rfl <;> simp <;> omega

theorem drop_move_cells_ok (t : Nat) (s : State) (ht : t < 4) (hm : MinesOk s.mines) :
    ∀ p ∈ drop_move_cells t s, CellOk p := by
  intro p hp
  have hb := hm t ht
  unfold drop_move_cells at hp
  unfold CellOk
  split_ifs at hp with h1 h2
  · simp only [List.mem_append, List.mem_cons, List.mem_singleton, List.not_mem_nil,
      or_false] at hp
    rcases hp with (rfl | rfl) | (rfl | rfl) <;> simp <;> omega
  · simp only [List.append_nil, List.mem_cons, List.mem_singleton, List.not_mem_nil,
      or_false] at hp
    rcases hp with rfl | rfl <;> simp <;> omega
  · simp at hp

theorem drop_pass_cells_ok (s : State) (hm : MinesOk s.mines) :
    ∀ p ∈ drop_pass_cells s, CellOk p := by
  have m1 := drop_mine_minesOk 0 s hm (by omega)
  have m2 := drop_mine_minesOk 1 _ m1 (by omega)
  have m3 := drop_mine_minesOk 2 _ m2 (by omega)
  intro p hp
  unfold drop_pass_cells at hp
  simp only [List.mem_append] at hp
  rcases hp with ((hp | hp) | hp) | hp
  · exact drop_move_cells_ok 0 s (by omega) hm p hp
  · exact drop_move_cells_ok 1 _ (by omega) m1 p hp
  · exact drop_move_cells_ok 2 _ (by omega) m2 p hp
  · exact drop_move_cells_ok 3 _ (by omega) m3 p hp

theorem spawn_cells_ok (n : Nat) (hn : n < 4) : ∀ p ∈ spawn_cells n, CellOk p := by
  intro p hp
  unfold spawn_cells at hp
  simp only [List.mem_cons, List.mem_singleton, List.not_mem_nil, or_false] at hp
  unfold CellOk
  rcases hp with rfl | rfl | rfl | rfl <;> simp <;> omega

theorem clear_map_cells_ok : ∀ p ∈ clear_map_cells, CellOk p := by
  intro p hp
  unfold clear_map_cells MAP_WIDTH MAP_HEIGHT at hp
  simp only [List.mem_flatMap, List.mem_range, List.mem_map] at hp
  obtain ⟨c, hc, r, hr, rfl⟩ := hp
  unfold CellOk
  simp
  omega

theorem loop_trackers_ok : ∀ t ∈ loop_trackers, (0 : Int) ≤ t ∧ t ≤ 3 := by
  intro t ht
  unfold loop_trackers MAP_WIDTH at ht
  simp only [List.mem_map, List.mem_range] at ht
  obtain ⟨u, hu, rfl⟩ := ht
  omega

theorem drop_mines_cells_ok (s : State) (hm : MinesOk s.mines) :
    ∀ p ∈ drop_mines_cells s, CellOk p := by
  intro p hp
  unfold drop_mines_cells at hp
  split_ifs at hp
  · exact drop_pass_cells_ok s hm p hp
  · simp at hp

theorem spawn_phase_cells_ok (s : State) (hx : s.playerx ≤ 3) :
    ∀ p ∈ spawn_phase_cells s, CellOk p := by
  intro p hp
  unfold spawn_phase_cells at hp
  cases hl : spawn_lane s with
  | none =>
    rw [hl] at hp
    simp at hp
  | some n =>
    rw [hl] at hp
    exact spawn_cells_ok n (spawn_lane_facts s n hx hl).1 p hp

theorem play_move_cells_ok (s : State) (i : Input) :
    ∀ p ∈ play_move_cells s i, CellOk p := by
  intro p hp
  unfold play_move_cells at hp
  rw [List.mem_append] at hp
  rcases hp with hp | hp
  · split_ifs at hp
    · exact collision_cells_ok _ p hp
    · simp at hp
  · split_ifs at hp
    all_goals first | exact collision_cells_ok _ p hp | simp at hp

theorem game_over_cells_ok (i : Input) : ∀ p ∈ game_over_cells i, CellOk p := by
  intro p hp
  unfold game_over_cells at hp
  split_ifs at hp
  · exact clear_map_cells_ok p hp
  · simp at hp

theorem playing_cells_ok (s : State) (i : Input) (hr : Ranges s) :
    ∀ p ∈ playing_cells s i, CellOk p := by
  have r0 := ranges_link_read s i hr
  intro p hp
  unfold playing_cells at hp
  simp only [List.mem_append] at hp
  rcases hp with ((hp | hp) | hp) | hp
  · exact drop_mines_cells_ok _ r0.mn p hp
  · exact spawn_phase_cells_ok _ (by simpa using hr.px) p hp
  · exact play_move_cells_ok _ i p hp
  · split_ifs at hp
    · exact game_over_cells_ok i p hp
    · simp at hp

theorem playing_trackers_ok (s : State) (i : Input) (hr : Ranges s) :
    ∀ t ∈ playing_trackers s i, (0 : Int) ≤ t ∧ t ≤ 3 := by
  intro t ht
  unfold playing_trackers at ht
  simp only [List.mem_append] at ht
  rcases ht with (((ht | ht) | ht) | ht) | ht
  · split_ifs at ht
    · exact loop_trackers_ok t ht
    · simp at ht
  · exact loop_trackers_ok t ht
  · cases hl : spawn_target s i with
    | none =>
      rw [hl] at ht
      simp at ht
    | some n =>
      rw [hl] at ht
      simp only [List.mem_singleton] at ht
      unfold spawn_target at hl
      have hn := (spawn_lane_facts _ n (by simpa using hr.px) hl).1
      omega
  · exact loop_trackers_ok t ht
  · split_ifs at ht
    · exact loop_trackers_ok t ht
    · simp at ht

/-! ## Field and trackers in a solo round -/

theorem consistent_congr (s u : State) (h1 : u.mines = s.mines) (h2 : u.map = s.map)
    (h : Consistent s) : Consistent u := by
  unfold Consistent
  rw [h1, h2]
  exact h

theorem consistent_of_clear (s : State) (h : ClearEmpty s) :
    Consistent s ∧ Spaced s.mines 4 := by
  constructor
  · intro c r hc hr
    constructor
    · intro hne
      exact absurd (h.1 c r hc hr) hne
    · rintro ⟨t, ht, hne, _⟩
      exact absurd (h.2 t ht) hne
  · intro t u ht _ _ hne
    exact absurd (h.2 t ht) hne

theorem consistent_drop_mine (t : Nat) (s : State) (ht : t < 4) (hm : MinesOk s.mines)
    (hsep : ∀ v, v < 4 → v ≠ t → s.mines v ≠ -1 → s.mines t ≠ -1 →
      2 ≤ s.mines v - s.mines t ∨ 2 ≤ s.mines t - s.mines v)
    (h : Consistent s) : Consistent (drop_mine t s) := by
  by_cases ha : s.mines t = -1
  · have e : drop_move t s = s := by simp [drop_move, ha]
    exact consistent_congr s _ (by simp [drop_mine, e]) (by simp [drop_mine, e]) h
  · have hb := hm t ht
    apply consistent_congr (drop_move t s) _ (by simp [drop_mine]) (by simp [drop_mine])
    intro c r hc hr
    have hcr := h c r hc hr
    rw [drop_move_map_active t s ha, drop_move_mines, if_neg ha]
    by_cases h1 : 0 < s.mines t - 1 ∧ (c = t ∨ c = t + 1) ∧ r = (s.mines t - 1 - 1).toNat
    · rw [if_pos h1]
      simp only [ne_eq, one_ne_zero, not_false_eq_true, true_iff]
      refine ⟨t, ht, ?_, h1.2.1, ?_⟩
      · simp only [setMine, if_true]
        omega
      · simp only [setMine, if_true]
        omega
    · rw [if_neg h1]
      by_cases h2 : (c = t ∨ c = t + 1) ∧ r = (s.mines t).toNat
      · rw [if_pos h2]
        simp only [ne_eq, not_true_eq_false, false_iff]
        rintro ⟨v, hv, hvne, hvc, hvr⟩
        unfold setMine at hvne hvr
        by_cases hvt : v = t
        · rw [if_pos hvt] at hvne hvr
          omega
        · rw [if_neg hvt] at hvne hvr
          have := hsep v hv hvt hvne ha
          omega
      · rw [if_neg h2]
        rw [hcr]
        constructor
        · rintro ⟨v, hv, hvne, hvc, hvr⟩
          by_cases hvt : v = t
          · subst hvt
            refine ⟨v, hv, ?_, hvc, ?_⟩
            · simp only [setMine, if_true]
              omega
            · simp only [setMine, if_true]
              omega
          · exact ⟨v, hv, by simpa [setMine, hvt] using hvne, hvc,
              by simpa [setMine, hvt] using hvr⟩
        · rintro ⟨v, hv, hvne, hvc, hvr⟩
          unfold setMine at hvne hvr
          by_cases hvt : v = t
          · rw [if_pos hvt] at hvne hvr
            subst hvt
            refine ⟨v, hv, ha, hvc, ?_⟩
            omega
          · rw [if_neg hvt] at hvne hvr
            exact ⟨v, hv, hvne, hvc, hvr⟩

theorem consistent_drop_pass (s : State) (hm : MinesOk s.mines) (hs : Spaced s.mines 4)
    (h : Consistent s) : Consistent (drop_pass s) := by
  have m1 := drop_mine_minesOk 0 s hm (by omega)
  have m2 := drop_mine_minesOk 1 _ m1 (by omega)
  have m3 := drop_mine_minesOk 2 _ m2 (by omega)
  have b0 := hm 0 (by omega)
  have b1 := hm 1 (by omega)
  have b2 := hm 2 (by omega)
  have b3 := hm 3 (by omega)
  have s01 := hs 0 1 (by omega) (by omega) (by omega)
  have s02 := hs 0 2 (by omega) (by omega) (by omega)
  have s03 := hs 0 3 (by omega) (by omega) (by omega)
  have s12 := hs 1 2 (by omega) (by omega) (by omega)
  have s13 := hs 1 3 (by omega) (by omega) (by omega)
  have s23 := hs 2 3 (by omega) (by omega) (by omega)
  have c1 : Consistent (drop_mine 0 s) := by
    apply consistent_drop_mine 0 s (by omega) hm _ h
    intro v hv hv0 hvne hne
    interval_cases v <;> omega
  have c2 : Consistent (drop_mine 1 (drop_mine 0 s)) := by
    apply consistent_drop_mine 1 _ (by omega) m1 _ c1
    intro v hv hv0
    simp only [drop_mine_mines_apply]
    interval_cases v <;> first
      | exact absurd rfl hv0
      | (simp; (try split_ifs) <;> omega)
  have c3 : Consistent (drop_mine 2 (drop_mine 1 (drop_mine 0 s))) := by
    apply consistent_drop_mine 2 _ (by omega) m2 _ c2
    intro v hv hv0
    simp only [drop_mine_mines_apply]
    interval_cases v <;> first
      | exact absurd rfl hv0
      | (simp; (try split_ifs) <;> omega)
  rw [drop_pass_eq]
  apply consistent_drop_mine 3 _ (by omega) m3 _ c3
  intro v hv hv0
  simp only [drop_mine_mines_apply]
  interval_cases v <;> first
    | exact absurd rfl hv0
    | (simp; (try split_ifs) <;> omega)

theorem spaced_drop_pass (s : State) (hs : Spaced s.mines 4) : Spaced (drop_pass s).mines 4 := by
  intro t u ht hu htu
  have h := hs t u ht hu htu
  rw [drop_pass_mines_apply s t ht, drop_pass_mines_apply s u hu]
  split_ifs <;> omega

theorem consistent_spawn (s u : State) (n : Nat) (hn : n < 4) (he : s.mines n = -1)
    (h1 : u.mines = setMine s.mines n 7)
    (h2 : u.map = setCell (setCell (setCell (setCell s.map n 7 1) n 6 1) (n + 1) 7 1) (n + 1) 6 1)
    (h : Consistent s) : Consistent u := by
  intro c r hc hr
  have hcr := h c r hc hr
  rw [h1, h2]
  by_cases hnew : (c = n ∨ c = n + 1) ∧ (r = 7 ∨ r = 6)
  · have e : setCell (setCell (setCell (setCell s.map n 7 1) n 6 1) (n + 1) 7 1) (n + 1) 6 1
        c r = 1 := by
      simp only [setCell]
      split_ifs <;> first | rfl | omega
    rw [e]
    simp only [ne_eq, one_ne_zero, not_false_eq_true, true_iff]
    refine ⟨n, hn, by simp [setMine], hnew.1, ?_⟩
    simp only [setMine, if_true]
    omega
  · have e : setCell (setCell (setCell (setCell s.map n 7 1) n 6 1) (n + 1) 7 1) (n + 1) 6 1
        c r = s.map c r := by
      simp only [setCell]
      split_ifs <;> first | rfl | omega
    rw [e, hcr]
    constructor
    · rintro ⟨v, hv, hvne, hvc, hvr⟩
      have hvn : v ≠ n := by
        intro e2
        subst e2
        exact hvne he
      exact ⟨v, hv, by simpa [setMine, hvn] using hvne, hvc, by simpa [setMine, hvn] using hvr⟩
    · rintro ⟨v, hv, hvne, hvc, hvr⟩
      unfold setMine at hvne hvr
      by_cases hvn : v = n
      · rw [if_pos hvn] at hvr
        subst hvn
        omega
      · rw [if_neg hvn] at hvne hvr
        exact ⟨v, hv, hvne, hvc, hvr⟩

theorem spaced_spawn (ms : Nat → Int) (n : Nat) (hall : ∀ t, t < 4 → ms t ≤ 3)
    (hs : Spaced ms 4) : Spaced (setMine ms n 7) 4 := by
  intro t u ht hu htu
  have h := hs t u ht hu htu
  have h3 := hall t ht
  have h4 := hall u hu
  unfold setMine
  split_ifs <;> omega

theorem solo_spawn_phase_inv (s : State) (i : Input) (hm : s.multiplayer = 0)
    (hx : s.playerx ≤ 3) (h : Consistent s ∧ Spaced s.mines 4) :
    Consistent (spawn_phase s i).1 ∧ Spaced (spawn_phase s i).1.mines 4 := by
  cases hl : spawn_lane s with
  | none =>
    have e := spawn_phase_none s i hl
    exact ⟨consistent_congr s _ e.1 e.2 h.1, by rw [e.1]; exact h.2⟩
  | some n =>
    have e := spawn_phase_some s i n hl
    have hf := spawn_lane_facts s n hx hl
    exact ⟨consistent_spawn s _ n hf.1 (hf.2.2.1 hm).2 e.1 e.2 h.1,
      by rw [e.1]; exact spaced_spawn _ n hf.2.1 h.2⟩

theorem solo_drop_mines_inv (s : State) (hr : MinesOk s.mines)
    (h : Consistent s ∧ Spaced s.mines 4) :
    Consistent (drop_mines s) ∧ Spaced (drop_mines s).mines 4 := by
  unfold drop_mines
  split_ifs
  · exact ⟨consistent_drop_pass s hr h.2 h.1, spaced_drop_pass s h.2⟩
  · exact h

theorem solo_play_update_inv (s : State) (i : Input) (hm : s.multiplayer = 0)
    (hr : Ranges s) (h : Consistent s ∧ Spaced s.mines 4) :
    Consistent (play_update s i).1 ∧ Spaced (play_update s i).1.mines 4 := by
  have e0 : link_read s i = s := by simp [link_read, hm]
  have h1 := solo_drop_mines_inv s hr.mn h
  have h2 : Consistent (count_up (drop_mines s)) ∧ Spaced (count_up (drop_mines s)).mines 4 :=
    ⟨consistent_congr _ _ rfl rfl h1.1, h1.2⟩
  have h3 := solo_spawn_phase_inv (count_up (drop_mines s)) i (by simpa using hm)
    (by simpa using hr.px) h2
  have em : (play_update s i).1.mines = (spawn_phase (count_up (drop_mines s)) i).1.mines := by
    simp [play_update, play_field, e0]
  have ep : (play_update s i).1.map = (spawn_phase (count_up (drop_mines s)) i).1.map := by
    simp [play_update, play_field, e0]
  exact ⟨consistent_congr _ _ em ep h3.1, by rw [em]; exact h3.2⟩

theorem clearEmpty_game_over_push (s : State) (i : Input) (hp : i.push = true) :
    ClearEmpty (game_over s i) := by
  rw [game_over_push s i hp]
  constructor
  · intro c r hc hr
    show clear_map s.map c r = 0
    rw [clear_map_apply, if_pos ⟨hc, hr⟩]
  · intro t ht
    show clear_mines s.mines t = -1
    rw [clear_mines_apply, if_pos ht]

theorem soloInv_of_clear (s : State) (h : ClearEmpty s) : SoloInv s :=
  ⟨fun _ => h, fun _ => consistent_of_clear s h⟩

theorem soloInv_tick (s : State) (i : Input) (hi : Inv s) (h : SoloInv s) :
    SoloInv (tick s i).1 := by
  rcases hi.gs with hg | hg | hg | hg | hg
  · have hc : ClearEmpty s := h.1 (by omega)
    rw [tick_menu s i hg]
    exact soloInv_of_clear _ ⟨by simpa using hc.1, by simpa using hc.2⟩
  · have hc : ClearEmpty s := h.1 (by omega)
    rw [tick_connecting s i hg]
    exact soloInv_of_clear _ ⟨by simpa using hc.1, by simpa using hc.2⟩
  · have hc : ClearEmpty s := h.1 (by omega)
    rw [tick_countdown_eq s i hg]
    exact soloInv_of_clear _ ⟨by simpa using hc.1, by simpa using hc.2⟩
  · rw [tick_playing s i hg]
    unfold playing round_end
    by_cases he : (play_update s i).1.dead ≠ 0 ∨ (play_update s i).1.connection = ch_D
    · rw [if_pos he]
      by_cases hp : i.push = true
      · exact soloInv_of_clear _ (clearEmpty_game_over_push _ i hp)
      · rw [game_over_quiet _ i hp]
        refine ⟨fun hne => absurd rfl hne.2, fun hm => ?_⟩
        have hm2 : s.multiplayer = 0 := by simpa using hm
        have hu := solo_play_update_inv s i hm2 hi.rg (h.2 hm2)
        exact ⟨consistent_congr _ _ rfl rfl hu.1, hu.2⟩
    · rw [if_neg he]
      refine ⟨fun hne => ?_, fun hm => ?_⟩
      · have : (play_update s i).1.game_state = 2 := by simp [hg]
        exact absurd this hne.1
      · have hm2 : s.multiplayer = 0 := by simpa using hm
        exact solo_play_update_inv s i hm2 hi.rg (h.2 hm2)
  · rw [tick_game_over s i hg]
    by_cases hp : i.push = true
    · exact soloInv_of_clear _ (clearEmpty_game_over_push _ i hp)
    · rw [game_over_quiet _ i hp]
      exact h

theorem reachable_soloInv (s : State) (h : Reachable s) : SoloInv s := by
  induction h with
  | start => exact soloInv_of_clear _ ⟨fun _ _ _ _ => rfl, fun _ _ => rfl⟩
  | step s i hs ih => exact soloInv_tick s i (reachable_inv s hs) ih

/-! ## The solo collision scenario -/

theorem tick_solo_idle (s : State) (hg : s.game_state = 2) (hm : s.multiplayer = 0) :
    (tick s idle).1 = (round_end (solo_spawn (count_up (drop_mines s))) idle []).1 := by
  rw [tick_playing s idle hg]
  simp [playing, play_update, play_field, link_read, spawn_phase, play_move, idle, hm]

theorem round_end_alive (s : State) (i : Input) (out : List Nat) (hd : s.dead = 0)
    (hc : s.connection ≠ ch_D) : (round_end s i out).1 = s := by
  unfold round_end
  rw [if_neg]
  rintro (h | h)
  · exact h hd
  · exact hc h

theorem solo_spawn_active (s : State) (hx : s.playerx ≤ 3) (h : s.mines s.playerx ≠ -1) :
    solo_spawn s = s :=
  (solo_spawn_on_lane s hx).2 (fun hc => h hc.2)

theorem scene_idle (s : State) (p : Nat) (m c : Int) (k : Nat) (hp : p ≤ 3) (h0 : 0 ≤ m)
    (hk : (k : Int) ≤ Int.tdiv c speed) (hl : k < 65535) (h : Scene s p m c k) :
    Scene (tick s idle).1 p m c (k + 1) := by
  obtain ⟨hg, hm, hd, hcn, hx, hf, hc, hcnt⟩ := h
  have e1 : drop_mines s = s := by
    unfold drop_mines
    rw [if_neg]
    rw [hc, hcnt]
    omega
  have e2 : solo_spawn (count_up s) = count_up s := by
    apply solo_spawn_active
    · simp [hx, hp]
    · simp only [count_up_mines, count_up_playerx, hx, hf.1]
      omega
  rw [tick_solo_idle s hg hm, e1, e2, round_end_alive _ _ _ (by simpa using hd) (by simpa using hcn)]
  refine ⟨hg, hm, hd, hcn, hx, falling_congr s _ p m rfl rfl hf, hc, ?_⟩
  simp only [count_up, hcnt]
  omega

theorem drop_pass_dead_cases (s : State) (hm : ∀ t, t < 4 → -1 ≤ s.mines t) :
    (drop_pass s).dead ≠ 0 ↔
      ((((s.dead ≠ 0 ∨
        (0 ≤ (drop_pass s).mines 0 ∧ (drop_pass s).mines 0 ≤ 2 ∧
          (0 = s.playerx ∨ 0 = s.playerx + 1 ∨ 0 + 1 = s.playerx))) ∨
        (0 ≤ (drop_pass s).mines 1 ∧ (drop_pass s).mines 1 ≤ 2 ∧
          (1 = s.playerx ∨ 1 = s.playerx + 1 ∨ 1 + 1 = s.playerx))) ∨
        (0 ≤ (drop_pass s).mines 2 ∧ (drop_pass s).mines 2 ≤ 2 ∧
          (2 = s.playerx ∨ 2 = s.playerx + 1 ∨ 2 + 1 = s.playerx))) ∨
        (0 ≤ (drop_pass s).mines 3 ∧ (drop_pass s).mines 3 ≤ 2 ∧
          (3 = s.playerx ∨ 3 = s.playerx + 1 ∨ 3 + 1 = s.playerx))) := by
  have m0 := hm 0 (by omega)
  have m1 := hm 1 (by omega)
  have m2 := hm 2 (by omega)
  have m3 := hm 3 (by omega)
  have e1 : (drop_mine 0 s).mines 1 = s.mines 1 := drop_mine_mines_other _ _ _ (by decide)
  have e2 : (drop_mine 1 (drop_mine 0 s)).mines 2 = s.mines 2 := by
    rw [drop_mine_mines_other _ _ _ (by decide), drop_mine_mines_other _ _ _ (by decide)]
  have e3 : (drop_mine 2 (drop_mine 1 (drop_mine 0 s))).mines 3 = s.mines 3 := by
    rw [drop_mine_mines_other _ _ _ (by decide), drop_mine_mines_other _ _ _ (by decide),
      drop_mine_mines_other _ _ _ (by decide)]
  have d0 := drop_mine_dead_iff 0 s m0
  have d1 := drop_mine_dead_iff 1 (drop_mine 0 s) (by rw [e1]; exact m1)
  have d2 := drop_mine_dead_iff 2 (drop_mine 1 (drop_mine 0 s)) (by rw [e2]; exact m2)
  have d3 := drop_mine_dead_iff 3 (drop_mine 2 (drop_mine 1 (drop_mine 0 s)))
    (by rw [e3]; exact m3)
  rw [drop_mine_mines_self, e3, ← drop_pass_mines_apply s 3 (by omega)] at d3
  rw [drop_mine_mines_self, e2, ← drop_pass_mines_apply s 2 (by omega)] at d2
  rw [drop_mine_mines_self, e1, ← drop_pass_mines_apply s 1 (by omega)] at d1
  rw [drop_mine_mines_self, ← drop_pass_mines_apply s 0 (by omega)] at d0
  simp only [drop_mine_playerx] at d0 d1 d2 d3
  rw [d2, d1, d0] at d3
  exact d3

theorem falling_mines (s : State) (p : Nat) (m : Int) (h : Falling s p m) (t : Nat)
    (ht : t < 4) : s.mines t = if t = p then m else -1 := by
  by_cases e : t = p
  · rw [if_pos e, e]
    exact h.1
  · rw [if_neg e]
    exact h.2.1 t ht e

theorem scene_pass (s : State) (p : Nat) (m c : Int) (k : Nat) (hp : p ≤ 3) (h4 : 4 ≤ m)
    (hk : (k : Int) > Int.tdiv c speed) (hc104 : 104 ≤ c) (h : Scene s p m c k) :
    Scene (tick s idle).1 p (m - 1) (c - 4) 1 := by
  obtain ⟨hg, hm, hd, hcn, hx, hf, hc, hcnt⟩ := h
  have e1 : drop_mines s = drop_pass s := by
    unfold drop_mines
    rw [if_pos]
    rw [hc, hcnt]
    exact hk
  have hf2 := falling_drop_pass s p m (by omega) (by omega) hf
  have hlow : ∀ t, t < 4 → -1 ≤ s.mines t := by
    intro t ht
    rw [falling_mines s p m hf t ht]
    split_ifs <;> omega
  have hd2 : (drop_pass s).dead = 0 := by
    by_contra hne
    have hcs := (drop_pass_dead_cases s hlow).1 hne
    rw [falling_mines _ p _ hf2 0 (by omega), falling_mines _ p _ hf2 1 (by omega),
      falling_mines _ p _ hf2 2 (by omega), falling_mines _ p _ hf2 3 (by omega)] at hcs
    rcases hcs with (((h | h) | h) | h) | h
    · exact h hd
    all_goals (split_ifs at h <;> omega)
  have e2 : solo_spawn (count_up (drop_pass s)) = count_up (drop_pass s) := by
    apply solo_spawn_active
    · simp [hx, hp]
    · simp only [count_up_mines, count_up_playerx, drop_pass_playerx, hx, hf2.1]
      omega
  rw [tick_solo_idle s hg hm, e1, e2,
    round_end_alive _ _ _ (by simpa using hd2) (by simpa using hcn)]
  refine ⟨by simpa using hg, by simpa using hm, by simpa using hd2, by simpa using hcn,
    by simpa using hx, falling_congr _ _ p _ rfl rfl hf2, ?_, ?_⟩
  · simp only [count_up_cycle_size]
    rw [drop_pass_cycle_eq, hc, if_pos (by omega)]
    omega
  · simp [count_up]

theorem scene_death (s : State) (p : Nat) (c : Int) (k : Nat) (hp : p ≤ 3)
    (hk : (k : Int) > Int.tdiv c speed) (h : Scene s p 3 c k) :
    (tick s idle).1.dead = 1 ∧ (tick s idle).1.game_state = 3 ∧ (tick s idle).1.mines p = 2 ∧
      (tick s idle).2 = [ch_D] := by
  obtain ⟨hg, hm, hd, hcn, hx, hf, hc, hcnt⟩ := h
  have e1 : drop_mines s = drop_pass s := by
    unfold drop_mines
    rw [if_pos]
    rw [hc, hcnt]
    exact hk
  have hf2 := falling_drop_pass s p 3 (by omega) (by omega) hf
  have hlow : ∀ t, t < 4 → -1 ≤ s.mines t := by
    intro t ht
    rw [falling_mines s p 3 hf t ht]
    split_ifs <;> omega
  have hd2 : (drop_pass s).dead ≠ 0 := by
    rw [drop_pass_dead_cases s hlow, falling_mines _ p _ hf2 0 (by omega),
      falling_mines _ p _ hf2 1 (by omega), falling_mines _ p _ hf2 2 (by omega),
      falling_mines _ p _ hf2 3 (by omega), hx]
    have h4 : p = 0 ∨ p = 1 ∨ p = 2 ∨ p = 3 := by omega
    rcases h4 with rfl | rfl | rfl | rfl <;> simp
  have hd3 : (drop_pass s).dead = 1 := by
    rcases drop_pass_dead s with h | h
    · rw [hd] at h
      exact absurd h hd2
    · exact h
  have e2 : solo_spawn (count_up (drop_pass s)) = count_up (drop_pass s) := by
    apply solo_spawn_active
    · simp [hx, hp]
    · simp only [count_up_mines, count_up_playerx, drop_pass_playerx, hx, hf2.1]
      omega
  have e3 : tick s idle = round_end (count_up (drop_pass s)) idle [] := by
    rw [tick_playing s idle hg]
    simp [playing, play_update, play_field, link_read, spawn_phase, play_move, idle, hm, e1, e2]
  rw [e3]
  unfold round_end
  rw [if_pos (Or.inl (by simpa using hd2)), if_pos (by simpa using hd2),
    game_over_quiet _ idle (by decide)]
  refine ⟨by simpa using hd3, rfl, ?_, rfl⟩
  simpa using hf2.1

theorem scene_spawn (s : State) (p : Nat) (c : Int) (k : Nat) (hp : p ≤ 3)
    (hk : (k : Int) ≤ Int.tdiv c speed) (hl : k < 65535) (h : Scene s p (-1) c k) :
    Scene (tick s idle).1 p 7 c (k + 1) := by
  obtain ⟨hg, hm, hd, hcn, hx, hf, hc, hcnt⟩ := h
  have e1 : drop_mines s = s := by
    unfold drop_mines
    rw [if_neg]
    rw [hc, hcnt]
    omega
  have hempty : ∀ t, t < 4 → s.mines t = -1 := by
    intro t ht
    rw [falling_mines s p _ hf t ht]
    split_ifs <;> rfl
  have hclear : ∀ c r, c < 5 → r < 8 → s.map c r = 0 := by
    intro c r hc5 hr8
    rw [hf.2.2 c r hc5 hr8, if_neg]
    omega
  have e2 : solo_spawn (count_up s) = spawn (count_up s) p := by
    have := ((solo_spawn_on_lane (count_up s) (by simp [hx, hp])).1
      ⟨fun t ht => by simp [hempty t ht], by simp [hx, hempty p (by omega)]⟩).1
    simpa [hx] using this
  have hf2 : Falling (spawn (count_up s) p) p 7 := falling_spawn (count_up s) p hclear hempty
  rw [tick_solo_idle s hg hm, e1, e2,
    round_end_alive _ _ _ (by simpa using hd) (by simpa using hcn)]
  refine ⟨hg, hm, hd, hcn, hx, hf2, hc, ?_⟩
  simp only [spawn_count, count_up, hcnt]
  omega

theorem run_idle_add (s : State) (a b : Nat) :
    run s (List.replicate (a + b) idle) =
      run (run s (List.replicate a idle)) (List.replicate b idle) := by
  rw [List.replicate_add, run_append]

theorem scene_run (n : Nat) (s : State) (p : Nat) (m c : Int) (k : Nat) (hp : p ≤ 3)
    (h0 : 0 ≤ m) (hk : ((k + n : Nat) : Int) ≤ Int.tdiv c speed + 1) (hl : k + n < 65536)
    (h : Scene s p m c k) : Scene (run s (List.replicate n idle)) p m c (k + n) := by
  induction n generalizing s k with
  | zero => exact h
  | succ j ih =>
    rw [List.replicate_succ, run]
    have h1 := scene_idle s p m c k hp h0 (by push_cast at hk; omega) (by omega) h
    have h2 := ih (tick s idle).1 (k + 1) (by push_cast at hk ⊢; omega) (by omega) h1
    have e : k + 1 + j = k + (j + 1) := by omega
    rw [e] at h2
    exact h2

theorem run_game_over_idle (n : Nat) (s : State) (hg : s.game_state = 3) :
    run s (List.replicate n idle) = s := by
  induction n with
  | zero => rfl
  | succ j ih =>
    rw [List.replicate_succ, run, tick_game_over s idle hg, game_over_quiet s idle (by decide)]
    exact ih

/-- The collision scenario in a solo round that starts without a stale `'D'`: with
the player on lane `p`, a clear field, `cycle_size = 1000`, `count = 1` and no
events, the first iteration spawns at lane-gap `p`, `dead` stays 0 and the state
Playing for 2484 iterations, and iteration 2485, the fifth descent pass, brings
the tracker to 2, raises `dead`, sends `'D'` and ends the round; `dead` then stays
raised while no event arrives. -/
theorem fresh_solo_round (s : State) (p : Nat) (hp : p ≤ 3) (h : Scene s p (-1) 1000 1) :
    (run s (List.replicate 1 idle)).mines p = 7 ∧
    (∀ j, j ≤ 2484 → (run s (List.replicate j idle)).dead = 0 ∧
      (run s (List.replicate j idle)).game_state = 2) ∧
    (run s (List.replicate 2485 idle)).dead = 1 ∧
    (run s (List.replicate 2485 idle)).game_state = 3 ∧
    (run s (List.replicate 2485 idle)).mines p = 2 ∧
    (∀ n, (run s (List.replicate (2485 + n) idle)).dead = 1 ∧
      (run s (List.replicate (2485 + n) idle)).game_state = 3) := by
  have step : ∀ a b, b = a + 1 → run s (List.replicate b idle) =
      (tick (run s (List.replicate a idle)) idle).1 := by
    intro a b hb
    rw [hb, run_idle_add]
    rfl
  have a1 : Scene (run s (List.replicate 1 idle)) p 7 1000 2 :=
    scene_spawn s p 1000 1 hp (by decide) (by decide) h
  have p1 : ∀ j, 1 ≤ j → j ≤ 500 →
      Scene (run s (List.replicate j idle)) p 7 1000 (j + 1) := by
    intro j hj1 hj2
    obtain ⟨r, rfl⟩ : ∃ r, j = 1 + r := ⟨j - 1, by omega⟩
    rw [run_idle_add]
    have ht : Int.tdiv 1000 speed = 500 := by decide
    have hs := scene_run r _ p 7 1000 2 hp (by decide)
      (by rw [ht]; push_cast; omega) (by omega) a1
    have e : 2 + r = 1 + r + 1 := by omega
    rw [e] at hs
    exact hs
  have a2 : Scene (run s (List.replicate 501 idle)) p 6 996 1 := by
    rw [step 500 501 rfl]
    exact scene_pass _ p 7 1000 501 hp (by decide) (by decide) (by decide)
      (p1 500 (by omega) (by omega))
  have p2 : ∀ j, 501 ≤ j → j ≤ 999 →
      Scene (run s (List.replicate j idle)) p 6 996 (j - 500) := by
    intro j hj1 hj2
    obtain ⟨r, rfl⟩ : ∃ r, j = 501 + r := ⟨j - 501, by omega⟩
    rw [run_idle_add]
    have ht : Int.tdiv 996 speed = 498 := by decide
    have hs := scene_run r _ p 6 996 1 hp (by decide)
      (by rw [ht]; push_cast; omega) (by omega) a2
    have e : 1 + r = 501 + r - 500 := by omega
    rw [e] at hs
    exact hs
  have a3 : Scene (run s (List.replicate 1000 idle)) p 5 992 1 := by
    rw [step 999 1000 rfl]
    exact scene_pass _ p 6 996 499 hp (by decide) (by decide) (by decide)
      (p2 999 (by omega) (by omega))
  have p3 : ∀ j, 1000 ≤ j → j ≤ 1496 →
      Scene (run s (List.replicate j idle)) p 5 992 (j - 999) := by
    intro j hj1 hj2
    obtain ⟨r, rfl⟩ : ∃ r, j = 1000 + r := ⟨j - 1000, by omega⟩
    rw [run_idle_add]
    have ht : Int.tdiv 992 speed = 496 := by decide
    have hs := scene_run r _ p 5 992 1 hp (by decide)
      (by rw [ht]; push_cast; omega) (by omega) a3
    have e : 1 + r = 1000 + r - 999 := by omega
    rw [e] at hs
    exact hs
  have a4 : Scene (run s (List.replicate 1497 idle)) p 4 988 1 := by
    rw [step 1496 1497 rfl]
    exact scene_pass _ p 5 992 497 hp (by decide) (by decide) (by decide)
      (p3 1496 (by omega) (by omega))
  have p4 : ∀ j, 1497 ≤ j → j ≤ 1991 →
      Scene (run s (List.replicate j idle)) p 4 988 (j - 1496) := by
    intro j hj1 hj2
    obtain ⟨r, rfl⟩ : ∃ r, j = 1497 + r := ⟨j - 1497, by omega⟩
    rw [run_idle_add]
    have ht : Int.tdiv 988 speed = 494 := by decide
    have hs := scene_run r _ p 4 988 1 hp (by decide)
      (by rw [ht]; push_cast; omega) (by omega) a4
    have e : 1 + r = 1497 + r - 1496 := by omega
    rw [e] at hs
    exact hs
  have a5 : Scene (run s (List.replicate 1992 idle)) p 3 984 1 := by
    rw [step 1991 1992 rfl]
    exact scene_pass _ p 4 988 495 hp (by decide) (by decide) (by decide)
      (p4 1991 (by omega) (by omega))
  have p5 : ∀ j, 1992 ≤ j → j ≤ 2484 →
      Scene (run s (List.replicate j idle)) p 3 984 (j - 1991) := by
    intro j hj1 hj2
    obtain ⟨r, rfl⟩ : ∃ r, j = 1992 + r := ⟨j - 1992, by omega⟩
    rw [run_idle_add]
    have ht : Int.tdiv 984 speed = 492 := by decide
    have hs := scene_run r _ p 3 984 1 hp (by decide)
      (by rw [ht]; push_cast; omega) (by omega) a5
    have e : 1 + r = 1992 + r - 1991 := by omega
    rw [e] at hs
    exact hs
  have d := scene_death (run s (List.replicate 2484 idle)) p 984 493 hp (by decide)
    (p5 2484 (by omega) (by omega))
  rw [← step 2484 2485 rfl] at d
  refine ⟨a1.2.2.2.2.2.1.1, ?_, d.1, d.2.1, d.2.2.1, ?_⟩
  · intro j hj
    by_cases h0 : j = 0
    · subst h0
      exact ⟨h.2.2.1, h.1⟩
    by_cases h1 : j ≤ 500
    · exact ⟨(p1 j (by omega) h1).2.2.1, (p1 j (by omega) h1).1⟩
    by_cases h2 : j ≤ 999
    · exact ⟨(p2 j (by omega) h2).2.2.1, (p2 j (by omega) h2).1⟩
    by_cases h3 : j ≤ 1496
    · exact ⟨(p3 j (by omega) h3).2.2.1, (p3 j (by omega) h3).1⟩
    by_cases h4 : j ≤ 1991
    · exact ⟨(p4 j (by omega) h4).2.2.1, (p4 j (by omega) h4).1⟩
    · exact ⟨(p5 j (by omega) hj).2.2.1, (p5 j (by omega) hj).1⟩
  · intro n
    rw [run_idle_add, run_game_over_idle n _ d.2.1]
    exact ⟨d.1, d.2.1⟩

theorem solo_start_scene : Scene solo_start 2 (-1) 1000 1 :=
  ⟨rfl, rfl, rfl, by decide, rfl, ⟨rfl, fun _ _ _ => rfl, fun _ _ _ _ => by
    rw [if_neg]
    · rfl
    · omega⟩, rfl, rfl⟩

/-! ## Collision predicate -/

/-- C1. `collision` returns 1 and leaves `dead` unchanged for a lane outside
`[0, 3]`; for a lane in `[0, 3]` it returns 1 and sets `dead` when one of the
cells `(L,0)`, `(L,1)`, `(L+1,0)`, `(L+1,1)` is occupied, and it returns 0 and
leaves `dead` unchanged when all four are clear. -/
theorem collision_spec (s : State) (L : Int) :
    ((L < 0 ∨ L > 3) → (collision s L).1 = 1 ∧ (collision s L).2.dead = s.dead) ∧
    (0 ≤ L ∧ L ≤ 3 →
      (s.map L.toNat 0 ≠ 0 ∨ s.map L.toNat 1 ≠ 0 ∨
        s.map (L.toNat + 1) 0 ≠ 0 ∨ s.map (L.toNat + 1) 1 ≠ 0) →
      (collision s L).1 = 1 ∧ (collision s L).2.dead = 1) ∧
    (0 ≤ L ∧ L ≤ 3 →
      (s.map L.toNat 0 = 0 ∧ s.map L.toNat 1 = 0 ∧
        s.map (L.toNat + 1) 0 = 0 ∧ s.map (L.toNat + 1) 1 = 0) →
      (collision s L).1 = 0 ∧ (collision s L).2.dead = s.dead) := by
  refine ⟨?_, ?_, ?_⟩
  · intro h
    have h1 : L > 3 ∨ L < 0 := h.symm
    simp [collision, h1]
  · rintro ⟨h0, h3⟩ hocc
    have h1 : ¬ (L > 3 ∨ L < 0) := by omega
    have e : (L + 1).toNat = L.toNat + 1 := by omega
    rw [← e] at hocc
    unfold collision
    rw [if_neg h1]
    by_cases ha : s.map L.toNat 0 ≠ 0 ∨ s.map L.toNat 1 ≠ 0
    · rw [if_pos ha]; simp [player_died]
    · rw [if_neg ha]
      have hb : s.map (L + 1).toNat 0 ≠ 0 ∨ s.map (L + 1).toNat 1 ≠ 0 := by tauto
      rw [if_pos hb]; simp [player_died]
  · rintro ⟨h0, h3⟩ ⟨c1, c2, c3, c4⟩
    have h1 : ¬ (L > 3 ∨ L < 0) := by omega
    have e : (L + 1).toNat = L.toNat + 1 := by omega
    simp [collision, h1, c1, c2, e, c3, c4]

/-- C1, instance: on the empty field of the initial state lane -1 is refused
without a death and lane 2 is free. -/
theorem collision_spec_witness :
    ((collision init (-1)).1 = 1 ∧ (collision init (-1)).2.dead = init.dead) ∧
    ((collision init 2).1 = 0 ∧ (collision init 2).2.dead = init.dead) :=
  ⟨(collision_spec init (-1)).1 (Or.inl (by decide)),
   (collision_spec init 2).2.2 ⟨by decide, by decide⟩ ⟨rfl, rfl, rfl, rfl⟩⟩

/-! ## Movement -/

/-- C2. In a Playing state with the lane index in `[0, 3]`, an iteration with a
single move event leaves the lane index unchanged if the destination lane
(lane + 1 for a move right, lane - 1 for a move left) is blocked on the field as
it stands when the event is handled, and changes it by exactly +1 or -1
otherwise. -/
theorem movement_spec (s : State) (i : Input) (hg : s.game_state = 2) (hx : s.playerx ≤ 3) :
    (i.east = true → i.west = false →
      (tick s i).1.playerx =
        if lane_blocked (play_field s i).1.map ((s.playerx : Int) + 1) then s.playerx
        else s.playerx + 1) ∧
    (i.west = true → i.east = false →
      (tick s i).1.playerx =
        if lane_blocked (play_field s i).1.map ((s.playerx : Int) - 1) then s.playerx
        else s.playerx - 1) := by
  have hx2 : (play_field s i).1.playerx ≤ 3 := by simpa using hx
  constructor
  · intro he hw
    have := move_right_playerx _ hx2
    simp only [play_field_playerx] at this
    simp [tick_playing s i hg, playing, play_update, play_move, he, hw, this]
  · intro hw he
    have := move_left_playerx _ hx2
    simp only [play_field_playerx] at this
    simp [tick_playing s i hg, playing, play_update, play_move, he, hw, this]

/-- C2, instance: at the start of a solo round a move right takes the player
from lane 2 to lane 3. -/
theorem movement_spec_witness :
    (tick solo_start ⟨false, true, false, none⟩).1.playerx =
      if lane_blocked (play_field solo_start ⟨false, true, false, none⟩).1.map
        ((solo_start.playerx : Int) + 1) then solo_start.playerx
      else solo_start.playerx + 1 :=
  (movement_spec solo_start ⟨false, true, false, none⟩ rfl (by decide)).1 rfl rfl

/-! ## Leaving Playing -/

/-- C3, solo part, evaluated: `stale_state` is reachable, it is a solo Playing
state, the iteration without any event raises no death, and yet the iteration
leaves Playing for the game-over state, because `connection` still holds the
`'D'` of the round before. -/
theorem solo_round_ends_on_stale_byte :
    Reachable stale_state ∧ stale_state.game_state = 2 ∧ stale_state.multiplayer = 0 ∧
    (play_update stale_state idle).1.dead = 0 ∧
    (tick stale_state idle).1.game_state = 3 ∧ (tick stale_state idle).1.dead = 0 :=
  ⟨reachable_stale_state, by decide, by decide, by decide, by decide, by decide⟩

/-! ## Death notification -/

/-- C4. Along every execution, an iteration sends the byte `'D'` exactly once if
it is a Playing iteration during which `dead` goes from 0 to 1, and not at all
otherwise; outside Playing no iteration raises `dead`. -/
theorem death_notify_once (s : State) (i : Input) (h : Reachable s) :
    List.count ch_D (tick s i).2 =
        (if s.game_state = 2 ∧ s.dead = 0 ∧ (play_update s i).1.dead = 1 then 1 else 0) ∧
      (s.game_state ≠ 2 → s.dead = 0 → (tick s i).1.dead = 0) := by
  have hi := reachable_inv s h
  have hr := hi.rg
  constructor
  · rcases hi.gs with hg | hg | hg | hg | hg
    · simp [tick_menu s i hg, hg]
    · simp [tick_connecting s i hg, hg, connecting, ir_connect, ch_C, ch_D]
    · simp [tick_countdown_eq s i hg, hg]
    · have hd0 : s.dead = 0 := hi.dz (by omega)
      have hdl := (ranges_play_update s i hr).dl
      have ho : List.count ch_D (play_update s i).2 = 0 := play_update_out_count s i hr.px
      rw [tick_playing s i hg]
      unfold playing round_end
      dsimp only
      by_cases hd : (play_update s i).1.dead = 1
      · have hne : (play_update s i).1.dead ≠ 0 := by omega
        rw [if_pos (Or.inl hne), if_pos hne, if_pos ⟨hg, hd0, hd⟩]
        dsimp only
        rw [List.count_append, ho]
        rfl
      · have he : (play_update s i).1.dead = 0 := by omega
        have hn : ¬ (play_update s i).1.dead ≠ 0 := by omega
        rw [if_neg (by tauto : ¬ (s.game_state = 2 ∧ s.dead = 0 ∧ (play_update s i).1.dead = 1))]
        by_cases hc : (play_update s i).1.connection = ch_D
        · rw [if_pos (Or.inr hc), if_neg hn]
          simpa using ho
        · rw [if_neg (by tauto)]
          exact ho
    · simp [tick_game_over s i hg, hg]
  · intro hg hd
    rcases hi.gs with hg2 | hg2 | hg2 | hg2 | hg2
    · simpa [tick_menu s i hg2] using hd
    · simpa [tick_connecting s i hg2] using hd
    · simpa [tick_countdown_eq s i hg2] using hd
    · exact absurd hg2 hg
    · rw [tick_game_over s i hg2]
      unfold game_over
      split_ifs
      · rfl
      · exact hd

/-- C4, instance: `pre_death` is reachable, and the iteration that brings the
mine down onto the player sends `'D'` exactly once. -/
theorem death_notify_once_witness :
    Reachable pre_death ∧ List.count ch_D (tick pre_death idle).2 = 1 :=
  ⟨reachable_pre_death, by
    rw [(death_notify_once pre_death idle reachable_pre_death).1]
    decide⟩

/-! ## Spawning onto an active tracker -/

/-- C5, multiplayer part, evaluated: `drop_state` is a reachable multiplayer
Playing state whose tracker 2 is active (value 3, cells in rows 3 and 2). The
byte `'2'` resets that tracker to the spawn row 7 and occupies the cell `(2,7)`,
while without the byte the tracker keeps its value and the cell stays clear; the
cells of the old position stay occupied with no tracker left to clear them. -/
theorem drop_on_active_tracker :
    Reachable drop_state ∧ drop_state.game_state = 2 ∧ drop_state.multiplayer = 1 ∧
    drop_state.mines 2 = 3 ∧
    (tick drop_state (rx_byte 50)).1.mines 2 = 7 ∧
    (tick drop_state idle).1.mines 2 = 3 ∧
    drop_state.map 2 7 = 0 ∧
    (tick drop_state (rx_byte 50)).1.map 2 7 = 1 ∧
    (tick drop_state idle).1.map 2 7 = 0 ∧
    (tick drop_state (rx_byte 50)).1.map 2 3 = 1 ∧
    (tick drop_state (rx_byte 50)).1.map 2 2 = 1 :=
  ⟨reachable_drop_state, by decide, by decide, by decide, by decide, by decide, by decide,
    by decide, by decide, by decide, by decide⟩

/-! ## Solo spawn lane -/

/-- C6, as amended. In a solo Playing iteration the spawn step acts on the state
left by the descent and the count. If no tracker is above row 3 and the tracker
of the player's own lane-gap is empty, the new mine is placed on the player's own
lane-gap: that tracker becomes 7 and no other tracker changes. Otherwise the
iteration spawns nothing. -/
theorem solo_spawn_spec (s : State) (i : Input) (hm : s.multiplayer = 0)
    (hx : s.playerx ≤ 3) :
    (play_field s i).1 = solo_spawn (count_up (drop_mines s)) ∧
    ((∀ t, t < 4 → (drop_mines s).mines t ≤ 3) ∧ (drop_mines s).mines s.playerx = -1 →
      (play_field s i).1 = spawn (count_up (drop_mines s)) s.playerx ∧
        (play_field s i).1.mines s.playerx = 7 ∧
        ∀ t, t ≠ s.playerx → (play_field s i).1.mines t = (drop_mines s).mines t) ∧
    (¬ ((∀ t, t < 4 → (drop_mines s).mines t ≤ 3) ∧ (drop_mines s).mines s.playerx = -1) →
      (play_field s i).1 = count_up (drop_mines s)) := by
  have e : (play_field s i).1 = solo_spawn (count_up (drop_mines s)) := by
    simp [play_field, link_read, spawn_phase, hm]
  have hx2 : (count_up (drop_mines s)).playerx ≤ 3 := by simpa using hx
  have hs := solo_spawn_on_lane (count_up (drop_mines s)) hx2
  simp only [count_up_mines, count_up_playerx, drop_mines_playerx] at hs
  rw [e]
  exact ⟨rfl, hs.1, hs.2⟩

/-- C6, instance of the amended statement: on the first Playing iteration of a
solo round the mine goes to the player's lane-gap 2. -/
theorem solo_spawn_spec_witness :
    (play_field solo_start idle).1 = spawn (count_up (drop_mines solo_start)) solo_start.playerx ∧
      (play_field solo_start idle).1.mines solo_start.playerx = 7 ∧
      ∀ t, t ≠ solo_start.playerx →
        (play_field solo_start idle).1.mines t = (drop_mines solo_start).mines t :=
  (solo_spawn_spec solo_start idle rfl (by decide)).2.1 ⟨by decide, by decide⟩

/-- C6, counterexample to the claim as stated: on the first Playing iteration of
a solo round (player on lane 2, every tracker empty) the lowest empty lane-gap
other than the player's is 0, yet the iteration leaves tracker 0 empty and
places the new mine on the player's own lane-gap 2. -/
theorem solo_spawn_on_own_lane :
    Reachable solo_start ∧ solo_start.game_state = 2 ∧ solo_start.multiplayer = 0 ∧
    solo_start.playerx = 2 ∧ (∀ t, t < 4 → solo_start.mines t = -1) ∧
    (tick solo_start idle).1.mines 2 = 7 ∧ (tick solo_start idle).1.mines 0 = -1 :=
  ⟨reachable_solo_start, by decide, by decide, by decide, by decide, by decide, by decide⟩

/-! ## Spawn, descent, clear -/

/-- C7. From a field that is clear with every tracker empty, a spawn at lane-gap
`i` followed by `k` descent passes leaves tracker `i` at `7 - k` for every
`k ≤ 8`; after the eighth pass the tracker is -1 and every cell of the field is
clear again. -/
theorem spawn_descend_clear (s : State) (i : Nat) (hi : i < 4)
    (hclear : ∀ c r, c < 5 → r < 8 → s.map c r = 0) (hempty : ∀ t, t < 4 → s.mines t = -1) :
    (∀ k, k ≤ 8 → (Nat.iterate drop_pass k (spawn s i)).mines i = 7 - (k : Int)) ∧
    (Nat.iterate drop_pass 8 (spawn s i)).mines i = -1 ∧
    ∀ c r, c < 5 → r < 8 → (Nat.iterate drop_pass 8 (spawn s i)).map c r = 0 := by
  have hf := falling_iterate _ i hi (falling_spawn s i hclear hempty)
  refine ⟨fun k hk => (hf k hk).1, (hf 8 (by omega)).1, ?_⟩
  intro c r hc hr
  have h := (hf 8 (by omega)).2.2 c r hc hr
  rw [h, if_neg]
  intro hx
  omega

/-- C7, instance: lane-gap 2 on the field of the initial state, after three and
after eight passes. -/
theorem spawn_descend_clear_witness :
    (Nat.iterate drop_pass 3 (spawn init 2)).mines 2 = 7 - ((3 : Nat) : Int) ∧
    (Nat.iterate drop_pass 8 (spawn init 2)).mines 2 = -1 ∧
    ∀ c r, c < 5 → r < 8 → (Nat.iterate drop_pass 8 (spawn init 2)).map c r = 0 :=
  ⟨(spawn_descend_clear init 2 (by decide) (fun _ _ _ _ => rfl) (fun _ _ => rfl)).1 3
      (by decide),
    (spawn_descend_clear init 2 (by decide) (fun _ _ _ _ => rfl) (fun _ _ => rfl)).2⟩

/-! ## Difficulty bounds -/

/-- C8. In every reachable state `cycle_size` lies between 100 and 1000, and an
iteration that does not run the reset block of case 3 leaves it unchanged or
smaller. -/
theorem difficulty_bounds (s : State) (h : Reachable s) :
    100 ≤ s.cycle_size ∧ s.cycle_size ≤ 1000 ∧
      ∀ i, ¬ confirm_reset s i → (tick s i).1.cycle_size ≤ s.cycle_size :=
  ⟨(reachable_inv s h).rg.clo, (reachable_inv s h).rg.chi, fun i hi => tick_cycle_le s i hi⟩

/-- C8, instance: the reachable state `pre_death`, four descent passes into a
round, and the iteration without events that follows it. -/
theorem difficulty_bounds_witness :
    100 ≤ pre_death.cycle_size ∧ pre_death.cycle_size ≤ 1000 ∧
      (tick pre_death idle).1.cycle_size ≤ pre_death.cycle_size :=
  ⟨(difficulty_bounds pre_death reachable_pre_death).1,
    (difficulty_bounds pre_death reachable_pre_death).2.1,
    (difficulty_bounds pre_death reachable_pre_death).2.2 idle
      (fun h => absurd h.1 (by decide))⟩

/-! ## Round reset -/

/-- C9. In the game-over state an iteration with a PUSH event goes to the menu
with every cell clear, every tracker -1, `cycle_size` back at 1000 and `dead`
cleared; an iteration without a PUSH event changes nothing and sends nothing. -/
theorem round_reset (s : State) (i : Input) (hg : s.game_state = 3) :
    (i.push = true →
      (tick s i).1.game_state = 9 ∧
      (∀ c r, c < 5 → r < 8 → (tick s i).1.map c r = 0) ∧
      (∀ t, t < 4 → (tick s i).1.mines t = -1) ∧
      (tick s i).1.cycle_size = 1000 ∧ (tick s i).1.dead = 0) ∧
    (i.push = false → tick s i = (s, [])) := by
  rw [tick_game_over s i hg]
  constructor
  · intro hp
    rw [game_over_push s i hp]
    refine ⟨rfl, ?_, ?_, rfl, rfl⟩
    · intro c r hc hr
      show clear_map s.map c r = 0
      rw [clear_map_apply, if_pos ⟨hc, hr⟩]
    · intro t ht
      show clear_mines s.mines t = -1
      rw [clear_mines_apply, if_pos ht]
  · intro hp
    rw [game_over_quiet s i (by simp [hp])]

/-- C9, instance: the confirm after the death that follows `pre_death`. -/
theorem round_reset_witness :
    (tick (tick pre_death idle).1 ev_push).1.game_state = 9 ∧
      (∀ c r, c < 5 → r < 8 → (tick (tick pre_death idle).1 ev_push).1.map c r = 0) ∧
      (∀ t, t < 4 → (tick (tick pre_death idle).1 ev_push).1.mines t = -1) ∧
      (tick (tick pre_death idle).1 ev_push).1.cycle_size = 1000 ∧
      (tick (tick pre_death idle).1 ev_push).1.dead = 0 :=
  (round_reset (tick pre_death idle).1 ev_push (by decide)).1 rfl

/-! ## Player position at round start -/

/-- C10, evaluated: `lane_state` is the reachable first Playing iteration of a
second round, entered after a confirm reset, and the player stands on lane 1
there, not on the centre lane 2 of the first round. -/
theorem second_round_off_centre :
    Reachable lane_state ∧ lane_state.game_state = 2 ∧ lane_state.count = 1 ∧
    lane_state.playerx = 1 ∧ init.playerx = 2 :=
  ⟨reachable_lane_state, by decide, by decide, by decide, by decide⟩

/-! ## Menu confirm -/

/-- C12. In the menu the flag `multiplayer` is set by WEST when it is 0 and cleared
by EAST when it is not; an iteration with a PUSH event then goes to the
connection setup if the flag, after that handling, is set and to the countdown
otherwise, and an iteration without a PUSH event stays in the menu. Outside the
menu no iteration changes the flag. -/
theorem menu_confirm (s : State) (i : Input) :
    (s.game_state = 9 →
      (tick s i).1.multiplayer =
          (if s.multiplayer = 0 then (if i.west = true then 1 else 0)
            else (if i.east = true then 0 else s.multiplayer)) ∧
        (i.push = true → (tick s i).1.multiplayer ≠ 0 → (tick s i).1.game_state = 0) ∧
        (i.push = true → (tick s i).1.multiplayer = 0 → (tick s i).1.game_state = 1) ∧
        (i.push = false → (tick s i).1.game_state = 9)) ∧
    (s.game_state ≠ 9 → (tick s i).1.multiplayer = s.multiplayer) := by
  refine ⟨fun hg => ?_, tick_multiplayer_frame s i⟩
  rw [tick_menu s i hg]
  refine ⟨menu_multiplayer s i, ?_, ?_, ?_⟩
  · intro hp hm
    rw [menu_game_state, if_pos hp, if_pos hm]
  · intro hp hm
    rw [menu_game_state, if_pos hp, if_neg (by simpa using hm)]
  · intro hp
    rw [menu_game_state, if_neg (by simp [hp]), hg]

/-- C12, instance: from power-on, PUSH starts the countdown, WEST then PUSH
starts the connection setup, no event stays in the menu, and a WEST event in a
Playing state leaves the flag alone. -/
theorem menu_confirm_witness :
    (tick init ev_push).1.game_state = 1 ∧
      (tick (tick init ev_west).1 ev_push).1.game_state = 0 ∧
      (tick init idle).1.game_state = 9 ∧
      (tick solo_start ev_west).1.multiplayer = solo_start.multiplayer :=
  ⟨((menu_confirm init ev_push).1 rfl).2.2.1 rfl (by decide),
    ((menu_confirm (tick init ev_west).1 ev_push).1 rfl).2.1 rfl (by decide),
    ((menu_confirm init idle).1 rfl).2.2.2 rfl,
    (menu_confirm solo_start ev_west).2 (by decide)⟩

/-! ## Handshake -/

/-- C13. Every iteration in the connection setup sends exactly the byte `'C'`,
and it moves to the countdown if and only if the byte returned by `ir_read` on
that iteration is `'C'`; on any other byte, and when nothing was received, the
state stays in the connection setup. -/
theorem handshake (s : State) (i : Input) (hg : s.game_state = 0) :
    (tick s i).2 = [ch_C] ∧
      ((tick s i).1.game_state = 1 ↔ ir_read i = ch_C) ∧
      (ir_read i ≠ ch_C → (tick s i).1.game_state = 0) ∧
      (i.rx = none → (tick s i).1.game_state = 0) := by
  rw [tick_connecting s i hg]
  unfold connecting ir_connect
  dsimp only
  by_cases hc : ir_read i = ch_C
  · refine ⟨rfl, ?_, fun h => absurd hc h, ?_⟩
    · rw [if_pos hc]
      exact ⟨fun _ => hc, fun _ => rfl⟩
    · intro hn
      simp [ir_read, hn, ch_N, ch_C] at hc
  · refine ⟨rfl, ?_, ?_, ?_⟩
    · rw [if_neg hc]
      simp [hg, hc]
    · intro _
      rw [if_neg hc]
      exact hg
    · intro _
      rw [if_neg hc]
      exact hg

/-- C13, instance: the connection setup reached by WEST and PUSH, with the byte
`'C'` and with no byte. -/
theorem handshake_witness :
    (tick (tick (tick init ev_west).1 ev_push).1 (rx_byte ch_C)).2 = [ch_C] ∧
      ((tick (tick (tick init ev_west).1 ev_push).1 (rx_byte ch_C)).1.game_state = 1 ↔
        ir_read (rx_byte ch_C) = ch_C) ∧
      (tick (tick (tick init ev_west).1 ev_push).1 idle).1.game_state = 0 :=
  ⟨(handshake (tick (tick init ev_west).1 ev_push).1 (rx_byte ch_C) (by decide)).1,
    (handshake (tick (tick init ev_west).1 ev_push).1 (rx_byte ch_C) (by decide)).2.1,
    (handshake (tick (tick init ev_west).1 ev_push).1 idle (by decide)).2.2.2 rfl⟩

/-! ## Secondary hazard check -/

/-- C16. With `dead` clear and the trackers at least -1, the step of the descent
pass for lane-gap `t` raises `dead` exactly when, after the decrement of tracker
`t`, that tracker holds 0, 1 or 2 and the columns `t`, `t + 1` of the mine meet
the columns `p`, `p + 1` of the player; so a tracker at 3 or above, an empty
tracker and a lane-gap two or more lanes away from the player raise nothing. The
whole pass raises `dead` exactly when one of its four steps does. -/
theorem hazard_check (s : State) (hd : s.dead = 0) (hm : ∀ t, t < 4 → -1 ≤ s.mines t) :
    (∀ t, t < 4 →
      ((drop_mine t s).dead ≠ 0 ↔
        (0 ≤ (drop_mine t s).mines t ∧ (drop_mine t s).mines t ≤ 2 ∧
          ∃ c, (c = t ∨ c = t + 1) ∧ (c = s.playerx ∨ c = s.playerx + 1))) ∧
      ((3 ≤ (drop_mine t s).mines t ∨ (drop_mine t s).mines t = -1 ∨
          t + 2 ≤ s.playerx ∨ s.playerx + 2 ≤ t) → (drop_mine t s).dead = 0)) ∧
    ((drop_pass s).dead ≠ 0 ↔
      ∃ t, t < 4 ∧ 0 ≤ (drop_pass s).mines t ∧ (drop_pass s).mines t ≤ 2 ∧
        ∃ c, (c = t ∨ c = t + 1) ∧ (c = s.playerx ∨ c = s.playerx + 1)) := by
  have span : ∀ t p : Nat, (∃ c, (c = t ∨ c = t + 1) ∧ (c = p ∨ c = p + 1)) ↔
      (t = p ∨ t = p + 1 ∨ t + 1 = p) := by
    intro t p
    constructor
    · rintro ⟨c, h1, h2⟩
      omega
    · rintro (h | h | h)
      · exact ⟨t, Or.inl rfl, Or.inl h⟩
      · exact ⟨t, Or.inl rfl, Or.inr h⟩
      · exact ⟨t + 1, Or.inr rfl, Or.inl h⟩
  have step : ∀ t, t < 4 → ((drop_mine t s).dead ≠ 0 ↔
      (0 ≤ (drop_mine t s).mines t ∧ (drop_mine t s).mines t ≤ 2 ∧
        ∃ c, (c = t ∨ c = t + 1) ∧ (c = s.playerx ∨ c = s.playerx + 1))) := by
    intro t ht
    rw [drop_mine_dead_iff t s (hm t ht), span]
    simp [hd]
  refine ⟨fun t ht => ⟨step t ht, ?_⟩, ?_⟩
  · intro h
    by_contra hne
    obtain ⟨h0, h2, c, hc1, hc2⟩ := (step t ht).1 hne
    omega
  · have ex4 : ∀ Q : Nat → Prop, (∃ t, t < 4 ∧ Q t) ↔ (Q 0 ∨ Q 1 ∨ Q 2 ∨ Q 3) := by
      intro Q
      constructor
      · rintro ⟨t, ht, h⟩
        interval_cases t <;> simp [h]
      · rintro (h | h | h | h)
        exacts [⟨0, by omega, h⟩, ⟨1, by omega, h⟩, ⟨2, by omega, h⟩, ⟨3, by omega, h⟩]
    have m0 := hm 0 (by omega)
    have m1 := hm 1 (by omega)
    have m2 := hm 2 (by omega)
    have m3 := hm 3 (by omega)
    simp only [span]
    refine Iff.trans ?_ (ex4 (fun t => 0 ≤ (drop_pass s).mines t ∧ (drop_pass s).mines t ≤ 2 ∧
      (t = s.playerx ∨ t = s.playerx + 1 ∨ t + 1 = s.playerx))).symm
    have e1 : (drop_mine 0 s).mines 1 = s.mines 1 := drop_mine_mines_other _ _ _ (by decide)
    have e2 : (drop_mine 1 (drop_mine 0 s)).mines 2 = s.mines 2 := by
      rw [drop_mine_mines_other _ _ _ (by decide), drop_mine_mines_other _ _ _ (by decide)]
    have e3 : (drop_mine 2 (drop_mine 1 (drop_mine 0 s))).mines 3 = s.mines 3 := by
      rw [drop_mine_mines_other _ _ _ (by decide), drop_mine_mines_other _ _ _ (by decide),
        drop_mine_mines_other _ _ _ (by decide)]
    have d0 := drop_mine_dead_iff 0 s m0
    have d1 := drop_mine_dead_iff 1 (drop_mine 0 s) (by rw [e1]; exact m1)
    have d2 := drop_mine_dead_iff 2 (drop_mine 1 (drop_mine 0 s)) (by rw [e2]; exact m2)
    have d3 := drop_mine_dead_iff 3 (drop_mine 2 (drop_mine 1 (drop_mine 0 s)))
      (by rw [e3]; exact m3)
    rw [drop_mine_mines_self, e3, ← drop_pass_mines_apply s 3 (by omega)] at d3
    rw [drop_mine_mines_self, e2, ← drop_pass_mines_apply s 2 (by omega)] at d2
    rw [drop_mine_mines_self, e1, ← drop_pass_mines_apply s 1 (by omega)] at d1
    rw [drop_mine_mines_self, ← drop_pass_mines_apply s 0 (by omega)] at d0
    simp only [drop_mine_playerx] at d0 d1 d2 d3
    rw [drop_pass_eq, d3, d2, d1, d0]
    constructor
    · rintro ((((h | h) | h) | h) | h)
      · exact absurd hd h
      · exact Or.inl h
      · exact Or.inr (Or.inl h)
      · exact Or.inr (Or.inr (Or.inl h))
      · exact Or.inr (Or.inr (Or.inr h))
    · rintro (h | h | h | h)
      · exact Or.inl (Or.inl (Or.inl (Or.inr h)))
      · exact Or.inl (Or.inl (Or.inr h))
      · exact Or.inl (Or.inr h)
      · exact Or.inr h

/-- C16, instance: in `pre_death` the player stands on lane 2 and tracker 2 holds
3, so the step for lane-gap 2 raises `dead`, and so does the pass. -/
theorem hazard_check_witness :
    ((drop_mine 2 pre_death).dead ≠ 0 ↔
      (0 ≤ (drop_mine 2 pre_death).mines 2 ∧ (drop_mine 2 pre_death).mines 2 ≤ 2 ∧
        ∃ c, (c = 2 ∨ c = 2 + 1) ∧ (c = pre_death.playerx ∨ c = pre_death.playerx + 1))) ∧
      (drop_mine 2 pre_death).dead = 1 ∧ (drop_pass pre_death).dead = 1 :=
  ⟨((hazard_check pre_death (by decide) (by decide)).1 2 (by decide)).1, by decide, by decide⟩

/-! ## Difficulty step -/

/-- C15, as amended. The speed-up sits inside the loop over the lane-gaps, so a
descent pass lowers `cycle_size` once for each of the four lane-gaps while it is
above 100: from a value above 100 the pass, and the Playing iteration that runs
it without a reset, leave `max 100 (cycle_size - 4)`, which is four less
whenever `cycle_size` is at least 104. -/
theorem difficulty_step (s : State) (h : 100 < s.cycle_size) :
    (drop_pass s).cycle_size = max 100 (s.cycle_size - 4) ∧
    (s.cycle_size ≥ 104 → (drop_pass s).cycle_size = s.cycle_size - 4) ∧
    ∀ i, s.game_state = 2 → (s.count : Int) > Int.tdiv s.cycle_size speed →
      ¬ confirm_reset s i → (tick s i).1.cycle_size = max 100 (s.cycle_size - 4) := by
  have e := drop_pass_cycle_eq s
  rw [if_pos h] at e
  refine ⟨e, fun h2 => by rw [e]; omega, ?_⟩
  intro i hg hc hr
  have e2 : (play_update s i).1.cycle_size = max 100 (s.cycle_size - 4) := by
    have hc2 : ((link_read s i).count : Int) > Int.tdiv (link_read s i).cycle_size speed := by
      simpa using hc
    rw [play_update_cycle]
    unfold drop_mines
    rw [if_pos hc2, drop_pass_cycle_eq]
    simp only [link_read_cycle_size]
    rw [if_pos h]
  rw [tick_playing s i hg]
  unfold playing round_end
  by_cases he : (play_update s i).1.dead ≠ 0 ∨ (play_update s i).1.connection = ch_D
  · have hp : ¬ i.push = true := fun hp => hr ⟨hp, Or.inr ⟨hg, he⟩⟩
    rw [if_pos he, game_over_quiet _ i hp]
    exact e2
  · rw [if_neg he]
    exact e2

/-- C15, instance of the amended statement: the first descent pass of the round
in `first_pass`. -/
theorem difficulty_step_witness :
    (drop_pass first_pass).cycle_size = max 100 (first_pass.cycle_size - 4) ∧
    (tick first_pass idle).1.cycle_size = max 100 (first_pass.cycle_size - 4) :=
  ⟨(difficulty_step first_pass (by decide)).1,
    (difficulty_step first_pass (by decide)).2.2 idle (by decide) (by decide)
      (fun h => absurd h.1 (by decide))⟩

/-- C15, counterexample to the claim as stated: `first_pass` is a reachable Playing
state with `cycle_size = 1000`, above the floor; the next iteration runs one
descent pass and leaves 996, four less and not one less. -/
theorem pass_lowers_by_four :
    Reachable first_pass ∧ first_pass.game_state = 2 ∧ first_pass.cycle_size = 1000 ∧
    (first_pass.count : Int) > Int.tdiv first_pass.cycle_size speed ∧
    (drop_pass first_pass).cycle_size = 996 ∧ (tick first_pass idle).1.cycle_size = 996 ∧
    (tick first_pass idle).1.game_state = 2 :=
  ⟨reachable_first_pass, by decide, by decide, by decide, by decide, by decide, by decide⟩

/-! ## Countdown length -/

/-- C11, evaluated: both states are reachable on entering the countdown. The first
round after power-on stays in the countdown for 3000 iterations and enters Playing
on the next one; the second round of `stale_trace`, entered with the `count = 2`
left by the round before, is still in the countdown after 2998 iterations and
enters Playing on iteration 2999. -/
theorem second_countdown_shorter :
    Reachable first_countdown ∧ Reachable second_countdown ∧
    first_countdown.game_state = 1 ∧ second_countdown.game_state = 1 ∧
    (run first_countdown (List.replicate 3000 idle)).game_state = 1 ∧
    (run first_countdown (List.replicate 3001 idle)).game_state = 2 ∧
    (run second_countdown (List.replicate 2998 idle)).game_state = 1 ∧
    (run second_countdown (List.replicate 2999 idle)).game_state = 2 :=
  ⟨reachable_first_countdown, reachable_second_countdown, rfl, rfl,
    (countdown_length first_countdown rfl (by decide)).1 3000 (by decide),
    (countdown_length first_countdown rfl (by decide)).2.1,
    (countdown_length second_countdown rfl (by decide)).1 2998 (by decide),
    (countdown_length second_countdown rfl (by decide)).2.1⟩

/-! ## Spawn effect -/

/-- C14. In a reachable Playing state, if the iteration spawns at lane-gap `n` (the
player's lane in solo, the lane-gap of the received byte `'0' + n` in
multiplayer), then `n` is one of the four lane-gaps and right after the spawn
tracker `n` holds 7 and the occupied cells of row 7 are exactly those of columns
`n` and `n + 1`. -/
theorem spawn_effect (s : State) (i : Input) (n : Nat) (h : Reachable s)
    (_hg : s.game_state = 2) (hs : spawn_target s i = some n) :
    n < 4 ∧ (s.multiplayer = 0 → n = s.playerx) ∧
      (s.multiplayer ≠ 0 → ir_read i = ch_0 + n) ∧
      (play_field s i).1.mines n = 7 ∧
      ∀ c, c < 5 → ((play_field s i).1.map c 7 ≠ 0 ↔ (c = n ∨ c = n + 1)) := by
  have hi := reachable_inv s h
  have r0 := ranges_link_read s i hi.rg
  have h0 : Top7 (link_read s i) := top7_congr s _ (by simp) (by simp) (reachable_top7 s h)
  have h1 := top7_drop_mines _ r0.mn h0
  have h2 : Top7 (count_up (drop_mines (link_read s i))) :=
    top7_congr _ _ (by simp) (by simp) h1
  unfold spawn_target at hs
  have hf := spawn_lane_facts _ n (by simpa using hi.rg.px) hs
  have e := spawn_phase_some _ i n hs
  refine ⟨hf.1, ?_, ?_, ?_, ?_⟩
  · intro hm
    have := (hf.2.2.1 (by simpa using hm)).1
    simpa using this
  · intro hm
    have := hf.2.2.2 (by simpa using hm)
    simpa [link_read, hm] using this
  · unfold play_field
    rw [e.1]
    simp [setMine]
  · intro c hc
    unfold play_field
    rw [e.2]
    by_cases hcn : c = n ∨ c = n + 1
    · simp only [hcn, iff_true]
      simp only [setCell]
      rcases hcn with hcn | hcn <;> subst hcn <;> simp
    · simp only [hcn, iff_false, not_not]
      have e2 : setCell (setCell (setCell (setCell (count_up (drop_mines (link_read s i))).map
          n 7 1) n 6 1) (n + 1) 7 1) (n + 1) 6 1 c 7 =
          (count_up (drop_mines (link_read s i))).map c 7 := by
        simp only [setCell]
        split_ifs <;> first | rfl | omega
      rw [e2]
      by_contra hne
      obtain ⟨u, hu, hu7, _⟩ := h2 c hc hne
      have := hf.2.1 u hu
      omega

/-- C14, instance: the first Playing iteration of a solo round spawns at the
player's lane-gap 2. -/
theorem spawn_effect_witness :
    2 < 4 ∧ (solo_start.multiplayer = 0 → 2 = solo_start.playerx) ∧
      (solo_start.multiplayer ≠ 0 → ir_read idle = ch_0 + 2) ∧
      (play_field solo_start idle).1.mines 2 = 7 ∧
      ∀ c, c < 5 → ((play_field solo_start idle).1.map c 7 ≠ 0 ↔ (c = 2 ∨ c = 2 + 1)) :=
  spawn_effect solo_start idle 2 reachable_solo_start (by decide) (by decide)

/-! ## Spawn timing -/

/-- C17, as amended. The test `count > cycle_size / speed` gates the descent only:
the spawn step runs in every Playing iteration, and when the test fails it
decides on the trackers as the iteration found them. A tracker goes from empty to
active in an iteration only as the target of that iteration's spawn, and then
holds 7. -/
theorem spawn_timing (s : State) (i : Input) (hg : s.game_state = 2) :
    (∀ t, t < 4 → s.mines t = -1 → (tick s i).1.mines t ≠ -1 →
      spawn_target s i = some t ∧ (tick s i).1.mines t = 7) ∧
    (¬ ((s.count : Int) > Int.tdiv s.cycle_size speed) →
      spawn_target s i = spawn_lane (count_up (link_read s i)) ∧
        (play_field s i).1 = (spawn_phase (count_up (link_read s i)) i).1) := by
  constructor
  · intro t ht hm hne
    have hmid : (count_up (drop_mines (link_read s i))).mines t = -1 := by
      simpa using drop_mines_empty (link_read s i) t ht (by simpa using hm)
    have hpf : (tick s i).1.mines t = (play_field s i).1.mines t := by
      rcases tick_playing_mines s i hg t ht with h | h
      · exact h
      · exact absurd h hne
    rw [hpf] at hne ⊢
    unfold spawn_target
    unfold play_field at hne ⊢
    cases hl : spawn_lane (count_up (drop_mines (link_read s i))) with
    | none =>
      rw [(spawn_phase_none _ i hl).1] at hne
      exact absurd hmid hne
    | some n =>
      rw [(spawn_phase_some _ i n hl).1] at hne ⊢
      unfold setMine at hne ⊢
      by_cases e : t = n
      · rw [if_pos e]
        exact ⟨by rw [e], rfl⟩
      · rw [if_neg e] at hne
        exact absurd hmid hne
  · intro hc
    have hc2 : ¬ (((link_read s i).count : Int) > Int.tdiv (link_read s i).cycle_size speed) := by
      simpa using hc
    have e : drop_mines (link_read s i) = link_read s i := by
      unfold drop_mines
      rw [if_neg hc2]
    unfold spawn_target play_field
    rw [e]
    exact ⟨rfl, rfl⟩

/-- C17, instance of the amended statement: tracker 2 on the first Playing
iteration of a solo round. -/
theorem spawn_timing_witness :
    spawn_target solo_start idle = some 2 ∧ (tick solo_start idle).1.mines 2 = 7 :=
  (spawn_timing solo_start idle rfl).1 2 (by decide) (by decide) (by decide)

/-- C17, counterexample to the claim as stated: on the first Playing iteration of
a solo round `count` is 1 and `cycle_size / speed` is 500, so no interval has
elapsed and no descent runs, yet the iteration takes tracker 2 from empty to 7. -/
theorem spawn_before_interval :
    Reachable solo_start ∧ solo_start.game_state = 2 ∧ solo_start.count = 1 ∧
    Int.tdiv solo_start.cycle_size speed = 500 ∧
    ¬ ((solo_start.count : Int) > Int.tdiv solo_start.cycle_size speed) ∧
    solo_start.mines 2 = -1 ∧ (tick solo_start idle).1.mines 2 = 7 :=
  ⟨reachable_solo_start, by decide, by decide, by decide, by decide, by decide, by decide⟩

/-! ## Index safety -/

/-- C19. In every reachable state the lane index of the player is at most 3 and
every tracker in bounds lies in `[-1, 7]`; and for every input, every access to
`map` made by the iteration has its column in `[0, 4]` and its row in `[0, 7]`,
and every access to `mines` has its index in `[0, 3]`. -/
theorem index_safety (s : State) (i : Input) (h : Reachable s) :
    s.playerx ≤ 3 ∧ (∀ t, t < 4 → -1 ≤ s.mines t ∧ s.mines t ≤ 7) ∧
      (∀ p ∈ tick_cells s i, 0 ≤ p.1 ∧ p.1 ≤ 4 ∧ 0 ≤ p.2 ∧ p.2 ≤ 7) ∧
      (∀ t ∈ tick_trackers s i, 0 ≤ t ∧ t ≤ 3) := by
  have hi := reachable_inv s h
  refine ⟨hi.rg.px, hi.rg.mn, ?_, ?_⟩
  · intro p hp
    unfold tick_cells at hp
    split_ifs at hp
    · exact playing_cells_ok s i hi.rg p hp
    · exact game_over_cells_ok i p hp
    · simp at hp
  · intro t ht
    unfold tick_trackers at ht
    split_ifs at ht
    all_goals first
      | exact playing_trackers_ok s i hi.rg t ht
      | exact loop_trackers_ok t ht
      | simp at ht

/-- C19, instance: the reachable state `pre_death` and an iteration with a move to
the right, whose accesses include the descent of the mine at lane-gap 2 and the
collision test at lane 3. -/
theorem index_safety_witness :
    pre_death.playerx ≤ 3 ∧ (∀ t, t < 4 → -1 ≤ pre_death.mines t ∧ pre_death.mines t ≤ 7) ∧
      (∀ p ∈ tick_cells pre_death ev_east, 0 ≤ p.1 ∧ p.1 ≤ 4 ∧ 0 ≤ p.2 ∧ p.2 ≤ 7) ∧
      (∀ t ∈ tick_trackers pre_death ev_east, 0 ≤ t ∧ t ≤ 3) :=
  index_safety pre_death ev_east reachable_pre_death

/-! ## Field and trackers in solo -/

/-- C20. In every reachable state with the solo mode selected, in particular
throughout a solo round, a cell in bounds is occupied if and only if an active
tracker `t` with value `m` has the column in `{t, t + 1}` and the row in
`{m, m - 1}`; any two active trackers hold values at least 4 apart; no three
trackers are active together; and no cell belongs to the mines of two trackers. -/
theorem solo_grid_consistent (s : State) (h : Reachable s) (hm : s.multiplayer = 0) :
    (∀ c r, c < 5 → r < 8 →
      (s.map c r ≠ 0 ↔
        ∃ t, t < 4 ∧ s.mines t ≠ -1 ∧ (c = t ∨ c = t + 1) ∧
          ((r : Int) = s.mines t ∨ (r : Int) = s.mines t - 1))) ∧
    (∀ t u, t < 4 → u < 4 → t ≠ u → s.mines t ≠ -1 → s.mines u ≠ -1 →
      4 ≤ s.mines t - s.mines u ∨ 4 ≤ s.mines u - s.mines t) ∧
    (∀ t u v, t < 4 → u < 4 → v < 4 → t ≠ u → t ≠ v → u ≠ v →
      s.mines t = -1 ∨ s.mines u = -1 ∨ s.mines v = -1) ∧
    (∀ c r t u, t < 4 → u < 4 → t ≠ u → s.mines t ≠ -1 → s.mines u ≠ -1 →
      ¬ (((c = t ∨ c = t + 1) ∧ ((r : Int) = s.mines t ∨ (r : Int) = s.mines t - 1)) ∧
        ((c = u ∨ c = u + 1) ∧ ((r : Int) = s.mines u ∨ (r : Int) = s.mines u - 1)))) := by
  have hs := (reachable_soloInv s h).2 hm
  have hb := (reachable_inv s h).rg.mn
  refine ⟨hs.1, hs.2, ?_, ?_⟩
  · intro t u v ht hu hv htu htv huv
    have a := hs.2 t u ht hu htu
    have b := hs.2 t v ht hv htv
    have c := hs.2 u v hu hv huv
    have bt := hb t ht
    have bu := hb u hu
    have bv := hb v hv
    omega
  · intro c r t u ht hu htu hta hua
    have a := hs.2 t u ht hu htu hta hua
    omega

/-- C20, instance: the second Playing state of a solo round, with the mine just
spawned at lane-gap 2. -/
theorem solo_grid_consistent_witness :
    (∀ c r, c < 5 → r < 8 →
      ((tick solo_start idle).1.map c r ≠ 0 ↔
        ∃ t, t < 4 ∧ (tick solo_start idle).1.mines t ≠ -1 ∧ (c = t ∨ c = t + 1) ∧
          ((r : Int) = (tick solo_start idle).1.mines t ∨
            (r : Int) = (tick solo_start idle).1.mines t - 1))) ∧
    (∀ t u, t < 4 → u < 4 → t ≠ u → (tick solo_start idle).1.mines t ≠ -1 →
      (tick solo_start idle).1.mines u ≠ -1 →
      4 ≤ (tick solo_start idle).1.mines t - (tick solo_start idle).1.mines u ∨
        4 ≤ (tick solo_start idle).1.mines u - (tick solo_start idle).1.mines t) :=
  ⟨(solo_grid_consistent (tick solo_start idle).1
      (Reachable.step solo_start idle reachable_solo_start) (by decide)).1,
    (solo_grid_consistent (tick solo_start idle).1
      (Reachable.step solo_start idle reachable_solo_start) (by decide)).2.1⟩

/-! ## Solo collision scenario -/

/-- C18, evaluated on a round that inherits a stale `'D'`: `stale_state` is the
reachable first Playing state of a solo round with a clear field, the player on
lane 2 and `dead` clear. Without any event the first iteration spawns the mine at
lane-gap 2 and at once leaves Playing for the game-over state, and `dead` is
never raised afterwards: the mine never descends onto the player. -/
theorem stale_round_without_death :
    Reachable stale_state ∧ stale_state.game_state = 2 ∧ stale_state.multiplayer = 0 ∧
    stale_state.playerx = 2 ∧ ClearEmpty stale_state ∧
    (tick stale_state idle).1.mines 2 = 7 ∧ (tick stale_state idle).1.game_state = 3 ∧
    ∀ n, (run stale_state (List.replicate n idle)).dead = 0 := by
  refine ⟨reachable_stale_state, rfl, rfl, rfl, ⟨fun _ _ _ _ => rfl, fun _ _ => rfl⟩,
    by decide, by decide, ?_⟩
  intro n
  cases n with
  | zero => rfl
  | succ k =>
    rw [List.replicate_succ, run, run_game_over_idle k _ (by decide)]
    decide

end SpaceRacer
